import Mathlib

/-!
EAPD Codec Commander: the power transition engine.

A shallow embedding of `CodecCommander.cpp` / `Configuration.h`.

* The mutable members of the C++ object (`mColdBoot`, `mEAPDPoweredDown`,
  `mHDAPrevPowerState`, `mEAPDCapableNodes`, `mAudioDevice`) form the
  structure `CodecCommander`.
* Every effect on the outside world (hardware verbs, codec reset, delays,
  lock operations, timer arms) and every store to `mColdBoot` /
  `mEAPDPoweredDown` is appended, in program order, to a trace of `Event`s
  carried next to the object in a `Machine`.
* The codec hardware is an arbitrary function `IntelHDA.respond` of the
  history so far and the command being issued, so every pattern of
  responses and failures is covered.
* A dereference of a NULL `mEAPDCapableNodes` is a crash: the functions that
  can reach it return `Option`, with `none` for the crash.
-/

/-- The enum `IOAudioDevicePowerState` of IOKit's audio family. -/
inductive IOAudioDevicePowerState
  | kIOAudioDeviceSleep
  | kIOAudioDeviceIdle
  | kIOAudioDeviceActive
  deriving DecidableEq, Repr

/-- Modelled from the spec: the enum `CodecCommanderState` is declared in
`CodecCommander.h`, which is not among the sources; these are the three
triggers (`kStateSleep`, `kStateWake`, `kStateInit`) that `customCommands` is
called with and compares against. -/
inductive CodecCommanderState
  | kStateSleep
  | kStateWake
  | kStateInit
  deriving DecidableEq, Repr

/-- Modelled from the spec: the verb macros of `IntelHDA.h`, a header that is
not among the sources.  `CodecCommander.cpp` uses the pin-capability query, the
EAPD set/clear verb and the four pin-config default verbs; their numeric values
play no role and the macros are kept symbolic. -/
inductive HdaVerb
  | HDA_VERB_GET_PARAM
  | HDA_VERB_EAPDBTL_SET
  | HDA_VERB_SET_CONFIG_DEFAULT_BYTES_0
  | HDA_VERB_SET_CONFIG_DEFAULT_BYTES_1
  | HDA_VERB_SET_CONFIG_DEFAULT_BYTES_2
  | HDA_VERB_SET_CONFIG_DEFAULT_BYTES_3
  deriving DecidableEq, Repr

/-- One observable step of the driver. -/
inductive Event
  /-- Call of `IORecursiveLockLock(g_lock)`. -/
  | lock
  /-- Call of `IORecursiveLockUnlock(g_lock)`. -/
  | unlock
  /-- Call of `IOSleep(ms)`. -/
  | ioSleep (ms : Nat)
  /-- Call of `IntelHDA::initialize()`. -/
  | hdaInit
  /-- Call of `mIntelHDA->getLayoutID()`. -/
  | getLayoutID
  /-- Call of `mIntelHDA->sendCommand(node, verb, payload)`. -/
  | sendCommand (node : Nat) (verb : HdaVerb) (payload : Nat)
  /-- Call of `mIntelHDA->sendCommand(command)`, the one-argument overload used
  for custom command verbs. -/
  | sendVerb (command : Nat)
  /-- Call of `mIntelHDA->applyIntelTCSEL()`. -/
  | applyIntelTCSEL
  /-- Call of `mIntelHDA->resetCodec()`. -/
  | resetCodec
  /-- Call of `mTimer->setTimeoutMS(ms)`. -/
  | setTimeoutMS (ms : Nat)
  /-- Store to `mColdBoot`. -/
  | storeColdBoot (b : Bool)
  /-- Store to `mEAPDPoweredDown`. -/
  | storeEAPDPoweredDown (b : Bool)
  deriving DecidableEq, Repr

/-- Modelled from the spec: the Hardware Command Port (class `IntelHDA`, declared
in a header that is not among the sources) "sends a single addressed
command/verb to the codec, returns a 32-bit response or a failure sentinel".
The codec answers a command as a function of everything that happened before
and of the command itself; the callers read the value as a `UInt32`. -/
structure IntelHDA where
  respond : List Event → Event → Nat

/-- The struct `CustomCommand` of `Configuration.h`; `Commands` holds the
`CommandCount` verbs of the flexible array member. -/
structure CustomCommand where
  OnInit : Bool
  OnSleep : Bool
  OnWake : Bool
  layoutID : Nat
  Commands : List Nat
  deriving DecidableEq, Repr

/-- The libkern objects met in the "PinConfigDefault" array, as far as `probe`
looks at them: an `OSNumber`, an `OSArray`, an `OSDictionary` seen through its
two lookups `getObject("LayoutID")` and `getObject("PinConfigs")`, or an object
of another class. -/
inductive OSObject
  | number (value : Nat)
  | array (items : List OSObject)
  | dictionary (layoutID : Option OSObject) (pinConfigs : Option OSObject)
  | other

/-- The fields of class `Configuration` read by the engine and by the probe-time
initializer; `mPinConfigDefault` is `none` for a NULL array. -/
structure Configuration where
  mCustomCommands : List CustomCommand
  mCheckInfinite : Bool
  mCheckInterval : Nat
  mPerformReset : Bool
  mPerformResetOnExternalWake : Bool
  mPerformResetOnEAPDFail : Bool
  mUpdateNodes : Bool
  mSleepNodes : Bool
  mSendDelay : Nat
  mDisable : Bool
  mCodecAddressMask : Nat
  mPinConfigDefault : Option (List OSObject)

/-- The mutable members of class `CodecCommander`.  `mEAPDCapableNodes` is
`none` while the pointer is NULL; `mAudioDevice` tells whether the peer audio
device has been located and cached. -/
structure CodecCommander where
  mColdBoot : Bool
  mEAPDPoweredDown : Bool
  mHDAPrevPowerState : IOAudioDevicePowerState
  mEAPDCapableNodes : Option (List Nat)
  mAudioDevice : Bool
  deriving DecidableEq, Repr

/-- A driver instance together with the trace of what it has done so far. -/
structure Machine where
  self : CodecCommander
  trace : List Event
  deriving DecidableEq, Repr

/-- The value `(UInt32)-1`: failure sentinel of `sendCommand`, wildcard of the
layout filter, and "unavailable" of `getLayoutID`. -/
def UINT32_MINUS_ONE : Nat := 4294967295

/-- Reading a value as `UInt32`. -/
def toUInt32 (v : Nat) : Nat := v % 4294967296

/-- Modelled from the spec: the power state ordinals are declared in
`CodecCommander.h`, which is not among the sources; "an ordinal meaning Sleep /
Doze / Normal", numbered in the order of the entries of `powerStateArray`. -/
def kPowerStateSleep : Nat := 0

/-- Modelled from the spec: the ordinal of the doze entry of `powerStateArray`
(see `kPowerStateSleep`). -/
def kPowerStateDoze : Nat := 1

/-- Modelled from the spec: the ordinal of the power-on entry of
`powerStateArray` (see `kPowerStateSleep`). -/
def kPowerStateNormal : Nat := 2

namespace Machine

/-- Append one event to the trace. -/
def emit (e : Event) (m : Machine) : Machine :=
  { m with trace := m.trace ++ [e] }

/-- The statement `mColdBoot = b;`. -/
def setColdBoot (b : Bool) (m : Machine) : Machine :=
  { self := { m.self with mColdBoot := b }, trace := m.trace ++ [Event.storeColdBoot b] }

/-- The statement `mEAPDPoweredDown = b;`. -/
def setEAPDPoweredDown (b : Bool) (m : Machine) : Machine :=
  { self := { m.self with mEAPDPoweredDown := b },
    trace := m.trace ++ [Event.storeEAPDPoweredDown b] }

/-- The statement `mHDAPrevPowerState = p;` (not recorded in the trace). -/
def setHDAPrevPowerState (p : IOAudioDevicePowerState) (m : Machine) : Machine :=
  { m with self := { m.self with mHDAPrevPowerState := p } }

end Machine

namespace IntelHDA

/-- The call `sendCommand(node, verb, payload)`: the response, as `UInt32`, and
the machine after the call. -/
def sendCommand (hda : IntelHDA) (node : Nat) (verb : HdaVerb) (payload : Nat)
    (m : Machine) : Nat × Machine :=
  (toUInt32 (hda.respond m.trace (Event.sendCommand node verb payload)),
   m.emit (Event.sendCommand node verb payload))

/-- The call `sendCommand(command)`. -/
def sendVerb (hda : IntelHDA) (command : Nat) (m : Machine) : Nat × Machine :=
  (toUInt32 (hda.respond m.trace (Event.sendVerb command)), m.emit (Event.sendVerb command))

/-- The call `getLayoutID()`, read into a `UInt32`. -/
def getLayoutID (hda : IntelHDA) (m : Machine) : Nat × Machine :=
  (toUInt32 (hda.respond m.trace Event.getLayoutID), m.emit Event.getLayoutID)

end IntelHDA

/-- The layout test `-1 == customCommand->layoutID || layoutID == customCommand->layoutID`
of `customCommands` and of `CodecCommanderProbeInit::probe`, on `UInt32` values. -/
def layoutTest (filter layoutID : Nat) : Bool :=
  UINT32_MINUS_ONE == filter || layoutID == filter

/-- The trigger test of `customCommands`:
`(OnInit && newState == kStateInit) || (OnWake && newState == kStateWake) ||
(OnSleep && newState == kStateSleep)`. -/
def triggerTest (cc : CustomCommand) (newState : CodecCommanderState) : Bool :=
  (cc.OnInit && newState == CodecCommanderState.kStateInit) ||
  (cc.OnWake && newState == CodecCommanderState.kStateWake) ||
  (cc.OnSleep && newState == CodecCommanderState.kStateSleep)

namespace CodecCommander

/-- The state written by `CodecCommander::init`; the members it does not
write are zero (NULL), as IOKit objects are allocated zero-filled. -/
def init : Machine :=
  { self :=
      { mColdBoot := true
        mEAPDPoweredDown := true
        mHDAPrevPowerState := IOAudioDevicePowerState.kIOAudioDeviceSleep
        mEAPDCapableNodes := none
        mAudioDevice := false }
    trace := [] }

/-- Method `CodecCommander::executeCommand`, with `mIntelHDA` set (as it is from
`start` on). -/
def executeCommand (hda : IntelHDA) (command : Nat) (m : Machine) : Nat × Machine :=
  hda.sendVerb command m

/-- The inner loop of `customCommands`: every verb of one group, in order. -/
def customCommandsInner (hda : IntelHDA) : List Nat → Machine → Machine
  | [], m => m
  | c :: cs, m => customCommandsInner hda cs (executeCommand hda c m).2

/-- The outer loop of `customCommands` over the compiled command list. -/
def customCommandsOuter (hda : IntelHDA) (newState : CodecCommanderState) (layoutID : Nat) :
    List CustomCommand → Machine → Machine
  | [], m => m
  | cc :: rest, m =>
    if triggerTest cc newState && layoutTest cc.layoutID layoutID then
      customCommandsOuter hda newState layoutID rest (customCommandsInner hda cc.Commands m)
    else
      customCommandsOuter hda newState layoutID rest m

/-- Method `CodecCommander::customCommands`. -/
def customCommands (cfg : Configuration) (hda : IntelHDA) (newState : CodecCommanderState)
    (m : Machine) : Machine :=
  let r := hda.getLayoutID m
  let m1 := r.2.emit Event.lock
  let m2 := customCommandsOuter hda newState r.1 cfg.mCustomCommands m1
  m2.emit Event.unlock

/-- The loop of `setEAPD` over the capable nodes, threading `result`. -/
def setEAPDLoop (hda : IntelHDA) (logicLevel : Nat) : List Nat → Bool → Machine → Bool × Machine
  | [], result, m => (result, m)
  | nodeId :: rest, result, m =>
    let r := hda.sendCommand (nodeId % 256) HdaVerb.HDA_VERB_EAPDBTL_SET logicLevel m
    setEAPDLoop hda logicLevel rest (if UINT32_MINUS_ONE == r.1 then false else result) r.2

/-- Method `CodecCommander::setEAPD`; `none` when `mEAPDCapableNodes` is NULL. -/
def setEAPD (cfg : Configuration) (hda : IntelHDA) (logicLevel : Nat) (m : Machine) :
    Option (Bool × Machine) :=
  let m1 := (m.emit (Event.ioSleep cfg.mSendDelay)).emit Event.lock
  match m1.self.mEAPDCapableNodes with
  | none => none
  | some nodes =>
    let r := setEAPDLoop hda logicLevel nodes true m1
    some (r.1, r.2.emit Event.unlock)

/-- Method `CodecCommander::performCodecReset`. -/
def performCodecReset (m : Machine) : Machine :=
  if !m.self.mColdBoot then
    ((((m.emit Event.lock).emit Event.resetCodec).setEAPDPoweredDown true).emit Event.unlock)
  else
    m

/-- Method `CodecCommander::handleStateChange`. -/
def handleStateChange (cfg : Configuration) (hda : IntelHDA)
    (newState : IOAudioDevicePowerState) (m : Machine) : Option Machine :=
  match newState with
  | IOAudioDevicePowerState.kIOAudioDeviceSleep => do
    let m1 := m.setColdBoot false
    let m2 ←
      if cfg.mSleepNodes then do
        let r ← setEAPD cfg hda 0 m1
        if !r.1 && cfg.mPerformResetOnEAPDFail then do
          let r2 ← setEAPD cfg hda 0 (performCodecReset r.2)
          pure r2.2
        else
          pure r.2
      else
        pure m1
    let m3 := customCommands cfg hda CodecCommanderState.kStateSleep m2
    pure (m3.setEAPDPoweredDown true)
  | IOAudioDevicePowerState.kIOAudioDeviceIdle
  | IOAudioDevicePowerState.kIOAudioDeviceActive => do
    let m1 := m.emit Event.applyIntelTCSEL
    let m2 ←
      if cfg.mUpdateNodes then do
        let r ← setEAPD cfg hda 2 m1
        if !r.1 && cfg.mPerformResetOnEAPDFail then do
          let r2 ← setEAPD cfg hda 2 (performCodecReset r.2)
          pure r2.2
        else
          pure r.2
      else
        pure m1
    let m3 := if !m2.self.mColdBoot then customCommands cfg hda CodecCommanderState.kStateWake m2
              else m2
    pure (m3.setEAPDPoweredDown false)

/-- The timer arm at the end of the wake branch of `setPowerState`. -/
def armWakeTimer (cfg : Configuration) (m : Machine) : Machine :=
  if cfg.mCheckInfinite then
    if m.self.mColdBoot then m.emit (Event.setTimeoutMS 20000)
    else m.emit (Event.setTimeoutMS 100)
  else
    m

/-- Method `CodecCommander::setPowerState`; the return value is always
`IOPMAckImplied` and is left out. -/
def setPowerState (cfg : Configuration) (hda : IntelHDA) (powerStateOrdinal : Nat)
    (m : Machine) : Option Machine :=
  if powerStateOrdinal = kPowerStateSleep then
    if !m.self.mEAPDPoweredDown then
      handleStateChange cfg hda IOAudioDevicePowerState.kIOAudioDeviceSleep m
    else
      some m
  else if powerStateOrdinal = kPowerStateDoze ∨ powerStateOrdinal = kPowerStateNormal then do
    let m1 := if cfg.mPerformReset then performCodecReset m else m
    let m2 ←
      if (cfg.mPerformReset || !cfg.mPerformResetOnExternalWake) && m1.self.mEAPDPoweredDown then
        handleStateChange cfg hda IOAudioDevicePowerState.kIOAudioDeviceActive m1
      else
        pure m1
    pure (armWakeTimer cfg m2)
  else
    some m

/-- Method `CodecCommander::setPowerStateExternal`. -/
def setPowerStateExternal (cfg : Configuration) (hda : IntelHDA) (powerStateOrdinal : Nat)
    (m : Machine) : Option Machine :=
  if powerStateOrdinal = kPowerStateSleep then
    if !m.self.mEAPDPoweredDown then
      handleStateChange cfg hda IOAudioDevicePowerState.kIOAudioDeviceSleep m
    else
      some m
  else if powerStateOrdinal = kPowerStateDoze ∨ powerStateOrdinal = kPowerStateNormal then
    let m1 := if m.self.mEAPDPoweredDown && cfg.mPerformResetOnExternalWake then
                performCodecReset m
              else m
    if m1.self.mEAPDPoweredDown then
      handleStateChange cfg hda IOAudioDevicePowerState.kIOAudioDeviceActive m1
    else
      some m1
  else
    some m

/-- Method `CodecCommander::getAudioDevice`; `located` tells whether `getHDADriver`
finds an `IOAudioDevice` below the provider when it is asked. -/
def getAudioDevice (located : Bool) (m : Machine) : Bool × Machine :=
  if !m.self.mAudioDevice then
    let m1 : Machine := { m with self := { m.self with mAudioDevice := located } }
    (m1.self.mAudioDevice, m1)
  else
    (m.self.mAudioDevice, m)

/-- Method `CodecCommander::onTimerAction`; `powerState` is what the peer audio device
reports when it is sampled. -/
def onTimerAction (cfg : Configuration) (hda : IntelHDA) (located : Bool)
    (powerState : IOAudioDevicePowerState) (m : Machine) : Option Machine :=
  let m1 := m.emit (Event.setTimeoutMS cfg.mCheckInterval)
  let r := getAudioDevice located m1
  if !r.1 then
    some r.2
  else if powerState != r.2.self.mHDAPrevPowerState then do
    let m2 := r.2.setHDAPrevPowerState powerState
    let m3 ←
      if powerState == IOAudioDevicePowerState.kIOAudioDeviceSleep then
        handleStateChange cfg hda IOAudioDevicePowerState.kIOAudioDeviceSleep m2
      else
        pure m2
    if powerState != IOAudioDevicePowerState.kIOAudioDeviceSleep then
      handleStateChange cfg hda IOAudioDevicePowerState.kIOAudioDeviceActive m3
    else
      pure m3
  else
    some r.2

end CodecCommander

namespace CodecCommanderPowerHook

/-- Method `CodecCommanderPowerHook::setPowerState`: forwards to the hooked
`CodecCommander` when `mCodecCommander` is set; `m` is the machine of that
engine. -/
def setPowerState (cfg : Configuration) (hda : IntelHDA) (mCodecCommander : Bool)
    (powerStateOrdinal : Nat) (m : Machine) : Option Machine :=
  if mCodecCommander then CodecCommander.setPowerStateExternal cfg hda powerStateOrdinal m
  else some m

end CodecCommanderPowerHook

namespace CodecCommanderProbeInit

/-- The static function `getNumberFromArray`. -/
def getNumberFromArray (array : List OSObject) (index : Nat) : Nat :=
  match array.get? index with
  | some (OSObject.number value) => toUInt32 value
  | _ => UINT32_MINUS_ONE

/-- The verbs of one group in `probe`: `intelHDA.sendCommand(Commands[i])` for
every `i`, in order. -/
def probeCommandsInner (hda : IntelHDA) : List Nat → Machine → Machine
  | [], m => m
  | c :: cs, m => probeCommandsInner hda cs (hda.sendVerb c m).2

/-- The loop of `probe` over "Custom Commands". -/
def probeCommandsOuter (hda : IntelHDA) (layoutID : Nat) :
    List CustomCommand → Machine → Machine
  | [], m => m
  | cc :: rest, m =>
    if layoutTest cc.layoutID layoutID then
      probeCommandsOuter hda layoutID rest (probeCommandsInner hda cc.Commands m)
    else
      probeCommandsOuter hda layoutID rest m

/-- The loop `for (int i = 0; i < count; i += 2)` of `probe` over one "PinConfigs"
array of even length; `iterations` counts the rounds that are left and `i` is
the loop variable.  The arguments of `sendCommand` are recorded as the caller
writes them. -/
def probePinsLoop (hda : IntelHDA) (pins : List OSObject) : Nat → Nat → Machine → Machine
  | 0, _, m => m
  | iterations + 1, i, m =>
    let node := getNumberFromArray pins i
    if UINT32_MINUS_ONE != node then
      let config := getNumberFromArray pins (i + 1)
      let m0 := (hda.sendCommand node HdaVerb.HDA_VERB_SET_CONFIG_DEFAULT_BYTES_0 (config >>> 0) m).2
      let m1 := (hda.sendCommand node HdaVerb.HDA_VERB_SET_CONFIG_DEFAULT_BYTES_1 (config >>> 8) m0).2
      let m2 := (hda.sendCommand node HdaVerb.HDA_VERB_SET_CONFIG_DEFAULT_BYTES_2 (config >>> 16) m1).2
      let m3 := (hda.sendCommand node HdaVerb.HDA_VERB_SET_CONFIG_DEFAULT_BYTES_3 (config >>> 24) m2).2
      probePinsLoop hda pins iterations (i + 2) m3
    else
      probePinsLoop hda pins iterations (i + 2) m

/-- The loop of `probe` over "PinConfigDefault". -/
def probePinConfigs (hda : IntelHDA) (layoutID : Nat) : List OSObject → Machine → Machine
  | [], m => m
  | OSObject.dictionary lid pinConfigs :: rest, m =>
    let id :=
      match lid with
      | some (OSObject.number value) => toUInt32 value
      | _ => UINT32_MINUS_ONE
    if layoutTest id layoutID then
      match pinConfigs with
      | some (OSObject.array pins) =>
        if pins.length % 2 = 1 then
          probePinConfigs hda layoutID rest m
        else
          probePinConfigs hda layoutID rest (probePinsLoop hda pins (pins.length / 2) 0 m)
      | _ => probePinConfigs hda layoutID rest m
    else
      probePinConfigs hda layoutID rest m
  | _ :: rest, m => probePinConfigs hda layoutID rest m

/-- `CodecCommanderProbeInit::probe`.  `ccpioff` tells whether the boot argument
`-ccpioff` is present, `initOk` what `intelHDA.initialize()` returns, `config`
is the profile that the `Configuration` constructor resolves for this codec.
The service has no members of its own; only the trace of the machine changes.
The return value is always NULL and is left out. -/
def probe (config : Configuration) (hda : IntelHDA) (ccpioff initOk : Bool) (m : Machine) :
    Machine :=
  if ccpioff then m
  else
    let m1 := (m.emit Event.lock).emit Event.hdaInit
    if !initOk then m1.emit Event.unlock
    else
      let r := hda.getLayoutID m1
      if UINT32_MINUS_ONE == r.1 then r.2.emit Event.unlock
      else
        let m2 := probeCommandsOuter hda r.1 config.mCustomCommands r.2
        let m3 :=
          match config.mPinConfigDefault with
          | some pinConfigs => probePinConfigs hda r.1 pinConfigs m2
          | none => m2
        m3.emit Event.unlock

end CodecCommanderProbeInit

/-! ## Vocabulary of the statements -/

/-- The EAPD commands of one pass of `setEAPD` over the capable nodes. -/
def eapdEvents (logicLevel : Nat) (nodes : List Nat) : List Event :=
  nodes.map (fun n => Event.sendCommand (n % 256) HdaVerb.HDA_VERB_EAPDBTL_SET logicLevel)

/-- The trigger flag of a group that belongs to a trigger. -/
def flagOf (cc : CustomCommand) : CodecCommanderState → Bool
  | CodecCommanderState.kStateInit => cc.OnInit
  | CodecCommanderState.kStateWake => cc.OnWake
  | CodecCommanderState.kStateSleep => cc.OnSleep

/-- The verbs, in list order, of the groups that `customCommands` selects for a
trigger and a live layout id. -/
def selectedVerbs (newState : CodecCommanderState) (layoutID : Nat)
    (commands : List CustomCommand) : List Nat :=
  (commands.filter (fun cc => triggerTest cc newState && layoutTest cc.layoutID layoutID)).flatMap
    (fun cc => cc.Commands)

/-- Every send of one pass of `setEAPD`, issued in order after the history
`hist`, is answered with the failure sentinel. -/
def eapdPassAllFail (hda : IntelHDA) (logicLevel : Nat) : List Nat → List Event → Bool
  | [], _ => true
  | n :: rest, hist =>
    (toUInt32 (hda.respond hist
        (Event.sendCommand (n % 256) HdaVerb.HDA_VERB_EAPDBTL_SET logicLevel)) == UINT32_MINUS_ONE) &&
      eapdPassAllFail hda logicLevel rest
        (hist ++ [Event.sendCommand (n % 256) HdaVerb.HDA_VERB_EAPDBTL_SET logicLevel])

/-- An EAPD set/clear command or a codec reset. -/
def Event.isEAPDOrReset : Event → Bool
  | Event.sendCommand _ HdaVerb.HDA_VERB_EAPDBTL_SET _ => true
  | Event.resetCodec => true
  | _ => false

/-- A command to the codec hardware: a verb, a reset, the timing compensation
or the layout-id query. -/
def Event.isHardware : Event → Bool
  | Event.sendCommand _ _ _ => true
  | Event.sendVerb _ => true
  | Event.applyIntelTCSEL => true
  | Event.resetCodec => true
  | Event.getLayoutID => true
  | _ => false

/-- A custom command verb. -/
def Event.isVerb : Event → Bool
  | Event.sendVerb _ => true
  | _ => false

/-- An arm of the poll timer. -/
def Event.isTimerArm : Event → Bool
  | Event.setTimeoutMS _ => true
  | _ => false

/-- The attach state of the engine: the three flags as `init` writes them. -/
def attachState (m : Machine) : Prop :=
  m.self.mColdBoot = true ∧ m.self.mEAPDPoweredDown = true ∧
    m.self.mHDAPrevPowerState = IOAudioDevicePowerState.kIOAudioDeviceSleep

instance (m : Machine) : Decidable (attachState m) := by
  unfold attachState; infer_instance

namespace CodecCommander

/-- The EAPD step that both branches of `handleStateChange` spell out: one
`setEAPD`, and when it reports a failure and `performResetOnEAPDFail` is set, a
codec reset and one more `setEAPD` whose result is dropped. -/
def eapdStep (cfg : Configuration) (hda : IntelHDA) (lvl : Nat) (m : Machine) :
    Option Machine := do
  let r ← setEAPD cfg hda lvl m
  if !r.1 && cfg.mPerformResetOnEAPDFail then do
    let r2 ← setEAPD cfg hda lvl (performCodecReset r.2)
    pure r2.2
  else
    pure r.2

/-- The events of one pass of `setEAPD`. -/
def eapdPass (cfg : Configuration) (lvl : Nat) (nodes : List Nat) : List Event :=
  Event.ioSleep cfg.mSendDelay :: Event.lock :: (eapdEvents lvl nodes ++ [Event.unlock])

/-- The first `setEAPD` of the EAPD step reports a failure and the
configuration asks for reset-and-retry. -/
def eapdRetries (cfg : Configuration) (hda : IntelHDA) (lvl : Nat) (nodes : List Nat)
    (m : Machine) : Bool :=
  !(setEAPDLoop hda lvl nodes true
      { self := m.self, trace := m.trace ++ [Event.ioSleep cfg.mSendDelay, Event.lock] }).1 &&
    cfg.mPerformResetOnEAPDFail

/-- The events of `performCodecReset`. -/
def resetEvents (coldBoot : Bool) : List Event :=
  if coldBoot then []
  else [Event.lock, Event.resetCodec, Event.storeEAPDPoweredDown true, Event.unlock]

end CodecCommander

/-- A group whose only set trigger flag is `OnSleep`. -/
def CustomCommand.onlyOnSleep (cc : CustomCommand) : Bool :=
  cc.OnSleep && !cc.OnWake && !cc.OnInit

/-- A group whose only set trigger flag is `OnWake`. -/
def CustomCommand.onlyOnWake (cc : CustomCommand) : Bool :=
  cc.OnWake && !cc.OnSleep && !cc.OnInit

/-- The configuration without the command groups that satisfy `p`. -/
def Configuration.dropGroups (cfg : Configuration) (p : CustomCommand → Bool) : Configuration :=
  { cfg with mCustomCommands := cfg.mCustomCommands.filter (fun cc => !p cc) }

/-- The wake branch of `setPowerState` as claim C7 words it: a codec reset iff
`performReset` is set, then the transition handler with Active whenever
`mEAPDPoweredDown` is true at that point, then the timer arm. -/
def claimedSetPowerStateWake (cfg : Configuration) (hda : IntelHDA) (m : Machine) :
    Option Machine :=
  let m1 := if cfg.mPerformReset then CodecCommander.performCodecReset m else m
  (if m1.self.mEAPDPoweredDown then
      CodecCommander.handleStateChange cfg hda IOAudioDevicePowerState.kIOAudioDeviceActive m1
    else some m1).map (CodecCommander.armWakeTimer cfg)

/-! ## Concrete inputs -/

namespace Example

/-- A codec that answers every verb with the failure sentinel and reports
layout id 3. -/
def hdaFailing : IntelHDA :=
  { respond := fun _ e =>
      match e with
      | Event.getLayoutID => 3
      | _ => 4294967295 }

/-- A codec that answers every verb with 0 and reports layout id 3. -/
def hdaWorking : IntelHDA :=
  { respond := fun _ e =>
      match e with
      | Event.getLayoutID => 3
      | _ => 0 }

/-- A group that fires on sleep only, for every layout. -/
def sleepGroup : CustomCommand :=
  { OnInit := false, OnSleep := true, OnWake := false, layoutID := 4294967295,
    Commands := [16, 17] }

/-- A group that fires on wake only, for layout 3. -/
def wakeGroup : CustomCommand :=
  { OnInit := false, OnSleep := false, OnWake := true, layoutID := 3, Commands := [32, 33] }

/-- A group that fires on wake only, for layout 7. -/
def wakeGroupOther : CustomCommand :=
  { OnInit := false, OnSleep := false, OnWake := true, layoutID := 7, Commands := [48] }

/-- A profile that updates EAPD on wake and on sleep, with reset-and-retry. -/
def cfgNodes : Configuration :=
  { mCustomCommands := [sleepGroup, wakeGroup, wakeGroupOther]
    mCheckInfinite := false
    mCheckInterval := 3000
    mPerformReset := false
    mPerformResetOnExternalWake := false
    mPerformResetOnEAPDFail := true
    mUpdateNodes := true
    mSleepNodes := true
    mSendDelay := 300
    mDisable := false
    mCodecAddressMask := 65535
    mPinConfigDefault := none }

/-- The profile `cfgNodes` with polling enabled. -/
def cfgPolling : Configuration :=
  { cfgNodes with mCheckInfinite := true }

/-- A profile that leaves wake handling to the external power callback:
"Perform Reset" off and "Perform Reset on External Wake" on. -/
def cfgExternal : Configuration :=
  { cfgNodes with mPerformReset := false, mPerformResetOnExternalWake := true }

/-- The engine right after attach, with the given capable nodes. -/
def attached (nodes : List Nat) : Machine :=
  { self := { CodecCommander.init.self with mEAPDCapableNodes := some nodes }, trace := [] }

/-- The engine after a handled sleep: no longer in cold boot, EAPD powered
down. -/
def asleep (nodes : List Nat) : Machine :=
  { self :=
      { mColdBoot := false
        mEAPDPoweredDown := true
        mHDAPrevPowerState := IOAudioDevicePowerState.kIOAudioDeviceSleep
        mEAPDCapableNodes := some nodes
        mAudioDevice := false }
    trace := [] }

/-- The engine awake after a sleep/wake cycle. -/
def awake (nodes : List Nat) : Machine :=
  { self :=
      { mColdBoot := false
        mEAPDPoweredDown := false
        mHDAPrevPowerState := IOAudioDevicePowerState.kIOAudioDeviceActive
        mEAPDCapableNodes := some nodes
        mAudioDevice := false }
    trace := [] }

end Example

/-! ## Lock discipline and further vocabulary -/

/-- The nesting depth of the reentrant lock after the events, starting from
depth `d`. -/
def lockDepthAfter : Nat → List Event → Nat
  | d, [] => d
  | d, Event.lock :: rest => lockDepthAfter (d + 1) rest
  | d, Event.unlock :: rest => lockDepthAfter (d - 1) rest
  | d, _ :: rest => lockDepthAfter d rest

/-- Every event of the list that satisfies `p` happens while the lock is held,
when the list starts at lock depth `d`. -/
def heldThroughout (p : Event → Bool) : Nat → List Event → Bool
  | _, [] => true
  | d, Event.lock :: rest => heldThroughout p (d + 1) rest
  | d, Event.unlock :: rest => heldThroughout p (d - 1) rest
  | d, e :: rest => (!p e || decide (0 < d)) && heldThroughout p d rest

/-- The events of `customCommands(newState)` when it is called after the
history `hist`. -/
def customEvents (cfg : Configuration) (hda : IntelHDA) (newState : CodecCommanderState)
    (hist : List Event) : List Event :=
  Event.getLayoutID :: Event.lock ::
    ((selectedVerbs newState (toUInt32 (hda.respond hist Event.getLayoutID))
        cfg.mCustomCommands).map Event.sendVerb ++ [Event.unlock])

namespace Example

/-- A codec whose layout id is unavailable. -/
def hdaNoLayout : IntelHDA :=
  { respond := fun _ e =>
      match e with
      | Event.getLayoutID => 4294967295
      | _ => 0 }

end Example

namespace CodecCommander

/-- The events of the EAPD step of `handleStateChange` on the capable nodes
`nodes`, when it starts in machine `m`: one pass, and if the first pass reports
a failure and reset-and-retry is configured, the events of `performCodecReset`
and one more pass. -/
def eapdStepEvents (cfg : Configuration) (hda : IntelHDA) (lvl : Nat) (nodes : List Nat)
    (m : Machine) : List Event :=
  eapdPass cfg lvl nodes ++
    (if eapdRetries cfg hda lvl nodes m then
      resetEvents m.self.mColdBoot ++ eapdPass cfg lvl nodes
    else [])

end CodecCommander

/-- The first event of a run of `handleStateChange`: the store that clears
`mColdBoot` in the Sleep branch, the timing compensation in the other branch. -/
def Event.isHandlerEntry : Event → Bool
  | Event.storeColdBoot false => true
  | Event.applyIntelTCSEL => true
  | _ => false

/-- What claim C13 compares of two results: the trace and the resulting
`mColdBoot` and `mEAPDPoweredDown`. -/
def observed (r : Option Machine) : Option (List Event × Bool × Bool) :=
  r.map (fun m => (m.trace, m.self.mColdBoot, m.self.mEAPDPoweredDown))

/-- A call that the host makes on an attached engine: the direct power
callback, the external power callback (through the power hook), or a firing of
the poll timer (with what the peer locator and the peer audio device report at
that time). -/
inductive Callback
  | setPowerState (powerStateOrdinal : Nat)
  | setPowerStateExternal (powerStateOrdinal : Nat)
  | onTimerAction (located : Bool) (powerState : IOAudioDevicePowerState)
  deriving DecidableEq, Repr

/-- One call of the host on the engine. -/
def deliver (cfg : Configuration) (hda : IntelHDA) : Callback → Machine → Option Machine
  | Callback.setPowerState ord, m => CodecCommander.setPowerState cfg hda ord m
  | Callback.setPowerStateExternal ord, m => CodecCommander.setPowerStateExternal cfg hda ord m
  | Callback.onTimerAction located powerState, m =>
    CodecCommander.onTimerAction cfg hda located powerState m

/-- A sequence of calls of the host on the engine, one after the other. -/
def run (cfg : Configuration) (hda : IntelHDA) : List Callback → Machine → Option Machine
  | [], m => some m
  | c :: rest, m => (deliver cfg hda c m).bind (run cfg hda rest)

/-- What holds between a machine `m` and the machine `m'` reached from it by
calls that added the events `evs`: `mColdBoot` is still true iff it was true and
no Sleep transition was handled (the handler's store `mColdBoot = false` is not
among the events); while it is still true no custom verb was sent, no codec
reset was issued and every timer arm is 20000 ms or `checkInterval`; in any case
every timer arm is 20000 ms, 100 ms or `checkInterval`. -/
def StepInv (cfg : Configuration) (m : Machine) (evs : List Event) (m' : Machine) : Prop :=
  m'.trace = m.trace ++ evs ∧
  (m'.self.mColdBoot = true ↔
    (m.self.mColdBoot = true ∧ Event.storeColdBoot false ∉ evs)) ∧
  (m'.self.mColdBoot = true →
    (∀ c, Event.sendVerb c ∉ evs) ∧ Event.resetCodec ∉ evs ∧
      ∀ ms, Event.setTimeoutMS ms ∈ evs → ms = 20000 ∨ ms = cfg.mCheckInterval) ∧
  (∀ ms, Event.setTimeoutMS ms ∈ evs → ms = 20000 ∨ ms = 100 ∨ ms = cfg.mCheckInterval)

/-- Modelled from the spec: the macro `HDA_PARM_PINCAP` of `IntelHDA.h`, a
header that is not among the sources: the parameter id of the "pin capability"
query that discovery sends to every node (0x0C in the HDA specification).  No
statement depends on its value. -/
def HDA_PARM_PINCAP : Nat := 12

/-- Modelled from the spec: the macro `HDA_PINCAP_IS_EAPD_CAPABLE` of
`IntelHDA.h`, a header that is not among the sources; the comment at its use in
`start` reads "if bit 16 is set in pincap - node supports EAPD". -/
def HDA_PINCAP_IS_EAPD_CAPABLE (response : Nat) : Bool :=
  response / 65536 % 2 == 1

namespace CodecCommander

/-- `CodecCommander::stop`, as far as the members of the model go: the node set
and the cached audio device are released.  (The timer, the work loop, the port
and the configuration are not members of the model.) -/
def stop (m : Machine) : Machine :=
  { m with self := { m.self with mEAPDCapableNodes := none, mAudioDevice := false } }

/-- The discovery loop `for (UInt16 node = start; node < end; node++)` of
`start`; `iterations` counts the rounds that are left, `nodes` is the array
`mEAPDCapableNodes` built so far.  (The `OSNumber` of a node is taken to be
allocated.) -/
def startNodesLoop (hda : IntelHDA) : Nat → Nat → List Nat → Machine → List Nat × Machine
  | 0, _, nodes, m => (nodes, m)
  | iterations + 1, node, nodes, m =>
    let r := hda.sendCommand node HdaVerb.HDA_VERB_GET_PARAM HDA_PARM_PINCAP m
    if r.1 == UINT32_MINUS_ONE then
      startNodesLoop hda iterations ((node + 1) % 65536) nodes r.2
    else if HDA_PINCAP_IS_EAPD_CAPABLE r.1 then
      startNodesLoop hda iterations ((node + 1) % 65536) (nodes ++ [node]) r.2
    else
      startNodesLoop hda iterations ((node + 1) % 65536) nodes r.2

/-- `CodecCommander::start`: the result and the machine after the call.
`providerOk` tells whether the provider is there and `super::start` succeeds,
`initOk` whether the port is allocated and `initialize()` succeeds, `arrayOk`
whether `OSArray::withCapacity` succeeds, `timerOk` whether the work loop and
the timer can be set up; `startingNode` and `totalNodes` are what
`getStartingNode()` and `getTotalNodes()` return; `cfg` is the profile that the
`Configuration` constructor resolves.  Registry properties and power management
registration are not part of the model. -/
def start (cfg : Configuration) (hda : IntelHDA) (providerOk initOk arrayOk timerOk : Bool)
    (startingNode totalNodes : Nat) (m : Machine) : Bool × Machine :=
  if !providerOk then (false, m)
  else
    let m1 := (m.emit Event.lock).emit Event.hdaInit
    if !initOk then (false, stop (m1.emit Event.unlock))
    else if cfg.mDisable then (false, stop (m1.emit Event.unlock))
    else
      let discovered : Option Machine :=
        if cfg.mUpdateNodes then
          let m2 := m1.emit (Event.ioSleep cfg.mSendDelay)
          if !arrayOk then none
          else
            let first := startingNode % 65536
            let last := (first + totalNodes) % 65536
            let r := startNodesLoop hda (last - first) first [] m2
            some { self := { r.2.self with mEAPDCapableNodes := some r.1 }, trace := r.2.trace }
        else some m1
      match discovered with
      | none => (false, stop ((m1.emit (Event.ioSleep cfg.mSendDelay)).emit Event.unlock))
      | some m3 =>
        let m4 := (customCommands cfg hda CodecCommanderState.kStateInit m3).emit Event.unlock
        if cfg.mCheckInfinite && !timerOk then (false, stop m4)
        else (true, m4)

end CodecCommander

namespace Example

/-- A profile with "Update Nodes" off and "Sleep Nodes" on. -/
def cfgSleepOnly : Configuration :=
  { cfgNodes with mUpdateNodes := false, mSleepNodes := true }

/-- The engine after `init` and a successful `start` with the profile
`cfgSleepOnly`, on a working codec with nodes 2 to 31. -/
def attachedSleepOnly : Machine :=
  (CodecCommander.start cfgSleepOnly hdaWorking true true true true 2 30 CodecCommander.init).2

end Example

/-- The four set-config-default commands that `probe` sends for one pair
(node id, config value): bytes 0, 1, 2, 3 in that order, carrying the config
value shifted right by 0, 8, 16 and 24 bits. -/
def pinConfigCommands (node config : Nat) : List Event :=
  [Event.sendCommand node HdaVerb.HDA_VERB_SET_CONFIG_DEFAULT_BYTES_0 (config >>> 0),
   Event.sendCommand node HdaVerb.HDA_VERB_SET_CONFIG_DEFAULT_BYTES_1 (config >>> 8),
   Event.sendCommand node HdaVerb.HDA_VERB_SET_CONFIG_DEFAULT_BYTES_2 (config >>> 16),
   Event.sendCommand node HdaVerb.HDA_VERB_SET_CONFIG_DEFAULT_BYTES_3 (config >>> 24)]

/-- The value that `getNumberFromArray` reads from an element of the array. -/
def OSObject.numberValue : OSObject → Nat
  | OSObject.number value => toUInt32 value
  | _ => UINT32_MINUS_ONE

/-- The commands for a raw pair list, read two elements at a time: a pair whose
node id is valid (a number other than -1) gives its four commands, any other
pair gives none. -/
def pinPairEvents : List OSObject → List Event
  | a :: b :: rest =>
    (if a.numberValue ≠ UINT32_MINUS_ONE then pinConfigCommands a.numberValue b.numberValue
      else []) ++ pinPairEvents rest
  | _ => []

/-- The layout filter of a pin-config group: the number under "LayoutID", or
-1 when there is none. -/
def pinGroupFilter : Option OSObject → Nat
  | some (OSObject.number value) => toUInt32 value
  | _ => UINT32_MINUS_ONE

/-- The commands that the probe-time initializer sends for one entry of
"PinConfigDefault": those of its pair list when the entry is a dictionary whose
layout filter matches and whose "PinConfigs" is an array of even length, none
otherwise. -/
def pinGroupEvents (layoutID : Nat) : OSObject → List Event
  | OSObject.dictionary lid (some (OSObject.array pins)) =>
    if layoutTest (pinGroupFilter lid) layoutID = true ∧ pins.length % 2 = 0 then
      pinPairEvents pins
    else []
  | _ => []

namespace Example

/-- A pin-config group for every layout with an odd-length pair list. -/
def pinGroupOdd : OSObject :=
  OSObject.dictionary none
    (some (OSObject.array [OSObject.number 20, OSObject.number 16843009, OSObject.number 21]))

/-- A pin-config group for layout 3 with two pairs; the node id of the second
pair is not a number. -/
def pinGroupEven : OSObject :=
  OSObject.dictionary (some (OSObject.number 3))
    (some (OSObject.array
      [OSObject.number 20, OSObject.number 2427412752, OSObject.other, OSObject.number 7]))

end Example

/-- The verbs that the probe-time initializer sends for a compiled command list
and a layout id: those of the groups whose layout filter matches, in list
order. -/
def probeVerbs (layoutID : Nat) (commands : List CustomCommand) : List Nat :=
  (commands.filter (fun cc => layoutTest cc.layoutID layoutID)).flatMap (fun cc => cc.Commands)

/-- The pin-config commands that the probe-time initializer sends for the
"PinConfigDefault" array of a profile. -/
def probePinEvents (layoutID : Nat) : Option (List OSObject) → List Event
  | some groups => groups.flatMap (pinGroupEvents layoutID)
  | none => []

namespace Example

/-- The profile `cfgNodes` with two pin-config groups. -/
def cfgProbe : Configuration :=
  { cfgNodes with mPinConfigDefault := some [pinGroupOdd, pinGroupEven] }

end Example

/-- A command sent to the codec: an addressed verb, a custom command verb or a
codec reset. -/
def Event.isCommand : Event → Bool
  | Event.sendCommand _ _ _ => true
  | Event.sendVerb _ => true
  | Event.resetCodec => true
  | _ => false

/-- Any call on the Hardware Command Port: the commands, the initialization, the
layout-id query and the timing compensation. -/
def Event.isPortCall : Event → Bool
  | Event.sendCommand _ _ _ => true
  | Event.sendVerb _ => true
  | Event.resetCodec => true
  | Event.hdaInit => true
  | Event.getLayoutID => true
  | Event.applyIntelTCSEL => true
  | _ => false

/-- A store to `mColdBoot` or `mEAPDPoweredDown`. -/
def Event.isFlagStore : Event → Bool
  | Event.storeColdBoot _ => true
  | Event.storeEAPDPoweredDown _ => true
  | _ => false

/-- The events keep the discipline for `p` from lock depth `d`: every event that
satisfies `p` happens while the lock is held, and the lock is back at depth `d`
at the end. -/
def balancedHeld (p : Event → Bool) (d : Nat) (evs : List Event) : Prop :=
  heldThroughout p d evs = true ∧ lockDepthAfter d evs = d

/-- What claim C15 wants under the lock: any call on the Hardware Command Port
and any store to `mColdBoot` or `mEAPDPoweredDown`. -/
def Event.isPortCallOrFlagStore (e : Event) : Bool :=
  e.isPortCall || e.isFlagStore

namespace Example

/-- The profile `cfgNodes` with "Perform Reset" on and polling enabled. -/
def cfgReset : Configuration :=
  { cfgNodes with mPerformReset := true, mCheckInfinite := true }

end Example

/-- A group with its three trigger flags cleared; the layout filter and the
verbs are kept. -/
def CustomCommand.eraseFlags (cc : CustomCommand) : CustomCommand :=
  { cc with OnInit := false, OnSleep := false, OnWake := false }

namespace Example

/-- A group for layout 3 whose three trigger flags are all false. -/
def noFlagGroup : CustomCommand :=
  { OnInit := false, OnSleep := false, OnWake := false, layoutID := 3, Commands := [64, 65] }

/-- A group that fires on initialization only, for every layout. -/
def initGroup : CustomCommand :=
  { OnInit := true, OnSleep := false, OnWake := false, layoutID := 4294967295,
    Commands := [80] }

/-- A profile with a flagless group, an init group, a sleep group and a wake
group for another layout; "Update Nodes" is off. -/
def cfgFlags : Configuration :=
  { cfgNodes with
    mCustomCommands := [noFlagGroup, initGroup, sleepGroup, wakeGroupOther]
    mUpdateNodes := false }

end Example

/-- The acquisitions of the lock made by the events and not yet released, when
`k` of them are outstanding at the start; `none` as soon as an `unlock` comes
while none is outstanding, that is, when the events release the lock more often
than they acquired it. -/
def lockBalance : Nat → List Event → Option Nat
  | k, [] => some k
  | k, Event.lock :: rest => lockBalance (k + 1) rest
  | k, Event.unlock :: rest => if k = 0 then none else lockBalance (k - 1) rest
  | k, _ :: rest => lockBalance k rest

/-- The machine at the point of a callback where `handleStateChange` is called
or passed over: in the wake branch of `setPowerState` after the codec reset made
when `performReset` is set, in the wake branch of `setPowerStateExternal` after
the codec reset made when `mEAPDPoweredDown` and `performResetOnExternalWake`
are set, in `onTimerAction` after the timer arm, the lookup of the audio device
and, when the sample differs, the store to `mHDAPrevPowerState`. -/
def handlerEntry (cfg : Configuration) : Callback → Machine → Machine
  | Callback.setPowerState ord, m =>
    if ord = kPowerStateSleep then m
    else if ord = kPowerStateDoze ∨ ord = kPowerStateNormal then
      (if cfg.mPerformReset then CodecCommander.performCodecReset m else m)
    else m
  | Callback.setPowerStateExternal ord, m =>
    if ord = kPowerStateSleep then m
    else if ord = kPowerStateDoze ∨ ord = kPowerStateNormal then
      (if m.self.mEAPDPoweredDown && cfg.mPerformResetOnExternalWake then
        CodecCommander.performCodecReset m
      else m)
    else m
  | Callback.onTimerAction located powerState, m =>
    let r := CodecCommander.getAudioDevice located (m.emit (Event.setTimeoutMS cfg.mCheckInterval))
    if r.1 && powerState != r.2.self.mHDAPrevPowerState then
      r.2.setHDAPrevPowerState powerState
    else r.2

/-- The transition that a callback hands to `handleStateChange` in machine `m`,
`none` when it does not call the handler: the guards of `setPowerState`,
`setPowerStateExternal` and `onTimerAction` around their calls of the
handler. -/
def handledBy (cfg : Configuration) : Callback → Machine → Option IOAudioDevicePowerState
  | Callback.setPowerState ord, m =>
    if ord = kPowerStateSleep then
      if !m.self.mEAPDPoweredDown then some IOAudioDevicePowerState.kIOAudioDeviceSleep
      else none
    else if ord = kPowerStateDoze ∨ ord = kPowerStateNormal then
      if (cfg.mPerformReset || !cfg.mPerformResetOnExternalWake) &&
          (handlerEntry cfg (Callback.setPowerState ord) m).self.mEAPDPoweredDown then
        some IOAudioDevicePowerState.kIOAudioDeviceActive
      else none
    else none
  | Callback.setPowerStateExternal ord, m =>
    if ord = kPowerStateSleep then
      if !m.self.mEAPDPoweredDown then some IOAudioDevicePowerState.kIOAudioDeviceSleep
      else none
    else if ord = kPowerStateDoze ∨ ord = kPowerStateNormal then
      if (handlerEntry cfg (Callback.setPowerStateExternal ord) m).self.mEAPDPoweredDown then
        some IOAudioDevicePowerState.kIOAudioDeviceActive
      else none
    else none
  | Callback.onTimerAction located powerState, m =>
    let r := CodecCommander.getAudioDevice located (m.emit (Event.setTimeoutMS cfg.mCheckInterval))
    if !r.1 then none
    else if powerState != r.2.self.mHDAPrevPowerState then
      if powerState == IOAudioDevicePowerState.kIOAudioDeviceSleep then
        some IOAudioDevicePowerState.kIOAudioDeviceSleep
      else some IOAudioDevicePowerState.kIOAudioDeviceActive
    else none

/-- What a callback does after the point where the handler is called or passed
over: the wake branch of `setPowerState` arms the timer, the others return. -/
def afterHandler (cfg : Configuration) : Callback → Machine → Machine
  | Callback.setPowerState ord, m =>
    if ord = kPowerStateSleep then m
    else if ord = kPowerStateDoze ∨ ord = kPowerStateNormal then
      CodecCommander.armWakeTimer cfg m
    else m
  | _, m => m

/-- The transitions handled over a sequence of callbacks from machine `m`, in
order: for each callback the transition it hands to `handleStateChange`, if
any, in the machine that the callbacks before it have left. -/
def handledInRun (cfg : Configuration) (hda : IntelHDA) :
    List Callback → Machine → List IOAudioDevicePowerState
  | [], _ => []
  | c :: rest, m =>
    (handledBy cfg c m).toList ++
      (match deliver cfg hda c m with
        | some m1 => handledInRun cfg hda rest m1
        | none => [])

/-! ## Closed forms of the building blocks -/

namespace CodecCommander

theorem customCommandsInner_eq (hda : IntelHDA) (cs : List Nat) (m : Machine) :
    customCommandsInner hda cs m =
      { self := m.self, trace := m.trace ++ cs.map Event.sendVerb } := by
  induction cs generalizing m with
  | nil => simp [customCommandsInner]
  | cons c cs ih =>
    simp [customCommandsInner, executeCommand, IntelHDA.sendVerb, Machine.emit, ih]

theorem customCommandsOuter_eq (hda : IntelHDA) (st : CodecCommanderState) (lid : Nat)
    (l : List CustomCommand) (m : Machine) :
    customCommandsOuter hda st lid l m =
      { self := m.self, trace := m.trace ++ (selectedVerbs st lid l).map Event.sendVerb } := by
  induction l generalizing m with
  | nil => simp [customCommandsOuter, selectedVerbs]
  | cons cc rest ih =>
    by_cases h : (triggerTest cc st && layoutTest cc.layoutID lid) = true
    · simp only [customCommandsOuter, h, if_true, ih, customCommandsInner_eq]
      simp [selectedVerbs, List.filter_cons, h]
    · simp only [customCommandsOuter, h, ih]
      simp [selectedVerbs, List.filter_cons, h]

theorem customCommands_eq (cfg : Configuration) (hda : IntelHDA) (st : CodecCommanderState)
    (m : Machine) :
    customCommands cfg hda st m =
      { self := m.self,
        trace := m.trace ++ (Event.getLayoutID :: Event.lock ::
          ((selectedVerbs st (toUInt32 (hda.respond m.trace Event.getLayoutID))
              cfg.mCustomCommands).map Event.sendVerb ++ [Event.unlock])) } := by
  simp [customCommands, customCommandsOuter_eq, IntelHDA.getLayoutID, Machine.emit]

theorem setEAPDLoop_snd (hda : IntelHDA) (lvl : Nat) (ns : List Nat) (r : Bool) (m : Machine) :
    (setEAPDLoop hda lvl ns r m).2 =
      { self := m.self, trace := m.trace ++ eapdEvents lvl ns } := by
  induction ns generalizing r m with
  | nil => simp [setEAPDLoop, eapdEvents]
  | cons n ns ih =>
    simp [setEAPDLoop, ih, IntelHDA.sendCommand, Machine.emit, eapdEvents]

theorem setEAPDLoop_false (hda : IntelHDA) (lvl : Nat) (ns : List Nat) (m : Machine) :
    (setEAPDLoop hda lvl ns false m).1 = false := by
  induction ns generalizing m with
  | nil => simp [setEAPDLoop]
  | cons n ns ih => simp [setEAPDLoop, ih]

theorem setEAPDLoop_allFail (hda : IntelHDA) (lvl : Nat) (ns : List Nat) (m : Machine)
    (hne : ns ≠ []) (h : eapdPassAllFail hda lvl ns m.trace = true) :
    (setEAPDLoop hda lvl ns true m).1 = false := by
  cases ns with
  | nil => exact absurd rfl hne
  | cons n ns =>
    simp only [eapdPassAllFail, Bool.and_eq_true, beq_iff_eq] at h
    simp [setEAPDLoop, IntelHDA.sendCommand, h.1, setEAPDLoop_false]

theorem setEAPD_eq (cfg : Configuration) (hda : IntelHDA) (lvl : Nat) (m : Machine) :
    setEAPD cfg hda lvl m =
      match m.self.mEAPDCapableNodes with
      | none => none
      | some nodes =>
        some ((setEAPDLoop hda lvl nodes true
                { self := m.self,
                  trace := m.trace ++ [Event.ioSleep cfg.mSendDelay, Event.lock] }).1,
              { self := m.self,
                trace := m.trace ++ (Event.ioSleep cfg.mSendDelay :: Event.lock ::
                  (eapdEvents lvl nodes ++ [Event.unlock])) }) := by
  unfold setEAPD
  cases hn : m.self.mEAPDCapableNodes with
  | none => simp [Machine.emit, hn]
  | some nodes => simp [Machine.emit, hn, setEAPDLoop_snd]

theorem eapdStep_map (cfg : Configuration) (hda : IntelHDA) (lvl : Nat) (m : Machine)
    (f : Machine → Machine) :
    ((setEAPD cfg hda lvl m).bind fun a =>
      if a.1 = false ∧ cfg.mPerformResetOnEAPDFail = true then
        (setEAPD cfg hda lvl (performCodecReset a.2)).bind fun a => some (f a.2)
      else some (f a.2)) = (eapdStep cfg hda lvl m).map f := by
  unfold eapdStep
  cases h1 : setEAPD cfg hda lvl m with
  | none => simp [bind]
  | some r =>
    by_cases hc : r.1 = false ∧ cfg.mPerformResetOnEAPDFail = true
    · cases h2 : setEAPD cfg hda lvl (performCodecReset r.2) <;>
        simp [bind, pure, hc, h2]
    · have hc2 : ¬ (r.1 = false ∧ cfg.mPerformResetOnEAPDFail = true) := hc
      simp only [not_and] at hc
      simp [bind, pure, hc2]

theorem handleStateChange_sleep (cfg : Configuration) (hda : IntelHDA) (m : Machine) :
    handleStateChange cfg hda IOAudioDevicePowerState.kIOAudioDeviceSleep m =
      (if cfg.mSleepNodes then eapdStep cfg hda 0 (m.setColdBoot false)
        else some (m.setColdBoot false)).map
        (fun m2 => (customCommands cfg hda CodecCommanderState.kStateSleep m2).setEAPDPoweredDown
          true) := by
  cases h : cfg.mSleepNodes
  · simp [handleStateChange, h, bind, pure]
  · simp only [handleStateChange, h, bind, pure, if_true, Bool.and_eq_true, Bool.not_eq_true',
      Option.some_bind]
    exact eapdStep_map cfg hda 0 _
      (fun m2 => (customCommands cfg hda CodecCommanderState.kStateSleep m2).setEAPDPoweredDown true)

theorem handleStateChange_wake (cfg : Configuration) (hda : IntelHDA)
    (st : IOAudioDevicePowerState) (hst : st ≠ IOAudioDevicePowerState.kIOAudioDeviceSleep)
    (m : Machine) :
    handleStateChange cfg hda st m =
      (if cfg.mUpdateNodes then eapdStep cfg hda 2 (m.emit Event.applyIntelTCSEL)
        else some (m.emit Event.applyIntelTCSEL)).map
        (fun m2 =>
          (if !m2.self.mColdBoot then customCommands cfg hda CodecCommanderState.kStateWake m2
            else m2).setEAPDPoweredDown false) := by
  cases st
  · exact absurd rfl hst
  all_goals
    cases h : cfg.mUpdateNodes
    · simp [handleStateChange, h, bind, pure]
    · simp only [handleStateChange, h, bind, pure, if_true, Bool.and_eq_true, Bool.not_eq_true',
        Option.some_bind]
      exact eapdStep_map cfg hda 2 _
        (fun m2 => (if m2.self.mColdBoot = false then
            customCommands cfg hda CodecCommanderState.kStateWake m2 else m2).setEAPDPoweredDown
          false)

theorem performCodecReset_eq (m : Machine) :
    performCodecReset m =
      { self := { m.self with mEAPDPoweredDown := (!m.self.mColdBoot || m.self.mEAPDPoweredDown) },
        trace := m.trace ++ resetEvents m.self.mColdBoot } := by
  rcases m with ⟨⟨cb, pd, pv, nd, ad⟩, t⟩
  cases cb <;>
    simp [performCodecReset, resetEvents, Machine.emit, Machine.setEAPDPoweredDown]

theorem eapdStep_eq (cfg : Configuration) (hda : IntelHDA) (lvl : Nat) (m : Machine) :
    eapdStep cfg hda lvl m =
      match m.self.mEAPDCapableNodes with
      | none => none
      | some nodes =>
        some
          { self := { m.self with
              mEAPDPoweredDown :=
                ((eapdRetries cfg hda lvl nodes m && !m.self.mColdBoot) || m.self.mEAPDPoweredDown) },
            trace := m.trace ++ (eapdPass cfg lvl nodes ++
              (if eapdRetries cfg hda lvl nodes m then
                resetEvents m.self.mColdBoot ++ eapdPass cfg lvl nodes
              else [])) } := by
  rcases m with ⟨⟨cb, pd, pv, nd, ad⟩, t⟩
  cases nd with
  | none => simp [eapdStep, setEAPD_eq, bind]
  | some nodes =>
    cases hr : eapdRetries cfg hda lvl nodes ⟨⟨cb, pd, pv, some nodes, ad⟩, t⟩
    · have hr0 := hr
      simp only [eapdRetries, Bool.and_eq_false_iff, Bool.not_eq_false'] at hr
      have hc : ¬ ((setEAPDLoop hda lvl nodes true
          ⟨⟨cb, pd, pv, some nodes, ad⟩, t ++ [Event.ioSleep cfg.mSendDelay, Event.lock]⟩).1 = false ∧
          cfg.mPerformResetOnEAPDFail = true) := by
        rintro ⟨h1, h2⟩
        rcases hr with h | h
        · rw [h1] at h; exact absurd h (by simp)
        · rw [h2] at h; exact absurd h (by simp)
      simp [eapdStep, setEAPD_eq, bind, pure, eapdPass, hc, hr0]
    · have hr0 := hr
      simp only [eapdRetries, Bool.and_eq_true, Bool.not_eq_true'] at hr
      simp [eapdStep, setEAPD_eq, bind, pure, performCodecReset_eq, eapdPass, hr, hr0]

theorem handleStateChange_isSome (cfg : Configuration) (hda : IntelHDA)
    (st : IOAudioDevicePowerState) (m : Machine)
    (h : m.self.mEAPDCapableNodes.isSome = true ∨
      (if st = IOAudioDevicePowerState.kIOAudioDeviceSleep then cfg.mSleepNodes
        else cfg.mUpdateNodes) = false) :
    (handleStateChange cfg hda st m).isSome = true := by
  by_cases hst : st = IOAudioDevicePowerState.kIOAudioDeviceSleep
  · subst hst
    rw [handleStateChange_sleep, eapdStep_eq]
    cases hs : cfg.mSleepNodes <;> cases hn : m.self.mEAPDCapableNodes <;>
      simp_all [Machine.setColdBoot]
  · rw [handleStateChange_wake cfg hda st hst, eapdStep_eq]
    cases hs : cfg.mUpdateNodes <;> cases hn : m.self.mEAPDCapableNodes <;>
      simp_all [Machine.emit]

theorem handleStateChange_spec (cfg : Configuration) (hda : IntelHDA)
    (st : IOAudioDevicePowerState) (m m' : Machine)
    (h : handleStateChange cfg hda st m = some m') :
    m'.self = { m.self with
        mColdBoot := (st != IOAudioDevicePowerState.kIOAudioDeviceSleep && m.self.mColdBoot),
        mEAPDPoweredDown := (st == IOAudioDevicePowerState.kIOAudioDeviceSleep) } ∧
    ∃ evs, m'.trace = m.trace ++ evs ∧
      (∀ e ∈ evs, e.isTimerArm = false) ∧
      (st ≠ IOAudioDevicePowerState.kIOAudioDeviceSleep →
        evs.head? = some Event.applyIntelTCSEL) ∧
      (st = IOAudioDevicePowerState.kIOAudioDeviceSleep →
        evs.head? = some (Event.storeColdBoot false) ∧ Event.applyIntelTCSEL ∉ evs) ∧
      (st ≠ IOAudioDevicePowerState.kIOAudioDeviceSleep → m.self.mColdBoot = true →
        ∀ e ∈ evs, e.isVerb = false) := by
  rcases m with ⟨⟨cb, pd, pv, nd, ad⟩, t⟩
  by_cases hst : st = IOAudioDevicePowerState.kIOAudioDeviceSleep
  · subst hst
    rw [handleStateChange_sleep, eapdStep_eq] at h
    cases hs : cfg.mSleepNodes <;> cases nd <;>
      simp [hs, Machine.setColdBoot, Machine.setEAPDPoweredDown, customCommands_eq] at h
    all_goals
      subst h
      refine ⟨by simp, _, rfl, ?_, ?_, ?_, ?_⟩
      · intro e he
        simp only [eapdEvents, eapdPass, resetEvents, List.mem_append, List.mem_cons, List.mem_map,
          List.mem_singleton, List.cons_append, List.nil_append, List.append_assoc] at he
        cases e <;> simp at he ⊢ <;> simp [Event.isTimerArm]
      · intro h0
        exact absurd rfl h0
      · intro _
        constructor
        · simp [eapdPass]
        · intro he
          simp [eapdEvents, eapdPass, resetEvents] at he
      · intro h0
        exact absurd rfl h0
  · rw [handleStateChange_wake cfg hda st hst, eapdStep_eq] at h
    have hst2 : (st != IOAudioDevicePowerState.kIOAudioDeviceSleep) = true := by simpa using hst
    have hst3 : (st == IOAudioDevicePowerState.kIOAudioDeviceSleep) = false := by simpa using hst
    cases hs : cfg.mUpdateNodes <;> cases nd <;> cases cb <;>
      simp [hs, Machine.emit, Machine.setEAPDPoweredDown, customCommands_eq] at h
    all_goals
      subst h
      refine ⟨by simp [hst2, hst3], _, rfl, ?_, ?_, ?_, ?_⟩
      · intro e he
        simp only [eapdEvents, eapdPass, resetEvents, List.mem_append, List.mem_cons, List.mem_map,
          List.mem_singleton, List.cons_append, List.nil_append, List.append_assoc] at he
        cases e <;> simp at he ⊢ <;> simp [Event.isTimerArm]
      · intro _
        simp [eapdPass]
      · intro h0
        exact absurd h0 hst
      · first
        | (intro _ h0
           simp at h0
           done)
        | (intro _ _ e he
           simp only [eapdEvents, eapdPass, resetEvents, List.mem_append, List.mem_cons,
             List.mem_map, List.mem_singleton, List.cons_append, List.nil_append,
             List.append_assoc] at he
           cases e <;> simp at he ⊢ <;> simp [Event.isVerb])

theorem setPowerState_sleep_eq (cfg : Configuration) (hda : IntelHDA) (m : Machine) :
    setPowerState cfg hda kPowerStateSleep m =
      if m.self.mEAPDPoweredDown = false then
        handleStateChange cfg hda IOAudioDevicePowerState.kIOAudioDeviceSleep m
      else some m := by
  cases h : m.self.mEAPDPoweredDown <;> simp [setPowerState, h]

theorem setPowerStateExternal_sleep_eq (cfg : Configuration) (hda : IntelHDA) (m : Machine) :
    setPowerStateExternal cfg hda kPowerStateSleep m =
      if m.self.mEAPDPoweredDown = false then
        handleStateChange cfg hda IOAudioDevicePowerState.kIOAudioDeviceSleep m
      else some m := by
  cases h : m.self.mEAPDPoweredDown <;> simp [setPowerStateExternal, h]

theorem setPowerState_wake_eq (cfg : Configuration) (hda : IntelHDA) (ord : Nat)
    (hord : ord = kPowerStateNormal ∨ ord = kPowerStateDoze) (m : Machine) :
    setPowerState cfg hda ord m =
      (if ((cfg.mPerformReset || !cfg.mPerformResetOnExternalWake) &&
            (if cfg.mPerformReset then performCodecReset m else m).self.mEAPDPoweredDown) = true then
          handleStateChange cfg hda IOAudioDevicePowerState.kIOAudioDeviceActive
            (if cfg.mPerformReset then performCodecReset m else m)
        else some (if cfg.mPerformReset then performCodecReset m else m)).map
        (armWakeTimer cfg) := by
  have h1 : ord ≠ kPowerStateSleep := by
    rcases hord with h | h <;> simp [h, kPowerStateSleep, kPowerStateNormal, kPowerStateDoze]
  have h2 : ord = kPowerStateDoze ∨ ord = kPowerStateNormal := hord.symm
  simp only [setPowerState, h1, h2, if_false, if_true, bind, pure]
  generalize (if cfg.mPerformReset = true then performCodecReset m else m) = m1
  by_cases hg : ((cfg.mPerformReset || !cfg.mPerformResetOnExternalWake) &&
      m1.self.mEAPDPoweredDown) = true
  · simp only [hg, if_true]
    cases handleStateChange cfg hda IOAudioDevicePowerState.kIOAudioDeviceActive m1 <;> rfl
  · simp only [hg, if_false]
    rfl

theorem setPowerStateExternal_wake_eq (cfg : Configuration) (hda : IntelHDA) (ord : Nat)
    (hord : ord = kPowerStateNormal ∨ ord = kPowerStateDoze) (m : Machine) :
    setPowerStateExternal cfg hda ord m =
      if m.self.mEAPDPoweredDown = true then
        handleStateChange cfg hda IOAudioDevicePowerState.kIOAudioDeviceActive
          (if cfg.mPerformResetOnExternalWake then performCodecReset m else m)
      else some m := by
  have h1 : ord ≠ kPowerStateSleep := by
    rcases hord with h | h <;> simp [h, kPowerStateSleep, kPowerStateNormal, kPowerStateDoze]
  have h2 : ord = kPowerStateDoze ∨ ord = kPowerStateNormal := hord.symm
  cases hp : m.self.mEAPDPoweredDown <;> cases hr : cfg.mPerformResetOnExternalWake <;>
    simp [setPowerStateExternal, h1, h2, hp, hr, performCodecReset_eq]

theorem not_mem_sendVerb_of_isVerb (evs : List Event)
    (h : ∀ e ∈ evs, e.isVerb = false) (c : Nat) : Event.sendVerb c ∉ evs := by
  intro hc
  have := h _ hc
  simp [Event.isVerb] at this

theorem resetEvents_props (cb : Bool) :
    (∀ e ∈ resetEvents cb, e.isTimerArm = false ∧ e.isVerb = false ∧
      e ≠ Event.applyIntelTCSEL) := by
  intro e he
  cases cb <;> simp [resetEvents] at he
  rcases he with h | h | h | h <;> subst h <;> simp [Event.isTimerArm, Event.isVerb]

theorem armWakeTimer_eq (cfg : Configuration) (m : Machine) :
    armWakeTimer cfg m =
      { self := m.self,
        trace := m.trace ++
          (if cfg.mCheckInfinite then
            [Event.setTimeoutMS (if m.self.mColdBoot then 20000 else 100)] else []) } := by
  cases hc : cfg.mCheckInfinite <;> cases hb : m.self.mColdBoot <;>
    simp [armWakeTimer, hc, hb, Machine.emit]

theorem setPowerState_wake_spec (cfg : Configuration) (hda : IntelHDA) (ord : Nat)
    (hord : ord = kPowerStateNormal ∨ ord = kPowerStateDoze) (m m' : Machine)
    (h : setPowerState cfg hda ord m = some m') :
    m'.self.mColdBoot = m.self.mColdBoot ∧
    ∃ evs, m'.trace = m.trace ++ evs ++
        (if cfg.mCheckInfinite then
          [Event.setTimeoutMS (if m.self.mColdBoot then 20000 else 100)] else []) ∧
      (∀ e ∈ evs, e.isTimerArm = false) ∧
      (m.self.mColdBoot = true → ∀ e ∈ evs, e.isVerb = false) := by
  rw [setPowerState_wake_eq cfg hda ord hord] at h
  have hm1 : ∀ m1 : Machine, m1 = (if cfg.mPerformReset = true then performCodecReset m else m) →
      m1.self.mColdBoot = m.self.mColdBoot ∧
      ∃ evs0, m1.trace = m.trace ++ evs0 ∧ (∀ e ∈ evs0, e.isTimerArm = false) ∧
        (∀ e ∈ evs0, e.isVerb = false) := by
    intro m1 hm1
    cases hp : cfg.mPerformReset
    · simp only [hp, if_false, Bool.false_eq_true] at hm1
      subst hm1
      exact ⟨rfl, [], by simp, by simp, by simp⟩
    · simp only [hp, if_true] at hm1
      subst hm1
      rw [performCodecReset_eq]
      exact ⟨rfl, _, rfl, fun e he => (resetEvents_props _ e he).1,
        fun e he => (resetEvents_props _ e he).2.1⟩
  revert h
  generalize (if cfg.mPerformReset = true then performCodecReset m else m) = m1 at hm1 ⊢
  obtain ⟨hcb, evs0, ht0, hta0, hv0⟩ := hm1 m1 rfl
  intro h
  by_cases hg : ((cfg.mPerformReset || !cfg.mPerformResetOnExternalWake) &&
      m1.self.mEAPDPoweredDown) = true
  · simp only [hg, if_true] at h
    cases h2 : handleStateChange cfg hda IOAudioDevicePowerState.kIOAudioDeviceActive m1 with
    | none => simp [h2] at h
    | some m2 =>
      simp only [h2, Option.map_some', Option.some.injEq] at h
      obtain ⟨hself, evs, ht, hta, _, _, hv⟩ := handleStateChange_spec cfg hda _ m1 m2 h2
      subst h
      rw [armWakeTimer_eq]
      refine ⟨by simp [hself, hcb], evs0 ++ evs, ?_, ?_, ?_⟩
      · simp [ht, ht0, hself, hcb]
      · intro e he
        rcases List.mem_append.1 he with h3 | h3
        · exact hta0 e h3
        · exact hta e h3
      · intro hc e he
        rcases List.mem_append.1 he with h3 | h3
        · exact hv0 e h3
        · exact hv (by simp) (by rw [hcb]; exact hc) e h3
  · simp only [hg, if_false, Bool.false_eq_true, Option.map_some', Option.some.injEq] at h
    subst h
    rw [armWakeTimer_eq]
    refine ⟨by simp [hcb], evs0, ?_, hta0, fun _ => hv0⟩
    simp [ht0, hcb]

theorem setPowerStateExternal_wake_spec (cfg : Configuration) (hda : IntelHDA) (ord : Nat)
    (hord : ord = kPowerStateNormal ∨ ord = kPowerStateDoze) (m m' : Machine)
    (h : setPowerStateExternal cfg hda ord m = some m') :
    m'.self.mColdBoot = m.self.mColdBoot ∧ m'.self.mEAPDPoweredDown = false ∧
    ∃ evs, m'.trace = m.trace ++ evs ∧
      (∀ e ∈ evs, e.isTimerArm = false) ∧
      (m.self.mColdBoot = true → ∀ e ∈ evs, e.isVerb = false) ∧
      (Event.applyIntelTCSEL ∈ evs ↔ m.self.mEAPDPoweredDown = true) := by
  rw [setPowerStateExternal_wake_eq cfg hda ord hord] at h
  cases hp : m.self.mEAPDPoweredDown
  · simp only [hp, if_false, Bool.false_eq_true, Option.some.injEq] at h
    subst h
    exact ⟨rfl, hp, [], by simp, by simp, by simp, by simp⟩
  · simp only [hp, if_true] at h
    have hm1 : ∀ m1 : Machine,
        m1 = (if cfg.mPerformResetOnExternalWake = true then performCodecReset m else m) →
        m1.self.mColdBoot = m.self.mColdBoot ∧
        ∃ evs0, m1.trace = m.trace ++ evs0 ∧ (∀ e ∈ evs0, e.isTimerArm = false) ∧
          (∀ e ∈ evs0, e.isVerb = false) := by
      intro m1 hm1
      cases hq : cfg.mPerformResetOnExternalWake
      · simp only [hq, if_false, Bool.false_eq_true] at hm1
        subst hm1
        exact ⟨rfl, [], by simp, by simp, by simp⟩
      · simp only [hq, if_true] at hm1
        subst hm1
        rw [performCodecReset_eq]
        exact ⟨rfl, _, rfl, fun e he => (resetEvents_props _ e he).1,
          fun e he => (resetEvents_props _ e he).2.1⟩
    revert h
    generalize (if cfg.mPerformResetOnExternalWake = true then performCodecReset m else m) = m1
      at hm1 ⊢
    obtain ⟨hcb, evs0, ht0, hta0, hv0⟩ := hm1 m1 rfl
    intro h
    obtain ⟨hself, evs, ht, hta, hhead, _, hv⟩ := handleStateChange_spec cfg hda _ m1 m' h
    refine ⟨by simp [hself, hcb], by simp [hself], evs0 ++ evs, by simp [ht, ht0], ?_, ?_, ?_⟩
    · intro e he
      rcases List.mem_append.1 he with h3 | h3
      · exact hta0 e h3
      · exact hta e h3
    · intro hc e he
      rcases List.mem_append.1 he with h3 | h3
      · exact hv0 e h3
      · exact hv (by simp) (by rw [hcb]; exact hc) e h3
    · simp only [iff_true]
      have h5 := hhead (by simp)
      apply List.mem_append_right
      cases evs with
      | nil => simp at h5
      | cons a l =>
        simp only [List.head?_cons, Option.some.injEq] at h5
        simp [h5]

theorem handleStateChange_target (cfg : Configuration) (hda : IntelHDA)
    (st : IOAudioDevicePowerState) (m : Machine) :
    handleStateChange cfg hda st m =
      handleStateChange cfg hda
        (if st = IOAudioDevicePowerState.kIOAudioDeviceSleep then
          IOAudioDevicePowerState.kIOAudioDeviceSleep
        else IOAudioDevicePowerState.kIOAudioDeviceActive) m := by
  cases st <;> rfl

theorem onTimerAction_eq (cfg : Configuration) (hda : IntelHDA) (located : Bool)
    (st : IOAudioDevicePowerState) (m : Machine) :
    onTimerAction cfg hda located st m =
      if (m.self.mAudioDevice || located) = false ∨ st = m.self.mHDAPrevPowerState then
        some { self := { m.self with mAudioDevice := (m.self.mAudioDevice || located) },
               trace := m.trace ++ [Event.setTimeoutMS cfg.mCheckInterval] }
      else
        handleStateChange cfg hda
          (if st = IOAudioDevicePowerState.kIOAudioDeviceSleep then
            IOAudioDevicePowerState.kIOAudioDeviceSleep
          else IOAudioDevicePowerState.kIOAudioDeviceActive)
          { self := { m.self with mAudioDevice := true, mHDAPrevPowerState := st },
            trace := m.trace ++ [Event.setTimeoutMS cfg.mCheckInterval] } := by
  rcases m with ⟨⟨cb, pd, pv, nd, ad⟩, t⟩
  cases ad <;> cases located <;> by_cases hst : st = pv <;>
    cases st <;>
    simp_all [onTimerAction, getAudioDevice, Machine.emit, Machine.setHDAPrevPowerState, bind, pure]

theorem handleStateChange_isSome_of_nodes (cfg : Configuration) (hda : IntelHDA)
    (st : IOAudioDevicePowerState) (m : Machine)
    (h : m.self.mEAPDCapableNodes.isSome = true) :
    (handleStateChange cfg hda st m).isSome = true :=
  handleStateChange_isSome cfg hda st m (Or.inl h)

theorem setPowerState_isSome (cfg : Configuration) (hda : IntelHDA) (ord : Nat) (m : Machine)
    (h : m.self.mEAPDCapableNodes.isSome = true) :
    (setPowerState cfg hda ord m).isSome = true := by
  by_cases h0 : ord = kPowerStateSleep
  · subst h0
    rw [setPowerState_sleep_eq]
    split
    · exact handleStateChange_isSome_of_nodes cfg hda _ m h
    · rfl
  · by_cases h1 : ord = kPowerStateNormal ∨ ord = kPowerStateDoze
    · rw [setPowerState_wake_eq cfg hda ord h1]
      have hn : (if cfg.mPerformReset = true then performCodecReset m else m).self.mEAPDCapableNodes.isSome
          = true := by
        split
        · rw [performCodecReset_eq]; exact h
        · exact h
      revert hn
      generalize (if cfg.mPerformReset = true then performCodecReset m else m) = m1
      intro hn
      rw [Option.isSome_map']
      split
      · exact handleStateChange_isSome_of_nodes cfg hda _ _ hn
      · rfl
    · have h2 : ¬ (ord = kPowerStateDoze ∨ ord = kPowerStateNormal) := fun h3 => h1 h3.symm
      simp [setPowerState, h0, h2]

theorem setPowerStateExternal_isSome (cfg : Configuration) (hda : IntelHDA) (ord : Nat)
    (m : Machine) (h : m.self.mEAPDCapableNodes.isSome = true) :
    (setPowerStateExternal cfg hda ord m).isSome = true := by
  by_cases h0 : ord = kPowerStateSleep
  · subst h0
    rw [setPowerStateExternal_sleep_eq]
    split
    · exact handleStateChange_isSome_of_nodes cfg hda _ m h
    · rfl
  · by_cases h1 : ord = kPowerStateNormal ∨ ord = kPowerStateDoze
    · rw [setPowerStateExternal_wake_eq cfg hda ord h1]
      have hn : (if cfg.mPerformResetOnExternalWake = true then performCodecReset m
          else m).self.mEAPDCapableNodes.isSome = true := by
        split
        · rw [performCodecReset_eq]; exact h
        · exact h
      revert hn
      generalize (if cfg.mPerformResetOnExternalWake = true then performCodecReset m else m) = m1
      intro hn
      split
      · exact handleStateChange_isSome_of_nodes cfg hda _ _ hn
      · rfl
    · have h2 : ¬ (ord = kPowerStateDoze ∨ ord = kPowerStateNormal) := fun h3 => h1 h3.symm
      simp [setPowerStateExternal, h0, h2]

theorem onTimerAction_isSome (cfg : Configuration) (hda : IntelHDA) (located : Bool)
    (st : IOAudioDevicePowerState) (m : Machine)
    (h : m.self.mEAPDCapableNodes.isSome = true) :
    (onTimerAction cfg hda located st m).isSome = true := by
  rw [onTimerAction_eq]
  split
  · rfl
  · exact handleStateChange_isSome_of_nodes cfg hda _ _ h

theorem eapdPass_no_verb (cfg : Configuration) (lvl : Nat) (nodes : List Nat) :
    ∀ c, Event.sendVerb c ∉ eapdPass cfg lvl nodes := by
  intro c hc
  simp [eapdPass, eapdEvents] at hc

theorem resetEvents_no_verb (cb : Bool) : ∀ c, Event.sendVerb c ∉ resetEvents cb := by
  intro c hc
  have := (resetEvents_props cb _ hc).2.1
  simp [Event.isVerb] at this

theorem handleStateChange_wake_warm (cfg : Configuration) (hda : IntelHDA)
    (st : IOAudioDevicePowerState) (hst : st ≠ IOAudioDevicePowerState.kIOAudioDeviceSleep)
    (m m' : Machine) (hcb : m.self.mColdBoot = false)
    (h : handleStateChange cfg hda st m = some m') :
    ∃ pre, (∀ c, Event.sendVerb c ∉ pre) ∧
      m'.trace = m.trace ++ pre ++ (Event.getLayoutID :: Event.lock ::
        ((selectedVerbs CodecCommanderState.kStateWake
            (toUInt32 (hda.respond (m.trace ++ pre) Event.getLayoutID))
            cfg.mCustomCommands).map Event.sendVerb ++
          [Event.unlock, Event.storeEAPDPoweredDown false])) := by
  rcases m with ⟨⟨cb, pd, pv, nd, ad⟩, t⟩
  simp only at hcb
  subst hcb
  rw [handleStateChange_wake cfg hda st hst, eapdStep_eq] at h
  cases hs : cfg.mUpdateNodes <;> cases nd <;>
    simp [hs, Machine.emit, Machine.setEAPDPoweredDown, customCommands_eq] at h
  · subst h
    exact ⟨[Event.applyIntelTCSEL], by simp, by simp⟩
  · subst h
    exact ⟨[Event.applyIntelTCSEL], by simp, by simp⟩
  · rename_i nodes
    subst h
    refine ⟨Event.applyIntelTCSEL :: (eapdPass cfg 2 nodes ++
      (if eapdRetries cfg hda 2 nodes
          ⟨⟨false, pd, pv, some nodes, ad⟩, t ++ [Event.applyIntelTCSEL]⟩ = true then
        resetEvents false ++ eapdPass cfg 2 nodes else [])), ?_, by simp⟩
    intro c hc
    rcases List.mem_cons.1 hc with h1 | h1
    · simp at h1
    · rcases List.mem_append.1 h1 with h2 | h2
      · exact eapdPass_no_verb cfg 2 nodes c h2
      · split at h2
        · rcases List.mem_append.1 h2 with h3 | h3
          · exact resetEvents_no_verb false c h3
          · exact eapdPass_no_verb cfg 2 nodes c h3
        · simp at h2

theorem mem_selectedVerbs (st : CodecCommanderState) (lid : Nat) (l : List CustomCommand)
    (cc : CustomCommand) (hcc : cc ∈ l) (ht : triggerTest cc st = true)
    (hl : layoutTest cc.layoutID lid = true) (c : Nat) (hc : c ∈ cc.Commands) :
    c ∈ selectedVerbs st lid l := by
  simp only [selectedVerbs, List.mem_flatMap, List.mem_filter]
  exact ⟨cc, ⟨hcc, by simp [ht, hl]⟩, hc⟩

theorem triggerTest_eq_flagOf (cc : CustomCommand) (st : CodecCommanderState) :
    triggerTest cc st = flagOf cc st := by
  rcases cc with ⟨i, sl, w, lid, cs⟩
  cases st <;> cases i <;> cases sl <;> cases w <;> rfl

theorem handleStateChange_nodes (cfg : Configuration) (hda : IntelHDA)
    (st : IOAudioDevicePowerState) (m m' : Machine)
    (h : handleStateChange cfg hda st m = some m') :
    m'.self.mEAPDCapableNodes = m.self.mEAPDCapableNodes := by
  rw [(handleStateChange_spec cfg hda st m m' h).1]

theorem filter_isEAPDOrReset_eapdEvents (lvl : Nat) (nodes : List Nat) :
    (eapdEvents lvl nodes).filter Event.isEAPDOrReset = eapdEvents lvl nodes := by
  induction nodes with
  | nil => rfl
  | cons n ns ih =>
    simp only [eapdEvents, List.map_cons] at ih ⊢
    rw [List.filter_cons_of_pos (by rfl), ih]

theorem filter_isEAPDOrReset_sendVerb (l : List Nat) :
    (l.map Event.sendVerb).filter Event.isEAPDOrReset = [] := by
  induction l with
  | nil => rfl
  | cons c cs ih =>
    rw [List.map_cons, List.filter_cons_of_neg (by simp [Event.isEAPDOrReset]), ih]

theorem filter_isEAPDOrReset_eapdPass (cfg : Configuration) (lvl : Nat) (nodes : List Nat) :
    (eapdPass cfg lvl nodes).filter Event.isEAPDOrReset = eapdEvents lvl nodes := by
  simp [eapdPass, List.filter_cons, Event.isEAPDOrReset, List.filter_append,
    filter_isEAPDOrReset_eapdEvents]

theorem filter_isEAPDOrReset_resetEvents (cb : Bool) :
    (resetEvents cb).filter Event.isEAPDOrReset = if cb then [] else [Event.resetCodec] := by
  cases cb <;> simp [resetEvents, List.filter_cons, Event.isEAPDOrReset]

theorem eapdRetries_of_allFail (cfg : Configuration) (hda : IntelHDA) (lvl : Nat)
    (nodes : List Nat) (m : Machine) (hne : nodes ≠ [])
    (hr : cfg.mPerformResetOnEAPDFail = true)
    (hf : eapdPassAllFail hda lvl nodes
      (m.trace ++ [Event.ioSleep cfg.mSendDelay, Event.lock]) = true) :
    eapdRetries cfg hda lvl nodes m = true := by
  simp only [eapdRetries, hr, Bool.and_true, Bool.not_eq_true']
  exact setEAPDLoop_allFail hda lvl nodes _ hne hf

theorem selectedVerbs_filter (st : CodecCommanderState) (lid : Nat) (l : List CustomCommand)
    (p : CustomCommand → Bool) (hp : ∀ cc, p cc = true → triggerTest cc st = false) :
    selectedVerbs st lid (l.filter (fun cc => !p cc)) = selectedVerbs st lid l := by
  induction l with
  | nil => rfl
  | cons cc rest ih =>
    unfold selectedVerbs at ih ⊢
    cases hpc : p cc
    · by_cases hq : (triggerTest cc st && layoutTest cc.layoutID lid) = true
      · simp only [List.filter_cons, hpc, Bool.not_false, if_true, hq, List.flatMap_cons, ih]
      · simp only [List.filter_cons, hpc, Bool.not_false, if_true, hq, if_false,
          Bool.false_eq_true, ih]
    · have hq := hp cc hpc
      simp only [List.filter_cons, hpc, Bool.not_true, Bool.false_eq_true, if_false, hq,
        Bool.false_and, ih]

theorem customCommands_dropGroups (cfg : Configuration) (hda : IntelHDA)
    (st : CodecCommanderState) (p : CustomCommand → Bool)
    (hp : ∀ cc, p cc = true → triggerTest cc st = false) (m : Machine) :
    customCommands (cfg.dropGroups p) hda st m = customCommands cfg hda st m := by
  rw [customCommands_eq, customCommands_eq]
  simp only [Configuration.dropGroups, selectedVerbs_filter st _ _ p hp]

theorem eapdStep_dropGroups (cfg : Configuration) (hda : IntelHDA) (lvl : Nat)
    (p : CustomCommand → Bool) (m : Machine) :
    eapdStep (cfg.dropGroups p) hda lvl m = eapdStep cfg hda lvl m := rfl

theorem mem_selectedVerbs_iff (st : CodecCommanderState) (lid : Nat) (l : List CustomCommand)
    (c : Nat) :
    c ∈ selectedVerbs st lid l ↔
      ∃ cc ∈ l, flagOf cc st = true ∧ layoutTest cc.layoutID lid = true ∧ c ∈ cc.Commands := by
  simp only [selectedVerbs, List.mem_flatMap, List.mem_filter, Bool.and_eq_true,
    triggerTest_eq_flagOf]
  constructor
  · rintro ⟨cc, ⟨h1, h2, h3⟩, h4⟩
    exact ⟨cc, h1, h2, h3, h4⟩
  · rintro ⟨cc, h1, h2, h3, h4⟩
    exact ⟨cc, ⟨h1, h2, h3⟩, h4⟩

theorem not_mem_setTimeoutMS_of_isTimerArm (evs : List Event)
    (h : ∀ e ∈ evs, e.isTimerArm = false) (ms : Nat) : Event.setTimeoutMS ms ∉ evs := by
  intro hc
  have := h _ hc
  simp [Event.isTimerArm] at this

theorem setPowerState_other (cfg : Configuration) (hda : IntelHDA) (ord : Nat) (m : Machine)
    (h0 : ord ≠ kPowerStateSleep) (h1 : ¬ (ord = kPowerStateNormal ∨ ord = kPowerStateDoze)) :
    setPowerState cfg hda ord m = some m := by
  have h2 : ¬ (ord = kPowerStateDoze ∨ ord = kPowerStateNormal) := fun h3 => h1 h3.symm
  simp [setPowerState, h0, h2]

theorem setPowerState_sleep_spec (cfg : Configuration) (hda : IntelHDA) (m m' : Machine)
    (h : setPowerState cfg hda kPowerStateSleep m = some m') :
    ∃ evs, m'.trace = m.trace ++ evs ∧ (∀ e ∈ evs, e.isTimerArm = false) ∧
      (evs.head? = some (Event.storeColdBoot false) ↔ m.self.mEAPDPoweredDown = false) := by
  rw [setPowerState_sleep_eq] at h
  cases hp : m.self.mEAPDPoweredDown
  · simp only [hp, if_true] at h
    obtain ⟨_, evs, htr, hta, _, hsl, _⟩ := handleStateChange_spec cfg hda _ m m' h
    exact ⟨evs, htr, hta, by simp [(hsl rfl).1]⟩
  · simp only [hp, Bool.true_eq_false, if_false, Option.some.injEq] at h
    subst h
    exact ⟨[], by simp, by simp, by simp⟩

theorem handleStateChange_sleep_events (cfg : Configuration) (hda : IntelHDA) (m m' : Machine)
    (h : handleStateChange cfg hda IOAudioDevicePowerState.kIOAudioDeviceSleep m = some m') :
    ∃ E, ((cfg.mSleepNodes = false ∧ E = []) ∨
        (cfg.mSleepNodes = true ∧ ∃ nodes, m.self.mEAPDCapableNodes = some nodes ∧
          E = eapdStepEvents cfg hda 0 nodes (m.setColdBoot false))) ∧
      m' = { self := { m.self with mColdBoot := false, mEAPDPoweredDown := true },
             trace := m.trace ++ (Event.storeColdBoot false :: E ++
               customEvents cfg hda CodecCommanderState.kStateSleep
                 (m.trace ++ Event.storeColdBoot false :: E) ++
               [Event.storeEAPDPoweredDown true]) } := by
  rcases m with ⟨⟨cb, pd, pv, nd, ad⟩, t⟩
  rw [handleStateChange_sleep, eapdStep_eq] at h
  cases hs : cfg.mSleepNodes
  · simp only [hs, Bool.false_eq_true, if_false, Option.map_some', Option.some.injEq] at h
    subst h
    refine ⟨[], Or.inl ⟨rfl, rfl⟩, ?_⟩
    simp [customCommands_eq, Machine.setColdBoot, Machine.setEAPDPoweredDown, customEvents]
  · cases nd with
    | none => simp [hs, Machine.setColdBoot] at h
    | some nodes =>
      simp only [hs, if_true, Machine.setColdBoot, Option.map_some', Option.some.injEq] at h
      subst h
      refine ⟨_, Or.inr ⟨rfl, nodes, rfl, rfl⟩, ?_⟩
      simp [customCommands_eq, Machine.setColdBoot, Machine.setEAPDPoweredDown, customEvents,
        eapdStepEvents, resetEvents]

theorem handleStateChange_wake_events (cfg : Configuration) (hda : IntelHDA)
    (st : IOAudioDevicePowerState) (hst : st ≠ IOAudioDevicePowerState.kIOAudioDeviceSleep)
    (m m' : Machine) (h : handleStateChange cfg hda st m = some m') :
    ∃ E, ((cfg.mUpdateNodes = false ∧ E = []) ∨
        (cfg.mUpdateNodes = true ∧ ∃ nodes, m.self.mEAPDCapableNodes = some nodes ∧
          E = eapdStepEvents cfg hda 2 nodes (m.emit Event.applyIntelTCSEL))) ∧
      m' = { self := { m.self with mEAPDPoweredDown := false },
             trace := m.trace ++ (Event.applyIntelTCSEL :: E ++
               (if m.self.mColdBoot then []
                else customEvents cfg hda CodecCommanderState.kStateWake
                  (m.trace ++ Event.applyIntelTCSEL :: E)) ++
               [Event.storeEAPDPoweredDown false]) } := by
  rcases m with ⟨⟨cb, pd, pv, nd, ad⟩, t⟩
  rw [handleStateChange_wake cfg hda st hst, eapdStep_eq] at h
  cases hs : cfg.mUpdateNodes
  · simp only [hs, Bool.false_eq_true, if_false, Option.map_some', Option.some.injEq] at h
    subst h
    refine ⟨[], Or.inl ⟨rfl, rfl⟩, ?_⟩
    cases cb <;>
      simp [customCommands_eq, Machine.emit, Machine.setEAPDPoweredDown, customEvents]
  · cases nd with
    | none => simp [hs, Machine.emit] at h
    | some nodes =>
      simp only [hs, if_true, Machine.emit, Option.map_some', Option.some.injEq] at h
      subst h
      refine ⟨_, Or.inr ⟨rfl, nodes, rfl, rfl⟩, ?_⟩
      cases cb <;>
        simp [customCommands_eq, Machine.emit, Machine.setEAPDPoweredDown, customEvents,
          eapdStepEvents, resetEvents]

theorem mem_eapdStepEvents (cfg : Configuration) (hda : IntelHDA) (lvl : Nat) (nodes : List Nat)
    (m : Machine) (e : Event) (he : e ∈ eapdStepEvents cfg hda lvl nodes m) :
    e = Event.ioSleep cfg.mSendDelay ∨ e = Event.lock ∨ e = Event.unlock ∨
      (∃ n, e = Event.sendCommand (n % 256) HdaVerb.HDA_VERB_EAPDBTL_SET lvl) ∨
      (m.self.mColdBoot = false ∧
        (e = Event.resetCodec ∨ e = Event.storeEAPDPoweredDown true)) := by
  have hpass : ∀ e, e ∈ eapdPass cfg lvl nodes →
      e = Event.ioSleep cfg.mSendDelay ∨ e = Event.lock ∨ e = Event.unlock ∨
        (∃ n, e = Event.sendCommand (n % 256) HdaVerb.HDA_VERB_EAPDBTL_SET lvl) := by
    intro e he
    simp only [eapdPass, eapdEvents, List.mem_cons, List.mem_append, List.mem_map,
      List.mem_singleton, List.not_mem_nil, or_false] at he
    rcases he with h | h | ⟨n, _, h⟩ | h
    · exact Or.inl h
    · exact Or.inr (Or.inl h)
    · exact Or.inr (Or.inr (Or.inr ⟨n, h.symm⟩))
    · exact Or.inr (Or.inr (Or.inl h))
  have lift : ∀ e, e ∈ eapdPass cfg lvl nodes →
      e = Event.ioSleep cfg.mSendDelay ∨ e = Event.lock ∨ e = Event.unlock ∨
      (∃ n, e = Event.sendCommand (n % 256) HdaVerb.HDA_VERB_EAPDBTL_SET lvl) ∨
      (m.self.mColdBoot = false ∧
        (e = Event.resetCodec ∨ e = Event.storeEAPDPoweredDown true)) := by
    intro e he
    rcases hpass e he with h | h | h | h
    · exact Or.inl h
    · exact Or.inr (Or.inl h)
    · exact Or.inr (Or.inr (Or.inl h))
    · exact Or.inr (Or.inr (Or.inr (Or.inl h)))
  unfold eapdStepEvents at he
  rcases List.mem_append.1 he with h1 | h1
  · exact lift e h1
  · split at h1
    · rcases List.mem_append.1 h1 with h2 | h2
      · cases hc : m.self.mColdBoot
        · simp only [resetEvents, hc, Bool.false_eq_true, if_false, List.mem_cons,
            List.mem_singleton, List.not_mem_nil, or_false] at h2
          rcases h2 with h | h | h | h
          · exact Or.inr (Or.inl h)
          · exact Or.inr (Or.inr (Or.inr (Or.inr ⟨rfl, Or.inl h⟩)))
          · exact Or.inr (Or.inr (Or.inr (Or.inr ⟨rfl, Or.inr h⟩)))
          · exact Or.inr (Or.inr (Or.inl h))
        · simp [resetEvents, hc] at h2
      · exact lift e h2
    · simp at h1

theorem mem_customEvents (cfg : Configuration) (hda : IntelHDA) (st : CodecCommanderState)
    (hist : List Event) (e : Event) (he : e ∈ customEvents cfg hda st hist) :
    e = Event.getLayoutID ∨ e = Event.lock ∨ e = Event.unlock ∨
      ∃ c, e = Event.sendVerb c ∧
        c ∈ selectedVerbs st (toUInt32 (hda.respond hist Event.getLayoutID))
          cfg.mCustomCommands := by
  simp only [customEvents, List.mem_cons, List.mem_append, List.mem_map, List.mem_singleton,
    List.not_mem_nil, or_false] at he
  rcases he with h | h | ⟨c, hc, h⟩ | h
  · exact Or.inl h
  · exact Or.inr (Or.inl h)
  · exact Or.inr (Or.inr (Or.inr ⟨c, h.symm, hc⟩))
  · exact Or.inr (Or.inr (Or.inl h))

theorem filter_isHandlerEntry_eapdStepEvents (cfg : Configuration) (hda : IntelHDA) (lvl : Nat)
    (nodes : List Nat) (m : Machine) :
    (eapdStepEvents cfg hda lvl nodes m).filter Event.isHandlerEntry = [] := by
  rw [List.filter_eq_nil_iff]
  intro e he
  rcases mem_eapdStepEvents cfg hda lvl nodes m e he with h | h | h | ⟨n, h⟩ | ⟨_, h | h⟩ <;>
    subst h <;> simp [Event.isHandlerEntry]

theorem filter_isHandlerEntry_customEvents (cfg : Configuration) (hda : IntelHDA)
    (st : CodecCommanderState) (hist : List Event) :
    (customEvents cfg hda st hist).filter Event.isHandlerEntry = [] := by
  rw [List.filter_eq_nil_iff]
  intro e he
  rcases mem_customEvents cfg hda st hist e he with h | h | h | ⟨c, h, _⟩ <;>
    subst h <;> simp [Event.isHandlerEntry]

theorem handleStateChange_entry (cfg : Configuration) (hda : IntelHDA)
    (st : IOAudioDevicePowerState) (m m' : Machine)
    (h : handleStateChange cfg hda st m = some m') :
    ∃ evs, m'.trace = m.trace ++ evs ∧
      evs.filter Event.isHandlerEntry =
        [if st = IOAudioDevicePowerState.kIOAudioDeviceSleep then Event.storeColdBoot false
          else Event.applyIntelTCSEL] := by
  by_cases hst : st = IOAudioDevicePowerState.kIOAudioDeviceSleep
  · subst hst
    obtain ⟨E, hE, hm⟩ := handleStateChange_sleep_events cfg hda m m' h
    subst hm
    refine ⟨_, rfl, ?_⟩
    have hEf : E.filter Event.isHandlerEntry = [] := by
      rcases hE with ⟨_, h1⟩ | ⟨_, nodes, _, h1⟩
      · subst h1; rfl
      · subst h1; exact filter_isHandlerEntry_eapdStepEvents _ _ _ _ _
    simp [List.filter_cons, List.filter_append, Event.isHandlerEntry, hEf,
      filter_isHandlerEntry_customEvents]
  · obtain ⟨E, hE, hm⟩ := handleStateChange_wake_events cfg hda st hst m m' h
    subst hm
    refine ⟨_, rfl, ?_⟩
    have hEf : E.filter Event.isHandlerEntry = [] := by
      rcases hE with ⟨_, h1⟩ | ⟨_, nodes, _, h1⟩
      · subst h1; rfl
      · subst h1; exact filter_isHandlerEntry_eapdStepEvents _ _ _ _ _
    cases hc : m.self.mColdBoot <;>
      simp [List.filter_cons, List.filter_append, Event.isHandlerEntry, hEf,
        filter_isHandlerEntry_customEvents, hst]

theorem setEAPDLoop_fst_self (hda : IntelHDA) (lvl : Nat) (ns : List Nat) (r : Bool)
    (s1 s2 : CodecCommander) (t : List Event) :
    (setEAPDLoop hda lvl ns r ⟨s1, t⟩).1 = (setEAPDLoop hda lvl ns r ⟨s2, t⟩).1 := by
  induction ns generalizing r t with
  | nil => rfl
  | cons n ns ih =>
    simp only [setEAPDLoop, IntelHDA.sendCommand, Machine.emit]
    exact ih _ _

theorem handleStateChange_frame (cfg : Configuration) (hda : IntelHDA)
    (st : IOAudioDevicePowerState) (s : CodecCommander) (t : List Event)
    (p : IOAudioDevicePowerState) (a : Bool) :
    handleStateChange cfg hda st
        ⟨{ s with mHDAPrevPowerState := p, mAudioDevice := a }, t⟩ =
      (handleStateChange cfg hda st ⟨s, t⟩).map
        (fun m' => { m' with self := { m'.self with mHDAPrevPowerState := p,
                                                    mAudioDevice := a } }) := by
  rcases s with ⟨cb, pd, pv, nd, ad⟩
  have hret : ∀ lvl nodes (cb0 : Bool) (t0 : List Event),
      eapdRetries cfg hda lvl nodes ⟨⟨cb0, pd, p, some nodes, a⟩, t0⟩ =
        eapdRetries cfg hda lvl nodes ⟨⟨cb0, pd, pv, some nodes, ad⟩, t0⟩ := by
    intro lvl nodes cb0 t0
    simp only [eapdRetries]
    rw [setEAPDLoop_fst_self hda lvl nodes true _ ⟨cb0, pd, pv, some nodes, ad⟩]
  by_cases hst : st = IOAudioDevicePowerState.kIOAudioDeviceSleep
  · subst hst
    rw [handleStateChange_sleep, handleStateChange_sleep, eapdStep_eq, eapdStep_eq]
    cases hs : cfg.mSleepNodes <;> cases nd <;>
      simp [Machine.setColdBoot, Machine.setEAPDPoweredDown, customCommands_eq, hret]
  · rw [handleStateChange_wake cfg hda st hst, handleStateChange_wake cfg hda st hst,
      eapdStep_eq, eapdStep_eq]
    cases hs : cfg.mUpdateNodes <;> cases nd <;> cases cb <;>
      simp [Machine.emit, Machine.setEAPDPoweredDown, customCommands_eq, hret]

theorem stepInv_refl (cfg : Configuration) (m : Machine) : StepInv cfg m [] m := by
  refine ⟨by simp, by simp, ?_, by simp⟩
  intro _
  exact ⟨by simp, by simp, by simp⟩

theorem stepInv_trans (cfg : Configuration) (m m1 m2 : Machine) (evs1 evs2 : List Event)
    (h1 : StepInv cfg m evs1 m1) (h2 : StepInv cfg m1 evs2 m2) :
    StepInv cfg m (evs1 ++ evs2) m2 := by
  obtain ⟨t1, c1, s1, a1⟩ := h1
  obtain ⟨t2, c2, s2, a2⟩ := h2
  refine ⟨by rw [t2, t1, List.append_assoc], ?_, ?_, ?_⟩
  · rw [c2, c1]
    simp only [List.mem_append, not_or]
    exact ⟨fun ⟨⟨a, b⟩, c⟩ => ⟨a, b, c⟩, fun ⟨a, b, c⟩ => ⟨⟨a, b⟩, c⟩⟩
  · intro hc
    have hc1 : m1.self.mColdBoot = true := (c2.1 hc).1
    obtain ⟨v1, r1, q1⟩ := s1 hc1
    obtain ⟨v2, r2, q2⟩ := s2 hc
    refine ⟨?_, ?_, ?_⟩
    · intro c hmem
      rcases List.mem_append.1 hmem with h | h
      · exact v1 c h
      · exact v2 c h
    · intro hmem
      rcases List.mem_append.1 hmem with h | h
      · exact r1 h
      · exact r2 h
    · intro ms hmem
      rcases List.mem_append.1 hmem with h | h
      · exact q1 ms h
      · exact q2 ms h
  · intro ms hmem
    rcases List.mem_append.1 hmem with h | h
    · exact a1 ms h
    · exact a2 ms h

theorem stepInv_performCodecReset (cfg : Configuration) (m : Machine) :
    StepInv cfg m (resetEvents m.self.mColdBoot) (performCodecReset m) := by
  rw [performCodecReset_eq]
  cases hc : m.self.mColdBoot
  · refine ⟨rfl, by simp [hc], ?_, by simp [resetEvents]⟩
    intro h
    simp [hc] at h
  · refine ⟨rfl, by simp [hc, resetEvents], ?_, by simp [resetEvents]⟩
    intro _
    simp [resetEvents]

theorem stepInv_handleStateChange (cfg : Configuration) (hda : IntelHDA)
    (st : IOAudioDevicePowerState) (m m' : Machine)
    (h : handleStateChange cfg hda st m = some m') :
    ∃ evs, StepInv cfg m evs m' ∧ ∀ ms, Event.setTimeoutMS ms ∉ evs := by
  by_cases hst : st = IOAudioDevicePowerState.kIOAudioDeviceSleep
  · subst hst
    obtain ⟨hself, evs, htr, hta, _, hsl, _⟩ := handleStateChange_spec cfg hda _ m m' h
    have hmark : Event.storeColdBoot false ∈ evs := by
      have := (hsl rfl).1
      cases evs with
      | nil => simp at this
      | cons a l =>
        simp only [List.head?_cons, Option.some.injEq] at this
        simp [this]
    have hnot := not_mem_setTimeoutMS_of_isTimerArm evs hta
    have hcold : m'.self.mColdBoot = false := by rw [hself]; simp
    refine ⟨evs, ⟨htr, ?_, ?_, ?_⟩, hnot⟩
    · simp [hcold, hmark]
    · intro hc
      rw [hcold] at hc
      exact absurd hc (by simp)
    · intro ms hmem
      exact absurd hmem (hnot ms)
  · obtain ⟨E, hE, hm⟩ := handleStateChange_wake_events cfg hda st hst m m' h
    subst hm
    have hEmem : ∀ e ∈ E, e = Event.ioSleep cfg.mSendDelay ∨ e = Event.lock ∨ e = Event.unlock ∨
        (∃ n, e = Event.sendCommand (n % 256) HdaVerb.HDA_VERB_EAPDBTL_SET 2) ∨
        (m.self.mColdBoot = false ∧
          (e = Event.resetCodec ∨ e = Event.storeEAPDPoweredDown true)) := by
      intro e he
      rcases hE with ⟨_, h1⟩ | ⟨_, nodes, _, h1⟩
      · subst h1; simp at he
      · subst h1
        have := mem_eapdStepEvents cfg hda 2 nodes (m.emit Event.applyIntelTCSEL) e he
        simpa [Machine.emit] using this
    have hmem : ∀ e, e ∈ (Event.applyIntelTCSEL :: E ++
          (if m.self.mColdBoot then []
            else customEvents cfg hda CodecCommanderState.kStateWake
              (m.trace ++ Event.applyIntelTCSEL :: E)) ++
          [Event.storeEAPDPoweredDown false]) →
        (∀ b, e ≠ Event.storeColdBoot b) ∧ (∀ ms, e ≠ Event.setTimeoutMS ms) ∧
        (m.self.mColdBoot = true → (∀ c, e ≠ Event.sendVerb c) ∧ e ≠ Event.resetCodec) := by
      intro e he
      simp only [List.cons_append, List.mem_cons, List.mem_append, List.mem_singleton,
        List.not_mem_nil, or_false] at he
      rcases he with h1 | (h1 | h1) | h1
      · subst h1; simp
      · rcases hEmem e h1 with h2 | h2 | h2 | ⟨n, h2⟩ | ⟨hc, h2 | h2⟩
        · subst h2; simp
        · subst h2; simp
        · subst h2; simp
        · subst h2; simp
        · subst h2; simp [hc]
        · subst h2; simp [hc]
      · cases hc : m.self.mColdBoot
        · simp only [hc, Bool.false_eq_true, if_false] at h1
          rcases mem_customEvents _ _ _ _ e h1 with h2 | h2 | h2 | ⟨c, h2, _⟩ <;>
            subst h2 <;> simp
        · simp [hc] at h1
      · subst h1; simp
    refine ⟨_, ⟨rfl, ?_, ?_, ?_⟩, ?_⟩
    · constructor
      · intro hc
        exact ⟨hc, fun hx => (hmem _ hx).1 false rfl⟩
      · intro hc
        exact hc.1
    · intro hc
      have hc0 : m.self.mColdBoot = true := hc
      refine ⟨fun c hx => ((hmem _ hx).2.2 hc0).1 c rfl, fun hx => ((hmem _ hx).2.2 hc0).2 rfl, ?_⟩
      intro ms hx
      exact absurd rfl ((hmem _ hx).2.1 ms)
    · intro ms hx
      exact absurd rfl ((hmem _ hx).2.1 ms)
    · intro ms hx
      exact absurd rfl ((hmem _ hx).2.1 ms)

theorem stepInv_armWakeTimer (cfg : Configuration) (m : Machine) :
    StepInv cfg m
      (if cfg.mCheckInfinite then
        [Event.setTimeoutMS (if m.self.mColdBoot then 20000 else 100)] else [])
      (armWakeTimer cfg m) := by
  rw [armWakeTimer_eq]
  cases hp : cfg.mCheckInfinite
  · exact ⟨rfl, by simp, fun _ => ⟨by simp, by simp, by simp⟩, by simp⟩
  · cases hc : m.self.mColdBoot
    · refine ⟨rfl, by simp [hc], ?_, by simp⟩
      intro h
      simp [hc] at h
    · refine ⟨rfl, by simp [hc], fun _ => ⟨by simp, by simp, by simp⟩, by simp⟩

theorem stepInv_tickArm (cfg : Configuration) (m : Machine) (s : CodecCommander)
    (hs : s.mColdBoot = m.self.mColdBoot) :
    StepInv cfg m [Event.setTimeoutMS cfg.mCheckInterval]
      { self := s, trace := m.trace ++ [Event.setTimeoutMS cfg.mCheckInterval] } := by
  refine ⟨rfl, by simp [hs], fun _ => ⟨by simp, by simp, by simp⟩, by simp⟩

theorem setPowerStateExternal_other (cfg : Configuration) (hda : IntelHDA) (ord : Nat)
    (m : Machine) (h0 : ord ≠ kPowerStateSleep)
    (h1 : ¬ (ord = kPowerStateNormal ∨ ord = kPowerStateDoze)) :
    setPowerStateExternal cfg hda ord m = some m := by
  have h2 : ¬ (ord = kPowerStateDoze ∨ ord = kPowerStateNormal) := fun h3 => h1 h3.symm
  simp [setPowerStateExternal, h0, h2]

theorem stepInv_setPowerState (cfg : Configuration) (hda : IntelHDA) (ord : Nat)
    (m m' : Machine) (h : setPowerState cfg hda ord m = some m') :
    ∃ evs, StepInv cfg m evs m' := by
  by_cases h0 : ord = kPowerStateSleep
  · subst h0
    rw [setPowerState_sleep_eq] at h
    split at h
    · obtain ⟨evs, hs, _⟩ := stepInv_handleStateChange cfg hda _ m m' h
      exact ⟨evs, hs⟩
    · simp only [Option.some.injEq] at h
      subst h
      exact ⟨[], stepInv_refl cfg m⟩
  · by_cases h1 : ord = kPowerStateNormal ∨ ord = kPowerStateDoze
    · rw [setPowerState_wake_eq cfg hda ord h1] at h
      have hm1 : ∃ evs1, StepInv cfg m evs1
          (if cfg.mPerformReset = true then performCodecReset m else m) := by
        split
        · exact ⟨_, stepInv_performCodecReset cfg m⟩
        · exact ⟨[], stepInv_refl cfg m⟩
      revert h hm1
      generalize (if cfg.mPerformReset = true then performCodecReset m else m) = m1
      intro h ⟨evs1, hs1⟩
      by_cases hg : ((cfg.mPerformReset || !cfg.mPerformResetOnExternalWake) &&
          m1.self.mEAPDPoweredDown) = true
      · simp only [hg, if_true] at h
        cases h2 : handleStateChange cfg hda IOAudioDevicePowerState.kIOAudioDeviceActive m1 with
        | none => simp [h2] at h
        | some m2 =>
          simp only [h2, Option.map_some', Option.some.injEq] at h
          subst h
          obtain ⟨evs2, hs2, _⟩ := stepInv_handleStateChange cfg hda _ m1 m2 h2
          exact ⟨_, stepInv_trans cfg _ _ _ _ _ (stepInv_trans cfg _ _ _ _ _ hs1 hs2)
            (stepInv_armWakeTimer cfg m2)⟩
      · simp only [hg, if_false, Bool.false_eq_true, Option.map_some', Option.some.injEq] at h
        subst h
        exact ⟨_, stepInv_trans cfg _ _ _ _ _ hs1 (stepInv_armWakeTimer cfg m1)⟩
    · rw [setPowerState_other cfg hda ord m h0 h1] at h
      simp only [Option.some.injEq] at h
      subst h
      exact ⟨[], stepInv_refl cfg m⟩

theorem stepInv_setPowerStateExternal (cfg : Configuration) (hda : IntelHDA) (ord : Nat)
    (m m' : Machine) (h : setPowerStateExternal cfg hda ord m = some m') :
    ∃ evs, StepInv cfg m evs m' ∧ ∀ ms, Event.setTimeoutMS ms ∉ evs := by
  by_cases h0 : ord = kPowerStateSleep
  · subst h0
    rw [setPowerStateExternal_sleep_eq] at h
    split at h
    · exact stepInv_handleStateChange cfg hda _ m m' h
    · simp only [Option.some.injEq] at h
      subst h
      exact ⟨[], stepInv_refl cfg m, by simp⟩
  · by_cases h1 : ord = kPowerStateNormal ∨ ord = kPowerStateDoze
    · rw [setPowerStateExternal_wake_eq cfg hda ord h1] at h
      split at h
      · have hm1 : ∃ evs1, StepInv cfg m evs1
            (if cfg.mPerformResetOnExternalWake = true then performCodecReset m else m) ∧
            ∀ ms, Event.setTimeoutMS ms ∉ evs1 := by
          split
          · refine ⟨_, stepInv_performCodecReset cfg m, ?_⟩
            intro ms hx
            have := (resetEvents_props _ _ hx).1
            simp [Event.isTimerArm] at this
          · exact ⟨[], stepInv_refl cfg m, by simp⟩
        revert h hm1
        generalize (if cfg.mPerformResetOnExternalWake = true then performCodecReset m else m) = m1
        intro h ⟨evs1, hs1, hn1⟩
        obtain ⟨evs2, hs2, hn2⟩ := stepInv_handleStateChange cfg hda _ m1 m' h
        refine ⟨_, stepInv_trans cfg _ _ _ _ _ hs1 hs2, ?_⟩
        intro ms hx
        rcases List.mem_append.1 hx with hx | hx
        · exact hn1 ms hx
        · exact hn2 ms hx
      · simp only [Option.some.injEq] at h
        subst h
        exact ⟨[], stepInv_refl cfg m, by simp⟩
    · rw [setPowerStateExternal_other cfg hda ord m h0 h1] at h
      simp only [Option.some.injEq] at h
      subst h
      exact ⟨[], stepInv_refl cfg m, by simp⟩

theorem stepInv_onTimerAction (cfg : Configuration) (hda : IntelHDA) (located : Bool)
    (sample : IOAudioDevicePowerState) (m m' : Machine)
    (h : onTimerAction cfg hda located sample m = some m') :
    ∃ evs, StepInv cfg m (Event.setTimeoutMS cfg.mCheckInterval :: evs) m' ∧
      ∀ ms, Event.setTimeoutMS ms ∉ evs := by
  rw [onTimerAction_eq] at h
  split at h
  · simp only [Option.some.injEq] at h
    subst h
    exact ⟨[], stepInv_tickArm cfg m _ rfl, by simp⟩
  · obtain ⟨evs2, hs2, hn2⟩ := stepInv_handleStateChange cfg hda _ _ m' h
    exact ⟨evs2, stepInv_trans cfg _ _ _ _ _ (stepInv_tickArm cfg m _ rfl) hs2, hn2⟩

theorem stepInv_deliver (cfg : Configuration) (hda : IntelHDA) (c : Callback) (m m' : Machine)
    (h : deliver cfg hda c m = some m') : ∃ evs, StepInv cfg m evs m' := by
  cases c with
  | setPowerState ord => exact stepInv_setPowerState cfg hda ord m m' h
  | setPowerStateExternal ord =>
    obtain ⟨evs, hs, _⟩ := stepInv_setPowerStateExternal cfg hda ord m m' h
    exact ⟨evs, hs⟩
  | onTimerAction located sample =>
    obtain ⟨evs, hs, _⟩ := stepInv_onTimerAction cfg hda located sample m m' h
    exact ⟨_, hs⟩

theorem stepInv_run (cfg : Configuration) (hda : IntelHDA) (cs : List Callback) (m m' : Machine)
    (h : run cfg hda cs m = some m') : ∃ evs, StepInv cfg m evs m' := by
  induction cs generalizing m with
  | nil =>
    simp only [run, Option.some.injEq] at h
    subst h
    exact ⟨[], stepInv_refl cfg m⟩
  | cons c rest ih =>
    simp only [run] at h
    cases h1 : deliver cfg hda c m with
    | none => simp [h1] at h
    | some m1 =>
      simp only [h1, Option.some_bind] at h
      obtain ⟨evs1, hs1⟩ := stepInv_deliver cfg hda c m m1 h1
      obtain ⟨evs2, hs2⟩ := ih m1 h
      exact ⟨_, stepInv_trans cfg _ _ _ _ _ hs1 hs2⟩

theorem deliver_isSome (cfg : Configuration) (hda : IntelHDA) (c : Callback) (m : Machine)
    (hn : m.self.mEAPDCapableNodes.isSome = true) :
    ∃ m', deliver cfg hda c m = some m' ∧ m'.self.mEAPDCapableNodes.isSome = true := by
  have key : ∀ m1 : Machine, m1.self.mEAPDCapableNodes.isSome = true →
      ∀ st m2, handleStateChange cfg hda st m1 = some m2 →
        m2.self.mEAPDCapableNodes.isSome = true := by
    intro m1 h1 st m2 h2
    rw [handleStateChange_nodes cfg hda st m1 m2 h2]
    exact h1
  have hreset : ∀ b : Bool, (if b = true then performCodecReset m
      else m).self.mEAPDCapableNodes.isSome = true := by
    intro b
    split
    · rw [performCodecReset_eq]; exact hn
    · exact hn
  cases c with
  | setPowerState ord =>
    obtain ⟨m', hm'⟩ := Option.isSome_iff_exists.1 (setPowerState_isSome cfg hda ord m hn)
    refine ⟨m', hm', ?_⟩
    by_cases h0 : ord = kPowerStateSleep
    · subst h0
      rw [setPowerState_sleep_eq] at hm'
      split at hm'
      · exact key m hn _ _ hm'
      · simp only [Option.some.injEq] at hm'
        subst hm'
        exact hn
    · by_cases h1 : ord = kPowerStateNormal ∨ ord = kPowerStateDoze
      · rw [setPowerState_wake_eq cfg hda ord h1] at hm'
        have hr := hreset cfg.mPerformReset
        revert hm' hr
        generalize (if cfg.mPerformReset = true then performCodecReset m else m) = m1
        intro hm' hr
        split at hm'
        · cases h2 : handleStateChange cfg hda IOAudioDevicePowerState.kIOAudioDeviceActive m1 with
          | none => simp [h2] at hm'
          | some m2 =>
            simp only [h2, Option.map_some', Option.some.injEq] at hm'
            subst hm'
            rw [armWakeTimer_eq]
            exact key m1 hr _ m2 h2
        · simp only [Option.map_some', Option.some.injEq] at hm'
          subst hm'
          rw [armWakeTimer_eq]
          exact hr
      · rw [setPowerState_other cfg hda ord m h0 h1] at hm'
        simp only [Option.some.injEq] at hm'
        subst hm'
        exact hn
  | setPowerStateExternal ord =>
    obtain ⟨m', hm'⟩ := Option.isSome_iff_exists.1 (setPowerStateExternal_isSome cfg hda ord m hn)
    refine ⟨m', hm', ?_⟩
    by_cases h0 : ord = kPowerStateSleep
    · subst h0
      rw [setPowerStateExternal_sleep_eq] at hm'
      split at hm'
      · exact key m hn _ _ hm'
      · simp only [Option.some.injEq] at hm'
        subst hm'
        exact hn
    · by_cases h1 : ord = kPowerStateNormal ∨ ord = kPowerStateDoze
      · rw [setPowerStateExternal_wake_eq cfg hda ord h1] at hm'
        split at hm'
        · exact key _ (hreset cfg.mPerformResetOnExternalWake) _ _ hm'
        · simp only [Option.some.injEq] at hm'
          subst hm'
          exact hn
      · rw [setPowerStateExternal_other cfg hda ord m h0 h1] at hm'
        simp only [Option.some.injEq] at hm'
        subst hm'
        exact hn
  | onTimerAction located sample =>
    obtain ⟨m', hm'⟩ := Option.isSome_iff_exists.1
      (onTimerAction_isSome cfg hda located sample m hn)
    refine ⟨m', hm', ?_⟩
    rw [onTimerAction_eq] at hm'
    split at hm'
    · simp only [Option.some.injEq] at hm'
      subst hm'
      exact hn
    · exact key ⟨{ m.self with mAudioDevice := true, mHDAPrevPowerState := sample },
        m.trace ++ [Event.setTimeoutMS cfg.mCheckInterval]⟩ hn _ _ hm'

theorem run_isSome (cfg : Configuration) (hda : IntelHDA) (cs : List Callback) (m : Machine)
    (hn : m.self.mEAPDCapableNodes.isSome = true) :
    ∃ m', run cfg hda cs m = some m' := by
  induction cs generalizing m with
  | nil => exact ⟨m, rfl⟩
  | cons c rest ih =>
    obtain ⟨m1, h1, hn1⟩ := deliver_isSome cfg hda c m hn
    obtain ⟨m2, h2⟩ := ih m1 hn1
    exact ⟨m2, by simp [run, h1, h2]⟩

theorem filter_isTimerArm_nil (evs : List Event) (h : ∀ ms, Event.setTimeoutMS ms ∉ evs) :
    evs.filter Event.isTimerArm = [] := by
  rw [List.filter_eq_nil_iff]
  intro e he
  cases e <;> simp [Event.isTimerArm]
  exact h _ he

theorem handleStateChange_marker (cfg : Configuration) (hda : IntelHDA)
    (st : IOAudioDevicePowerState) (m m' : Machine)
    (h : handleStateChange cfg hda st m = some m') :
    ∃ evs, m'.trace = m.trace ++ evs ∧
      (Event.storeColdBoot false ∈ evs ↔ st = IOAudioDevicePowerState.kIOAudioDeviceSleep) := by
  obtain ⟨evs, htr, hf⟩ := handleStateChange_entry cfg hda st m m' h
  refine ⟨evs, htr, ?_⟩
  constructor
  · intro hmem
    have h1 : Event.storeColdBoot false ∈ evs.filter Event.isHandlerEntry :=
      List.mem_filter.2 ⟨hmem, rfl⟩
    rw [hf] at h1
    by_cases hst : st = IOAudioDevicePowerState.kIOAudioDeviceSleep
    · exact hst
    · simp [hst] at h1
  · intro hst
    have h1 : Event.storeColdBoot false ∈ evs.filter Event.isHandlerEntry := by
      rw [hf]
      simp [hst]
    exact (List.mem_filter.1 h1).1

theorem handleStateChange_sleep_crash (cfg : Configuration) (hda : IntelHDA) (m : Machine)
    (hs : cfg.mSleepNodes = true) (hn : m.self.mEAPDCapableNodes = none) :
    handleStateChange cfg hda IOAudioDevicePowerState.kIOAudioDeviceSleep m = none := by
  rw [handleStateChange_sleep, eapdStep_eq]
  simp [hs, Machine.setColdBoot, hn]

theorem start_nodes_none (cfg : Configuration) (hda : IntelHDA)
    (providerOk initOk arrayOk timerOk : Bool) (startingNode totalNodes : Nat) (m : Machine)
    (hu : cfg.mUpdateNodes = false) (hn : m.self.mEAPDCapableNodes = none) :
    (start cfg hda providerOk initOk arrayOk timerOk startingNode totalNodes
      m).2.self.mEAPDCapableNodes = none := by
  unfold start
  cases providerOk <;> cases initOk <;> cases hd : cfg.mDisable <;>
    cases hc : (cfg.mCheckInfinite && !timerOk) <;>
    simp [hu, hn, hd, hc, stop, Machine.emit, customCommands_eq]

theorem getNumberFromArray_eq (pins : List OSObject) (i : Nat) (h : i < pins.length) :
    CodecCommanderProbeInit.getNumberFromArray pins i = (pins[i]).numberValue := by
  unfold CodecCommanderProbeInit.getNumberFromArray
  rw [List.get?_eq_getElem?, List.getElem?_eq_getElem h]
  cases pins[i] <;> rfl

theorem probePinsLoop_eq (hda : IntelHDA) (pins : List OSObject) (k i : Nat) (m : Machine)
    (h : i + 2 * k ≤ pins.length) :
    CodecCommanderProbeInit.probePinsLoop hda pins k i m =
      { self := m.self, trace := m.trace ++ pinPairEvents ((pins.drop i).take (2 * k)) } := by
  induction k generalizing i m with
  | zero => simp [CodecCommanderProbeInit.probePinsLoop, pinPairEvents]
  | succ k ih =>
    have h0 : i < pins.length := by omega
    have h1 : i + 1 < pins.length := by omega
    have hd : pins.drop i = pins[i] :: pins[i + 1] :: pins.drop (i + 2) := by
      rw [List.drop_eq_getElem_cons h0, List.drop_eq_getElem_cons h1]
    have ht : (pins.drop i).take (2 * (k + 1)) =
        pins[i] :: pins[i + 1] :: (pins.drop (i + 2)).take (2 * k) := by
      rw [hd]
      have : 2 * (k + 1) = (2 * k + 1) + 1 := by omega
      rw [this, List.take_succ_cons, List.take_succ_cons]
    rw [ht]
    simp only [CodecCommanderProbeInit.probePinsLoop, getNumberFromArray_eq pins i h0,
      getNumberFromArray_eq pins (i + 1) h1]
    by_cases hv : (pins[i]).numberValue = UINT32_MINUS_ONE
    · have hb : (UINT32_MINUS_ONE != (pins[i]).numberValue) = false := by simp [hv]
      simp only [hb, Bool.false_eq_true, if_false]
      rw [ih (i + 2) m (by omega)]
      simp [pinPairEvents, hv]
    · have hb : (UINT32_MINUS_ONE != (pins[i]).numberValue) = true := by
        simp only [bne_iff_ne, ne_eq]
        exact fun hx => hv hx.symm
      simp only [hb, if_true]
      rw [ih (i + 2) _ (by omega)]
      simp [pinPairEvents, hv, pinConfigCommands, IntelHDA.sendCommand, Machine.emit]

theorem probePins_eq (hda : IntelHDA) (pins : List OSObject) (m : Machine)
    (h : pins.length % 2 = 0) :
    CodecCommanderProbeInit.probePinsLoop hda pins (pins.length / 2) 0 m =
      { self := m.self, trace := m.trace ++ pinPairEvents pins } := by
  rw [probePinsLoop_eq hda pins _ 0 m (by omega)]
  have : 2 * (pins.length / 2) = pins.length := by omega
  rw [this]
  simp

theorem probePinConfigs_eq (hda : IntelHDA) (layoutID : Nat) (groups : List OSObject)
    (m : Machine) :
    CodecCommanderProbeInit.probePinConfigs hda layoutID groups m =
      { self := m.self, trace := m.trace ++ groups.flatMap (pinGroupEvents layoutID) } := by
  induction groups generalizing m with
  | nil => simp [CodecCommanderProbeInit.probePinConfigs]
  | cons g rest ih =>
    cases g with
    | number v => simp [CodecCommanderProbeInit.probePinConfigs, ih, pinGroupEvents]
    | array items => simp [CodecCommanderProbeInit.probePinConfigs, ih, pinGroupEvents]
    | other => simp [CodecCommanderProbeInit.probePinConfigs, ih, pinGroupEvents]
    | dictionary lid pc =>
      have hid : (match lid with
          | some (OSObject.number value) => toUInt32 value
          | _ => UINT32_MINUS_ONE) = pinGroupFilter lid := by
        unfold pinGroupFilter
        rfl
      simp only [CodecCommanderProbeInit.probePinConfigs, hid]
      by_cases hl : layoutTest (pinGroupFilter lid) layoutID = true
      · simp only [hl, if_true]
        cases pc with
        | none => simp [ih, pinGroupEvents]
        | some obj =>
          cases obj with
          | number v => simp [ih, pinGroupEvents]
          | dictionary a b => simp [ih, pinGroupEvents]
          | other => simp [ih, pinGroupEvents]
          | array pins =>
            by_cases hodd : pins.length % 2 = 1
            · have : ¬ (pins.length % 2 = 0) := by omega
              simp [hodd, ih, pinGroupEvents, this]
            · have heven : pins.length % 2 = 0 := by omega
              simp only [hodd, if_false]
              rw [ih, probePins_eq hda pins m heven]
              simp [pinGroupEvents, hl, heven]
      · simp only [hl, Bool.false_eq_true, if_false]
        rw [ih]
        cases pc with
        | none => simp [pinGroupEvents]
        | some obj => cases obj <;> simp [pinGroupEvents, hl]

theorem probeCommandsInner_eq (hda : IntelHDA) (cs : List Nat) (m : Machine) :
    CodecCommanderProbeInit.probeCommandsInner hda cs m =
      { self := m.self, trace := m.trace ++ cs.map Event.sendVerb } := by
  induction cs generalizing m with
  | nil => simp [CodecCommanderProbeInit.probeCommandsInner]
  | cons c cs ih =>
    simp [CodecCommanderProbeInit.probeCommandsInner, IntelHDA.sendVerb, Machine.emit, ih]

theorem probeCommandsOuter_eq (hda : IntelHDA) (lid : Nat) (l : List CustomCommand)
    (m : Machine) :
    CodecCommanderProbeInit.probeCommandsOuter hda lid l m =
      { self := m.self, trace := m.trace ++ (probeVerbs lid l).map Event.sendVerb } := by
  induction l generalizing m with
  | nil => simp [CodecCommanderProbeInit.probeCommandsOuter, probeVerbs]
  | cons cc rest ih =>
    by_cases h : layoutTest cc.layoutID lid = true
    · simp only [CodecCommanderProbeInit.probeCommandsOuter, h, if_true, ih,
        probeCommandsInner_eq]
      simp [probeVerbs, List.filter_cons, h]
    · simp only [CodecCommanderProbeInit.probeCommandsOuter, h, ih]
      simp [probeVerbs, List.filter_cons, h]

theorem probe_eq (config : Configuration) (hda : IntelHDA) (m : Machine)
    (hl : toUInt32 (hda.respond (m.trace ++ [Event.lock, Event.hdaInit]) Event.getLayoutID) ≠
      UINT32_MINUS_ONE) :
    CodecCommanderProbeInit.probe config hda false true m =
      { self := m.self,
        trace := m.trace ++ (Event.lock :: Event.hdaInit :: Event.getLayoutID ::
          ((probeVerbs
              (toUInt32 (hda.respond (m.trace ++ [Event.lock, Event.hdaInit]) Event.getLayoutID))
              config.mCustomCommands).map Event.sendVerb ++
            probePinEvents
              (toUInt32 (hda.respond (m.trace ++ [Event.lock, Event.hdaInit]) Event.getLayoutID))
              config.mPinConfigDefault ++
            [Event.unlock])) } := by
  have hb : (UINT32_MINUS_ONE ==
      toUInt32 (hda.respond (m.trace ++ [Event.lock, Event.hdaInit]) Event.getLayoutID)) = false := by
    simp only [beq_eq_false_iff_ne, ne_eq]
    exact fun hx => hl hx.symm
  cases hp : config.mPinConfigDefault <;>
    simp [CodecCommanderProbeInit.probe, IntelHDA.getLayoutID, Machine.emit, hb,
      probeCommandsOuter_eq, probePinConfigs_eq, probePinEvents, hp]

theorem lockDepthAfter_append (a b : List Event) (d : Nat) :
    lockDepthAfter d (a ++ b) = lockDepthAfter (lockDepthAfter d a) b := by
  induction a generalizing d with
  | nil => rfl
  | cons e rest ih => cases e <;> simp [lockDepthAfter, ih]

theorem heldThroughout_append (p : Event → Bool) (a b : List Event) (d : Nat) :
    heldThroughout p d (a ++ b) =
      (heldThroughout p d a && heldThroughout p (lockDepthAfter d a) b) := by
  induction a generalizing d with
  | nil => simp [heldThroughout, lockDepthAfter]
  | cons e rest ih => cases e <;> simp [heldThroughout, lockDepthAfter, ih, Bool.and_assoc]

theorem balancedHeld_nil (p : Event → Bool) (d : Nat) : balancedHeld p d [] :=
  ⟨rfl, rfl⟩

theorem balancedHeld_append (p : Event → Bool) (d : Nat) (a b : List Event)
    (ha : balancedHeld p d a) (hb : balancedHeld p d b) : balancedHeld p d (a ++ b) := by
  constructor
  · rw [heldThroughout_append, ha.1, ha.2, hb.1]
    rfl
  · rw [lockDepthAfter_append, ha.2, hb.2]

theorem balancedHeld_plain_pos (p : Event → Bool) (d : Nat) (l : List Event)
    (h : ∀ e ∈ l, e ≠ Event.lock ∧ e ≠ Event.unlock) : balancedHeld p (d + 1) l := by
  induction l with
  | nil => exact balancedHeld_nil p _
  | cons e rest ih =>
    have he := h e (List.mem_cons_self _ _)
    have hr := ih (fun x hx => h x (List.mem_cons_of_mem _ hx))
    cases e <;> simp_all [balancedHeld, heldThroughout, lockDepthAfter]

theorem balancedHeld_plain_not (p : Event → Bool) (d : Nat) (l : List Event)
    (h : ∀ e ∈ l, e ≠ Event.lock ∧ e ≠ Event.unlock ∧ p e = false) : balancedHeld p d l := by
  induction l with
  | nil => exact balancedHeld_nil p _
  | cons e rest ih =>
    have he := h e (List.mem_cons_self _ _)
    have hr := ih (fun x hx => h x (List.mem_cons_of_mem _ hx))
    cases e <;> simp_all [balancedHeld, heldThroughout, lockDepthAfter]

theorem balancedHeld_wrap (p : Event → Bool) (d : Nat) (inner : List Event)
    (h : balancedHeld p (d + 1) inner) :
    balancedHeld p d (Event.lock :: (inner ++ [Event.unlock])) := by
  constructor
  · simp only [heldThroughout]
    rw [heldThroughout_append, h.1, h.2]
    simp [heldThroughout]
  · simp only [lockDepthAfter]
    rw [lockDepthAfter_append, h.2]
    simp [lockDepthAfter]

theorem balancedHeld_cons (p : Event → Bool) (d : Nat) (e : Event) (l : List Event)
    (h1 : e ≠ Event.lock) (h2 : e ≠ Event.unlock) (h3 : p e = false)
    (hl : balancedHeld p d l) : balancedHeld p d (e :: l) := by
  have := balancedHeld_append p d [e] l
    (balancedHeld_plain_not p d [e] (by
      intro x hx
      rw [List.mem_singleton] at hx
      subst hx
      exact ⟨h1, h2, h3⟩)) hl
  simpa using this

theorem eapdEvents_plain (lvl : Nat) (nodes : List Nat) :
    ∀ e ∈ eapdEvents lvl nodes, e ≠ Event.lock ∧ e ≠ Event.unlock := by
  intro e he
  simp only [eapdEvents, List.mem_map] at he
  obtain ⟨n, _, rfl⟩ := he
  simp

theorem sendVerbs_plain (l : List Nat) :
    ∀ e ∈ l.map Event.sendVerb, e ≠ Event.lock ∧ e ≠ Event.unlock := by
  intro e he
  simp only [List.mem_map] at he
  obtain ⟨n, _, rfl⟩ := he
  simp

theorem balancedHeld_eapdPass (p : Event → Bool) (d : Nat) (cfg : Configuration) (lvl : Nat)
    (nodes : List Nat) (hp : p (Event.ioSleep cfg.mSendDelay) = false) :
    balancedHeld p d (eapdPass cfg lvl nodes) := by
  unfold eapdPass
  exact balancedHeld_cons p d _ _ (by simp) (by simp) hp
    (balancedHeld_wrap p d _ (balancedHeld_plain_pos p d _ (eapdEvents_plain lvl nodes)))

theorem balancedHeld_resetEvents (p : Event → Bool) (d : Nat) (cb : Bool) :
    balancedHeld p d (resetEvents cb) := by
  cases cb
  · exact balancedHeld_wrap p d [Event.resetCodec, Event.storeEAPDPoweredDown true]
      (balancedHeld_plain_pos p d _ (by simp))
  · exact balancedHeld_nil p d

theorem balancedHeld_customEvents (p : Event → Bool) (d : Nat) (cfg : Configuration)
    (hda : IntelHDA) (st : CodecCommanderState) (hist : List Event)
    (hp : p Event.getLayoutID = false) :
    balancedHeld p d (customEvents cfg hda st hist) := by
  unfold customEvents
  exact balancedHeld_cons p d _ _ (by simp) (by simp) hp
    (balancedHeld_wrap p d _ (balancedHeld_plain_pos p d _ (sendVerbs_plain _)))

theorem balancedHeld_customEvents_pos (p : Event → Bool) (d : Nat) (cfg : Configuration)
    (hda : IntelHDA) (st : CodecCommanderState) (hist : List Event) :
    balancedHeld p (d + 1) (customEvents cfg hda st hist) := by
  unfold customEvents
  have h1 : balancedHeld p (d + 1) [Event.getLayoutID] :=
    balancedHeld_plain_pos p d _ (by simp)
  have h2 := balancedHeld_wrap p (d + 1) _
    (balancedHeld_plain_pos p (d + 1) _
      (sendVerbs_plain (selectedVerbs st (toUInt32 (hda.respond hist Event.getLayoutID))
        cfg.mCustomCommands)))
  have := balancedHeld_append p (d + 1) _ _ h1 h2
  simpa using this

theorem balancedHeld_eapdStepEvents (p : Event → Bool) (d : Nat) (cfg : Configuration)
    (hda : IntelHDA) (lvl : Nat) (nodes : List Nat) (m : Machine)
    (hp : p (Event.ioSleep cfg.mSendDelay) = false) :
    balancedHeld p d (eapdStepEvents cfg hda lvl nodes m) := by
  unfold eapdStepEvents
  apply balancedHeld_append p d _ _ (balancedHeld_eapdPass p d cfg lvl nodes hp)
  split
  · exact balancedHeld_append p d _ _ (balancedHeld_resetEvents p d _)
      (balancedHeld_eapdPass p d cfg lvl nodes hp)
  · exact balancedHeld_nil p d

theorem handleStateChange_locks (cfg : Configuration) (hda : IntelHDA)
    (st : IOAudioDevicePowerState) (m m' : Machine)
    (h : handleStateChange cfg hda st m = some m') :
    ∃ evs, m'.trace = m.trace ++ evs ∧ (∀ d, balancedHeld Event.isCommand d evs) ∧
      heldThroughout Event.isFlagStore 0 evs = false ∧
      heldThroughout Event.isPortCall 0 evs = false := by
  by_cases hst : st = IOAudioDevicePowerState.kIOAudioDeviceSleep
  · subst hst
    obtain ⟨E, hE, hm⟩ := handleStateChange_sleep_events cfg hda m m' h
    subst hm
    have hEb : ∀ d, balancedHeld Event.isCommand d E := by
      intro d
      rcases hE with ⟨_, h1⟩ | ⟨_, nodes, _, h1⟩
      · subst h1; exact balancedHeld_nil _ d
      · subst h1; exact balancedHeld_eapdStepEvents _ d cfg hda 0 nodes _ rfl
    have hpre : ∀ d, balancedHeld Event.isCommand d (Event.storeColdBoot false :: E) := fun d =>
      balancedHeld_cons _ d _ _ (by simp) (by simp) rfl (hEb d)
    refine ⟨_, rfl, ?_, ?_, ?_⟩
    · intro d
      exact balancedHeld_append _ d _ _
        (balancedHeld_append _ d _ _ (hpre d) (balancedHeld_customEvents _ d cfg hda _ _ rfl))
        (balancedHeld_plain_not _ d _ (by simp [Event.isCommand]))
    · simp [heldThroughout, Event.isFlagStore]
    · rw [heldThroughout_append, heldThroughout_append, (hpre 0).2]
      simp [customEvents, heldThroughout, Event.isPortCall]
  · obtain ⟨E, hE, hm⟩ := handleStateChange_wake_events cfg hda st hst m m' h
    subst hm
    have hEb : ∀ d, balancedHeld Event.isCommand d E := by
      intro d
      rcases hE with ⟨_, h1⟩ | ⟨_, nodes, _, h1⟩
      · subst h1; exact balancedHeld_nil _ d
      · subst h1; exact balancedHeld_eapdStepEvents _ d cfg hda 2 nodes _ rfl
    have hpre : ∀ d, balancedHeld Event.isCommand d (Event.applyIntelTCSEL :: E) := fun d =>
      balancedHeld_cons _ d _ _ (by simp) (by simp) rfl (hEb d)
    have hmid : ∀ d, balancedHeld Event.isCommand d
        (Event.applyIntelTCSEL :: E ++
          (if m.self.mColdBoot then []
            else customEvents cfg hda CodecCommanderState.kStateWake
              (m.trace ++ Event.applyIntelTCSEL :: E))) := by
      intro d
      apply balancedHeld_append _ d _ _ (hpre d)
      split
      · exact balancedHeld_nil _ d
      · exact balancedHeld_customEvents _ d cfg hda _ _ rfl
    refine ⟨_, rfl, ?_, ?_, ?_⟩
    · intro d
      exact balancedHeld_append _ d _ _ (hmid d)
        (balancedHeld_plain_not _ d _ (by simp [Event.isCommand]))
    · rw [heldThroughout_append, (hmid 0).2]
      simp [heldThroughout, Event.isFlagStore]
    · simp [heldThroughout, Event.isPortCall]

theorem deliver_closure (cfg : Configuration) (hda : IntelHDA) (Q : List Event → Prop)
    (hnil : Q []) (happ : ∀ a b, Q a → Q b → Q (a ++ b))
    (hreset : ∀ cb, Q (resetEvents cb)) (htimer : ∀ ms, Q [Event.setTimeoutMS ms])
    (hhandler : ∀ st m m', handleStateChange cfg hda st m = some m' →
      ∃ evs, m'.trace = m.trace ++ evs ∧ Q evs)
    (c : Callback) (m m' : Machine) (h : deliver cfg hda c m = some m') :
    ∃ evs, m'.trace = m.trace ++ evs ∧ Q evs := by
  have hresetIf : ∀ b : Bool, ∃ evs1,
      (if b = true then performCodecReset m else m).trace = m.trace ++ evs1 ∧ Q evs1 := by
    intro b
    split
    · rw [performCodecReset_eq]
      exact ⟨_, rfl, hreset _⟩
    · exact ⟨[], by simp, hnil⟩
  have harm : ∀ x : Machine, ∃ evs3, (armWakeTimer cfg x).trace = x.trace ++ evs3 ∧ Q evs3 := by
    intro x
    rw [armWakeTimer_eq]
    refine ⟨_, rfl, ?_⟩
    split
    · exact htimer _
    · exact hnil
  cases c with
  | setPowerState ord =>
    simp only [deliver] at h
    by_cases h0 : ord = kPowerStateSleep
    · subst h0
      rw [setPowerState_sleep_eq] at h
      split at h
      · exact hhandler _ m m' h
      · simp only [Option.some.injEq] at h
        subst h
        exact ⟨[], by simp, hnil⟩
    · by_cases h1 : ord = kPowerStateNormal ∨ ord = kPowerStateDoze
      · rw [setPowerState_wake_eq cfg hda ord h1] at h
        have hr := hresetIf cfg.mPerformReset
        revert h hr
        generalize (if cfg.mPerformReset = true then performCodecReset m else m) = m1
        intro h ⟨evs1, ht1, hq1⟩
        split at h
        · cases h2 : handleStateChange cfg hda IOAudioDevicePowerState.kIOAudioDeviceActive m1 with
          | none => simp [h2] at h
          | some m2 =>
            simp only [h2, Option.map_some', Option.some.injEq] at h
            subst h
            obtain ⟨evs2, ht2, hq2⟩ := hhandler _ m1 m2 h2
            obtain ⟨evs3, ht3, hq3⟩ := harm m2
            exact ⟨(evs1 ++ evs2) ++ evs3, by rw [ht3, ht2, ht1]; simp,
              happ _ _ (happ _ _ hq1 hq2) hq3⟩
        · simp only [Option.map_some', Option.some.injEq] at h
          subst h
          obtain ⟨evs3, ht3, hq3⟩ := harm m1
          exact ⟨evs1 ++ evs3, by rw [ht3, ht1]; simp, happ _ _ hq1 hq3⟩
      · rw [setPowerState_other cfg hda ord m h0 h1] at h
        simp only [Option.some.injEq] at h
        subst h
        exact ⟨[], by simp, hnil⟩
  | setPowerStateExternal ord =>
    simp only [deliver] at h
    by_cases h0 : ord = kPowerStateSleep
    · subst h0
      rw [setPowerStateExternal_sleep_eq] at h
      split at h
      · exact hhandler _ m m' h
      · simp only [Option.some.injEq] at h
        subst h
        exact ⟨[], by simp, hnil⟩
    · by_cases h1 : ord = kPowerStateNormal ∨ ord = kPowerStateDoze
      · rw [setPowerStateExternal_wake_eq cfg hda ord h1] at h
        split at h
        · have hr := hresetIf cfg.mPerformResetOnExternalWake
          revert h hr
          generalize (if cfg.mPerformResetOnExternalWake = true then performCodecReset m
            else m) = m1
          intro h ⟨evs1, ht1, hq1⟩
          obtain ⟨evs2, ht2, hq2⟩ := hhandler _ m1 m' h
          exact ⟨evs1 ++ evs2, by rw [ht2, ht1]; simp, happ _ _ hq1 hq2⟩
        · simp only [Option.some.injEq] at h
          subst h
          exact ⟨[], by simp, hnil⟩
      · rw [setPowerStateExternal_other cfg hda ord m h0 h1] at h
        simp only [Option.some.injEq] at h
        subst h
        exact ⟨[], by simp, hnil⟩
  | onTimerAction located sample =>
    simp only [deliver] at h
    rw [onTimerAction_eq] at h
    split at h
    · simp only [Option.some.injEq] at h
      subst h
      exact ⟨_, rfl, htimer _⟩
    · obtain ⟨evs2, ht2, hq2⟩ := hhandler _ _ m' h
      exact ⟨[Event.setTimeoutMS cfg.mCheckInterval] ++ evs2, by rw [ht2]; simp,
        happ _ _ (htimer _) hq2⟩

theorem run_closure (cfg : Configuration) (hda : IntelHDA) (Q : List Event → Prop)
    (hnil : Q []) (happ : ∀ a b, Q a → Q b → Q (a ++ b))
    (hreset : ∀ cb, Q (resetEvents cb)) (htimer : ∀ ms, Q [Event.setTimeoutMS ms])
    (hhandler : ∀ st m m', handleStateChange cfg hda st m = some m' →
      ∃ evs, m'.trace = m.trace ++ evs ∧ Q evs)
    (cs : List Callback) (m m' : Machine) (h : run cfg hda cs m = some m') :
    ∃ evs, m'.trace = m.trace ++ evs ∧ Q evs := by
  induction cs generalizing m with
  | nil =>
    simp only [run, Option.some.injEq] at h
    subst h
    exact ⟨[], by simp, hnil⟩
  | cons c rest ih =>
    simp only [run] at h
    cases h1 : deliver cfg hda c m with
    | none => simp [h1] at h
    | some m1 =>
      simp only [h1, Option.some_bind] at h
      obtain ⟨evs1, ht1, hq1⟩ :=
        deliver_closure cfg hda Q hnil happ hreset htimer hhandler c m m1 h1
      obtain ⟨evs2, ht2, hq2⟩ := ih m1 h
      exact ⟨evs1 ++ evs2, by rw [ht2, ht1]; simp, happ _ _ hq1 hq2⟩

theorem run_locks (cfg : Configuration) (hda : IntelHDA) (cs : List Callback) (m m' : Machine)
    (h : run cfg hda cs m = some m') :
    ∃ evs, m'.trace = m.trace ++ evs ∧ ∀ d, balancedHeld Event.isCommand d evs := by
  apply run_closure cfg hda (fun evs => ∀ d, balancedHeld Event.isCommand d evs)
    (fun d => balancedHeld_nil _ d)
    (fun a b ha hb d => balancedHeld_append _ d a b (ha d) (hb d))
    (fun cb d => balancedHeld_resetEvents _ d cb)
    (fun ms d => balancedHeld_plain_not _ d _ (by simp [Event.isCommand]))
    (fun st m0 m1 h0 => by
      obtain ⟨evs, ht, hb, _⟩ := handleStateChange_locks cfg hda st m0 m1 h0
      exact ⟨evs, ht, hb⟩)
    cs m m' h

theorem startNodesLoop_trace (hda : IntelHDA) (k node : Nat) (nodes : List Nat) (m : Machine) :
    ∃ evs, (startNodesLoop hda k node nodes m).2 = { self := m.self, trace := m.trace ++ evs } ∧
      ∀ e ∈ evs, e ≠ Event.lock ∧ e ≠ Event.unlock := by
  induction k generalizing node nodes m with
  | zero => exact ⟨[], by simp [startNodesLoop], by simp⟩
  | succ k ih =>
    simp only [startNodesLoop, IntelHDA.sendCommand, Machine.emit]
    split
    · obtain ⟨evs, h1, h2⟩ := ih ((node + 1) % 65536) nodes
        ⟨m.self, m.trace ++ [Event.sendCommand node HdaVerb.HDA_VERB_GET_PARAM HDA_PARM_PINCAP]⟩
      refine ⟨Event.sendCommand node HdaVerb.HDA_VERB_GET_PARAM HDA_PARM_PINCAP :: evs, ?_, ?_⟩
      · rw [h1]; simp
      · intro e he
        rcases List.mem_cons.1 he with h | h
        · subst h; simp
        · exact h2 e h
    · split
      · obtain ⟨evs, h1, h2⟩ := ih ((node + 1) % 65536) (nodes ++ [node])
          ⟨m.self, m.trace ++ [Event.sendCommand node HdaVerb.HDA_VERB_GET_PARAM HDA_PARM_PINCAP]⟩
        refine ⟨Event.sendCommand node HdaVerb.HDA_VERB_GET_PARAM HDA_PARM_PINCAP :: evs, ?_, ?_⟩
        · rw [h1]; simp
        · intro e he
          rcases List.mem_cons.1 he with h | h
          · subst h; simp
          · exact h2 e h
      · obtain ⟨evs, h1, h2⟩ := ih ((node + 1) % 65536) nodes
          ⟨m.self, m.trace ++ [Event.sendCommand node HdaVerb.HDA_VERB_GET_PARAM HDA_PARM_PINCAP]⟩
        refine ⟨Event.sendCommand node HdaVerb.HDA_VERB_GET_PARAM HDA_PARM_PINCAP :: evs, ?_, ?_⟩
        · rw [h1]; simp
        · intro e he
          rcases List.mem_cons.1 he with h | h
          · subst h; simp
          · exact h2 e h

theorem start_locks (p : Event → Bool) (cfg : Configuration) (hda : IntelHDA)
    (providerOk initOk arrayOk timerOk : Bool) (startingNode totalNodes : Nat) (m : Machine) :
    ∃ evs, (start cfg hda providerOk initOk arrayOk timerOk startingNode totalNodes m).2.trace =
        m.trace ++ evs ∧ ∀ d, balancedHeld p d evs := by
  have hwrap : ∀ (x : Machine) (inner : List Event), (∀ d, balancedHeld p (d + 1) inner) →
      x.trace = m.trace ++ (Event.lock :: (inner ++ [Event.unlock])) →
      ∃ evs, x.trace = m.trace ++ evs ∧ ∀ d, balancedHeld p d evs := by
    intro x inner hi hx
    exact ⟨_, hx, fun d => balancedHeld_wrap p d inner (hi d)⟩
  unfold start
  dsimp only
  generalize ((startingNode % 65536 + totalNodes) % 65536 - startingNode % 65536) = k
  cases providerOk
  · exact ⟨[], by simp, fun d => balancedHeld_nil p d⟩
  · cases initOk
    · exact hwrap _ [Event.hdaInit] (fun d => balancedHeld_plain_pos p d _ (by simp))
        (by simp [stop, Machine.emit])
    · cases hd : cfg.mDisable
      · cases hu : cfg.mUpdateNodes
        · have hin : ∀ d, balancedHeld p (d + 1) (Event.hdaInit ::
              customEvents cfg hda CodecCommanderState.kStateInit
                (m.trace ++ [Event.lock, Event.hdaInit])) := by
            intro d
            have := balancedHeld_append p (d + 1) [Event.hdaInit] _
              (balancedHeld_plain_pos p d _ (by simp))
              (balancedHeld_customEvents_pos p d cfg hda CodecCommanderState.kStateInit
                (m.trace ++ [Event.lock, Event.hdaInit]))
            simpa using this
          cases hc : (cfg.mCheckInfinite && !timerOk) <;>
            exact hwrap _ _ hin
              (by simp [hd, hu, hc, stop, Machine.emit, customCommands_eq, customEvents])
        · cases arrayOk
          · exact hwrap _ [Event.hdaInit, Event.ioSleep cfg.mSendDelay]
              (fun d => balancedHeld_plain_pos p d _ (by simp))
              (by simp [hd, hu, stop, Machine.emit])
          · obtain ⟨evsD, hD, hplain⟩ := startNodesLoop_trace hda k
              (startingNode % 65536) []
              ⟨m.self, m.trace ++ [Event.lock, Event.hdaInit, Event.ioSleep cfg.mSendDelay]⟩
            simp only at hD
            have hin : ∀ d, balancedHeld p (d + 1)
                ((Event.hdaInit :: Event.ioSleep cfg.mSendDelay :: evsD) ++
                customEvents cfg hda CodecCommanderState.kStateInit
                  (m.trace ++ Event.lock :: Event.hdaInit :: Event.ioSleep cfg.mSendDelay ::
                    evsD)) := by
              intro d
              apply balancedHeld_append p (d + 1)
              · apply balancedHeld_plain_pos p d
                intro e he
                rcases List.mem_cons.1 he with h | h
                · subst h; simp
                · rcases List.mem_cons.1 h with h | h
                  · subst h; simp
                  · exact hplain e h
              · exact balancedHeld_customEvents_pos p d cfg hda _ _
            cases hc : (cfg.mCheckInfinite && !timerOk) <;>
              exact hwrap _ _ hin
                (by simp [hd, hu, hc, stop, Machine.emit, customCommands_eq, customEvents, hD])
      · exact hwrap _ [Event.hdaInit] (fun d => balancedHeld_plain_pos p d _ (by simp))
          (by simp [hd, stop, Machine.emit])

theorem mem_pinPairEvents (l : List OSObject) :
    ∀ e ∈ pinPairEvents l, e ≠ Event.lock ∧ e ≠ Event.unlock := by
  induction l using pinPairEvents.induct with
  | case1 a b rest ih =>
    intro e he
    simp only [pinPairEvents, List.mem_append] at he
    rcases he with h | h
    · split at h
      · simp only [pinConfigCommands, List.mem_cons, List.mem_singleton, List.not_mem_nil,
          or_false] at h
        rcases h with h | h | h | h <;> subst h <;> simp
      · simp at h
    · exact ih e h
  | case2 l hl =>
    intro e he
    unfold pinPairEvents at he
    split at he
    · exact absurd rfl (hl _ _ _)
    · simp at he

theorem mem_pinGroupEvents (lid : Nat) (g : OSObject) :
    ∀ e ∈ pinGroupEvents lid g, e ≠ Event.lock ∧ e ≠ Event.unlock := by
  intro e he
  unfold pinGroupEvents at he
  split at he
  · split at he
    · exact mem_pinPairEvents _ e he
    · simp at he
  · simp at he

theorem probe_locks (p : Event → Bool) (config : Configuration) (hda : IntelHDA)
    (ccpioff initOk : Bool) (m : Machine) :
    ∃ evs, (CodecCommanderProbeInit.probe config hda ccpioff initOk m).trace = m.trace ++ evs ∧
      ∀ d, balancedHeld p d evs := by
  cases ccpioff
  · cases initOk
    · exact ⟨Event.lock :: ([Event.hdaInit] ++ [Event.unlock]),
        by simp [CodecCommanderProbeInit.probe, Machine.emit],
        fun d => balancedHeld_wrap p d _ (balancedHeld_plain_pos p d _ (by simp))⟩
    · by_cases hl : toUInt32 (hda.respond (m.trace ++ [Event.lock, Event.hdaInit])
          Event.getLayoutID) = UINT32_MINUS_ONE
      · exact ⟨Event.lock :: ([Event.hdaInit, Event.getLayoutID] ++ [Event.unlock]),
          by simp [CodecCommanderProbeInit.probe, Machine.emit, IntelHDA.getLayoutID, hl],
          fun d => balancedHeld_wrap p d _ (balancedHeld_plain_pos p d _ (by simp))⟩
      · rw [probe_eq config hda m hl]
        refine ⟨Event.lock :: ((Event.hdaInit :: Event.getLayoutID ::
          ((probeVerbs
              (toUInt32 (hda.respond (m.trace ++ [Event.lock, Event.hdaInit]) Event.getLayoutID))
              config.mCustomCommands).map Event.sendVerb ++
            probePinEvents
              (toUInt32 (hda.respond (m.trace ++ [Event.lock, Event.hdaInit]) Event.getLayoutID))
              config.mPinConfigDefault)) ++ [Event.unlock]), by simp,
          fun d => balancedHeld_wrap p d _ (balancedHeld_plain_pos p d _ ?_)⟩
        intro e he
        rcases List.mem_cons.1 he with h | h
        · subst h; simp
        · rcases List.mem_cons.1 h with h | h
          · subst h; simp
          · rcases List.mem_append.1 h with h | h
            · exact sendVerbs_plain _ e h
            · cases hp : config.mPinConfigDefault with
              | none => simp [hp, probePinEvents] at h
              | some groups =>
                simp only [hp, probePinEvents, List.mem_flatMap] at h
                obtain ⟨g, _, hg⟩ := h
                exact mem_pinGroupEvents _ g e hg
  · exact ⟨[], by simp [CodecCommanderProbeInit.probe], fun d => balancedHeld_nil p d⟩

theorem pinPairEvents_isVerb (l : List OSObject) :
    ∀ e ∈ pinPairEvents l, e.isVerb = false := by
  induction l using pinPairEvents.induct with
  | case1 a b rest ih =>
    intro e he
    simp only [pinPairEvents, List.mem_append] at he
    rcases he with h | h
    · split at h
      · simp only [pinConfigCommands, List.mem_cons, List.mem_singleton, List.not_mem_nil,
          or_false] at h
        rcases h with h | h | h | h <;> subst h <;> rfl
      · simp at h
    · exact ih e h
  | case2 l hl =>
    intro e he
    unfold pinPairEvents at he
    split at he
    · exact absurd rfl (hl _ _ _)
    · simp at he

theorem filter_isVerb_probePinEvents (lid : Nat) (pc : Option (List OSObject)) :
    (probePinEvents lid pc).filter Event.isVerb = [] := by
  rw [List.filter_eq_nil_iff]
  intro e he
  cases pc with
  | none => simp [probePinEvents] at he
  | some groups =>
    simp only [probePinEvents, List.mem_flatMap] at he
    obtain ⟨g, _, hg⟩ := he
    unfold pinGroupEvents at hg
    split at hg
    · split at hg
      · simp [pinPairEvents_isVerb _ e hg]
      · simp at hg
    · simp at hg

theorem filter_isVerb_sendVerb (l : List Nat) :
    (l.map Event.sendVerb).filter Event.isVerb = l.map Event.sendVerb := by
  induction l with
  | nil => rfl
  | cons c cs ih => simp [List.filter_cons, Event.isVerb, ih]

theorem probeVerbs_eraseFlags (lid : Nat) (l : List CustomCommand) :
    probeVerbs lid (l.map CustomCommand.eraseFlags) = probeVerbs lid l := by
  induction l with
  | nil => rfl
  | cons cc rest ih =>
    simp only [probeVerbs] at ih
    by_cases h : layoutTest cc.layoutID lid = true
    · simp [probeVerbs, List.filter_cons, CustomCommand.eraseFlags, h, ih]
    · simp [probeVerbs, List.filter_cons, CustomCommand.eraseFlags, h, ih]

theorem probe_eraseFlags (config config2 : Configuration) (hda : IntelHDA)
    (ccpioff initOk : Bool) (m : Machine)
    (hp : config2.mPinConfigDefault = config.mPinConfigDefault)
    (hc : config2.mCustomCommands.map CustomCommand.eraseFlags =
      config.mCustomCommands.map CustomCommand.eraseFlags) :
    CodecCommanderProbeInit.probe config2 hda ccpioff initOk m =
      CodecCommanderProbeInit.probe config hda ccpioff initOk m := by
  have hv : ∀ lid, probeVerbs lid config2.mCustomCommands =
      probeVerbs lid config.mCustomCommands := by
    intro lid
    rw [← probeVerbs_eraseFlags lid config2.mCustomCommands, hc, probeVerbs_eraseFlags]
  simp only [CodecCommanderProbeInit.probe, probeCommandsOuter_eq, hv, hp]

theorem startNodesLoop_sends (hda : IntelHDA) (k node : Nat) (nodes : List Nat) (m : Machine) :
    ∃ evs, (startNodesLoop hda k node nodes m).2 = { self := m.self, trace := m.trace ++ evs } ∧
      ∀ e ∈ evs, ∃ n, e = Event.sendCommand n HdaVerb.HDA_VERB_GET_PARAM HDA_PARM_PINCAP := by
  induction k generalizing node nodes m with
  | zero => exact ⟨[], by simp [startNodesLoop], by simp⟩
  | succ k ih =>
    simp only [startNodesLoop, IntelHDA.sendCommand, Machine.emit]
    split
    · obtain ⟨evs, h1, h2⟩ := ih ((node + 1) % 65536) nodes
        ⟨m.self, m.trace ++ [Event.sendCommand node HdaVerb.HDA_VERB_GET_PARAM HDA_PARM_PINCAP]⟩
      refine ⟨Event.sendCommand node HdaVerb.HDA_VERB_GET_PARAM HDA_PARM_PINCAP :: evs, ?_, ?_⟩
      · rw [h1]; simp
      · intro e he
        rcases List.mem_cons.1 he with h | h
        · exact ⟨node, h⟩
        · exact h2 e h
    · split
      · obtain ⟨evs, h1, h2⟩ := ih ((node + 1) % 65536) (nodes ++ [node])
          ⟨m.self, m.trace ++ [Event.sendCommand node HdaVerb.HDA_VERB_GET_PARAM HDA_PARM_PINCAP]⟩
        refine ⟨Event.sendCommand node HdaVerb.HDA_VERB_GET_PARAM HDA_PARM_PINCAP :: evs, ?_, ?_⟩
        · rw [h1]; simp
        · intro e he
          rcases List.mem_cons.1 he with h | h
          · exact ⟨node, h⟩
          · exact h2 e h
      · obtain ⟨evs, h1, h2⟩ := ih ((node + 1) % 65536) nodes
          ⟨m.self, m.trace ++ [Event.sendCommand node HdaVerb.HDA_VERB_GET_PARAM HDA_PARM_PINCAP]⟩
        refine ⟨Event.sendCommand node HdaVerb.HDA_VERB_GET_PARAM HDA_PARM_PINCAP :: evs, ?_, ?_⟩
        · rw [h1]; simp
        · intro e he
          rcases List.mem_cons.1 he with h | h
          · exact ⟨node, h⟩
          · exact h2 e h

theorem start_ok_trace (cfg : Configuration) (hda : IntelHDA)
    (providerOk initOk arrayOk timerOk : Bool) (startingNode totalNodes : Nat) (m : Machine)
    (hok : (start cfg hda providerOk initOk arrayOk timerOk startingNode totalNodes m).1 = true) :
    ∃ pre, (∀ c, Event.sendVerb c ∉ pre) ∧
      (start cfg hda providerOk initOk arrayOk timerOk startingNode totalNodes m).2.trace =
        m.trace ++ pre ++
          (customEvents cfg hda CodecCommanderState.kStateInit (m.trace ++ pre) ++
            [Event.unlock]) := by
  unfold start at hok ⊢
  dsimp only at hok ⊢
  generalize ((startingNode % 65536 + totalNodes) % 65536 - startingNode % 65536) = k at hok ⊢
  cases providerOk
  · simp at hok
  · cases initOk
    · simp at hok
    · cases hd : cfg.mDisable
      · cases hu : cfg.mUpdateNodes
        · cases hc : (cfg.mCheckInfinite && !timerOk)
          · refine ⟨[Event.lock, Event.hdaInit], by simp, ?_⟩
            simp [hd, hu, hc, Machine.emit, customCommands_eq, customEvents]
          · simp [hd, hu, hc] at hok
        · cases arrayOk
          · simp [hd, hu] at hok
          · obtain ⟨evsD, hD, hsend⟩ := startNodesLoop_sends hda k
              (startingNode % 65536) []
              ⟨m.self, m.trace ++ [Event.lock, Event.hdaInit, Event.ioSleep cfg.mSendDelay]⟩
            simp only at hD
            cases hc : (cfg.mCheckInfinite && !timerOk)
            · refine ⟨Event.lock :: Event.hdaInit :: Event.ioSleep cfg.mSendDelay :: evsD, ?_, ?_⟩
              · intro c hcm
                rcases List.mem_cons.1 hcm with h | h
                · simp at h
                · rcases List.mem_cons.1 h with h | h
                  · simp at h
                  · rcases List.mem_cons.1 h with h | h
                    · simp at h
                    · obtain ⟨n, hn⟩ := hsend _ h
                      simp at hn
              · simp [hd, hu, hc, Machine.emit, customCommands_eq, customEvents, hD]
            · simp [hd, hu, hc] at hok
      · simp [hd] at hok

theorem lockBalance_depth (evs : List Event) (k j : Nat) (h : lockBalance k evs = some j) :
    ∀ d, lockDepthAfter (d + k) evs = d + j := by
  induction evs generalizing k with
  | nil =>
    intro d
    simp only [lockBalance, Option.some.injEq] at h
    simp [lockDepthAfter, h]
  | cons e rest ih =>
    intro d
    cases e
    case lock =>
      simp only [lockBalance] at h
      simpa [lockDepthAfter, Nat.add_assoc] using ih (k + 1) h d
    case unlock =>
      simp only [lockBalance] at h
      by_cases hk : k = 0
      · simp [hk] at h
      · simp only [hk, if_false] at h
        have := ih (k - 1) h d
        have e1 : d + k - 1 = d + (k - 1) := by omega
        simpa [lockDepthAfter, e1] using this
    all_goals
      simp only [lockBalance] at h
      simpa [lockDepthAfter] using ih k h d

theorem lockDepthAfter_unmatched (evs : List Event) (k : Nat) (h : lockBalance k evs = none) :
    lockDepthAfter (k + 1) evs = lockDepthAfter k evs := by
  induction evs generalizing k with
  | nil => simp [lockBalance] at h
  | cons e rest ih =>
    cases e
    case lock =>
      simp only [lockBalance] at h
      simpa [lockDepthAfter] using ih (k + 1) h
    case unlock =>
      simp only [lockBalance] at h
      by_cases hk : k = 0
      · subst hk
        simp [lockDepthAfter]
      · simp only [hk, if_false] at h
        have := ih (k - 1) h
        have e1 : k - 1 + 1 = k := by omega
        rw [e1] at this
        simpa [lockDepthAfter] using this
    all_goals
      simp only [lockBalance] at h
      simpa [lockDepthAfter] using ih k h

theorem lockBalance_of_depth (evs : List Event) (h : ∀ d, lockDepthAfter d evs = d) :
    lockBalance 0 evs = some 0 := by
  cases hb : lockBalance 0 evs with
  | none =>
    have := lockDepthAfter_unmatched evs 0 hb
    rw [h 1, h 0] at this
    exact absurd this (by decide)
  | some j =>
    have := lockBalance_depth evs 0 j hb 0
    rw [h 0] at this
    simp only [Nat.zero_add] at this
    rw [← this]

theorem lockBalance_of_balancedHeld (p : Event → Bool) (evs : List Event)
    (h : ∀ d, balancedHeld p d evs) : lockBalance 0 evs = some 0 :=
  lockBalance_of_depth evs (fun d => (h d).2)

theorem afterHandler_external (cfg : Configuration) (ord : Nat) :
    afterHandler cfg (Callback.setPowerStateExternal ord) = id := by
  funext m
  rfl

theorem afterHandler_tick (cfg : Configuration) (located : Bool) (st : IOAudioDevicePowerState) :
    afterHandler cfg (Callback.onTimerAction located st) = id := by
  funext m
  rfl

theorem afterHandler_sleep (cfg : Configuration) :
    afterHandler cfg (Callback.setPowerState kPowerStateSleep) = id := by
  funext m
  simp [afterHandler]

theorem afterHandler_wake (cfg : Configuration) (ord : Nat) (h0 : ord ≠ kPowerStateSleep)
    (h1 : ord = kPowerStateDoze ∨ ord = kPowerStateNormal) :
    afterHandler cfg (Callback.setPowerState ord) = armWakeTimer cfg := by
  funext m
  simp [afterHandler, h0, h1]

theorem deliver_eq_handled (cfg : Configuration) (hda : IntelHDA) (c : Callback) (m : Machine) :
    deliver cfg hda c m =
      match handledBy cfg c m with
      | some target =>
        (handleStateChange cfg hda target (handlerEntry cfg c m)).map (afterHandler cfg c)
      | none => some (afterHandler cfg c (handlerEntry cfg c m)) := by
  cases c with
  | setPowerState ord =>
    by_cases h0 : ord = kPowerStateSleep
    · subst h0
      rw [afterHandler_sleep]
      cases hp : m.self.mEAPDPoweredDown <;>
        simp [deliver, setPowerState, handledBy, handlerEntry, hp]
    · by_cases h1 : ord = kPowerStateDoze ∨ ord = kPowerStateNormal
      · rw [afterHandler_wake cfg ord h0 h1]
        simp only [deliver, setPowerState, handledBy, handlerEntry, h0, h1, if_false,
          if_true, bind, pure]
        generalize (if cfg.mPerformReset = true then performCodecReset m else m) = m1
        by_cases hg : ((cfg.mPerformReset || !cfg.mPerformResetOnExternalWake) &&
            m1.self.mEAPDPoweredDown) = true
        · simp only [hg, if_true]
          cases handleStateChange cfg hda IOAudioDevicePowerState.kIOAudioDeviceActive m1 <;> rfl
        · simp only [hg, if_false]
          rfl
      · simp [deliver, setPowerState, handledBy, handlerEntry, afterHandler, h0, h1]
  | setPowerStateExternal ord =>
    rw [afterHandler_external]
    by_cases h0 : ord = kPowerStateSleep
    · cases hp : m.self.mEAPDPoweredDown <;>
        simp [deliver, setPowerStateExternal, handledBy, handlerEntry, h0, hp]
    · by_cases h1 : ord = kPowerStateDoze ∨ ord = kPowerStateNormal
      · simp only [deliver, setPowerStateExternal, handledBy, handlerEntry, h0, h1,
          if_false, if_true]
        generalize (if (m.self.mEAPDPoweredDown && cfg.mPerformResetOnExternalWake) = true then
          performCodecReset m else m) = m1
        cases hg : m1.self.mEAPDPoweredDown <;> simp
      · simp [deliver, setPowerStateExternal, handledBy, handlerEntry, h0, h1]
  | onTimerAction located st =>
    rw [afterHandler_tick]
    rcases m with ⟨⟨cb, pd, pv, nd, ad⟩, t⟩
    cases ad <;> cases located <;> by_cases hst : st = pv <;>
      cases st <;>
      simp_all [deliver, onTimerAction, getAudioDevice, handledBy, handlerEntry,
        Machine.emit, Machine.setHDAPrevPowerState, bind, pure]

theorem handlerEntry_coldBoot (cfg : Configuration) (c : Callback) (m : Machine) :
    (handlerEntry cfg c m).self.mColdBoot = m.self.mColdBoot := by
  cases c with
  | setPowerState ord =>
    simp only [handlerEntry]
    split
    · rfl
    · split
      · split
        · rw [performCodecReset_eq]
        · rfl
      · rfl
  | setPowerStateExternal ord =>
    simp only [handlerEntry]
    split
    · rfl
    · split
      · split
        · rw [performCodecReset_eq]
        · rfl
      · rfl
  | onTimerAction located st =>
    rcases m with ⟨⟨cb, pd, pv, nd, ad⟩, t⟩
    cases ad <;> cases located <;> by_cases hst : st = pv <;>
      simp_all [handlerEntry, getAudioDevice, Machine.emit, Machine.setHDAPrevPowerState]

theorem afterHandler_coldBoot (cfg : Configuration) (c : Callback) (m : Machine) :
    (afterHandler cfg c m).self.mColdBoot = m.self.mColdBoot := by
  cases c with
  | setPowerState ord =>
    simp only [afterHandler]
    split
    · rfl
    · split
      · rw [armWakeTimer_eq]
      · rfl
  | setPowerStateExternal ord => rfl
  | onTimerAction located st => rfl

theorem handleStateChange_coldBoot (cfg : Configuration) (hda : IntelHDA)
    (st : IOAudioDevicePowerState) (m m' : Machine)
    (h : handleStateChange cfg hda st m = some m') :
    m'.self.mColdBoot =
      (if st = IOAudioDevicePowerState.kIOAudioDeviceSleep then false else m.self.mColdBoot) := by
  have := (handleStateChange_spec cfg hda st m m' h).1
  rw [this]
  cases st <;> simp

theorem deliver_coldBoot (cfg : Configuration) (hda : IntelHDA) (c : Callback) (m m' : Machine)
    (h : deliver cfg hda c m = some m') :
    m'.self.mColdBoot =
      (if handledBy cfg c m = some IOAudioDevicePowerState.kIOAudioDeviceSleep then false
        else m.self.mColdBoot) := by
  rw [deliver_eq_handled] at h
  cases hb : handledBy cfg c m with
  | none =>
    simp only [hb, Option.some.injEq] at h
    subst h
    simp [afterHandler_coldBoot, handlerEntry_coldBoot]
  | some target =>
    simp only [hb] at h
    obtain ⟨m2, h2, rfl⟩ := Option.map_eq_some'.1 h
    rw [afterHandler_coldBoot, handleStateChange_coldBoot cfg hda target _ m2 h2,
      handlerEntry_coldBoot]
    cases target <;> simp

theorem run_coldBoot_handled (cfg : Configuration) (hda : IntelHDA) (cs : List Callback)
    (m m' : Machine) (h : run cfg hda cs m = some m') :
    (m'.self.mColdBoot = true ↔
      (m.self.mColdBoot = true ∧
        IOAudioDevicePowerState.kIOAudioDeviceSleep ∉ handledInRun cfg hda cs m)) := by
  induction cs generalizing m with
  | nil =>
    simp only [run, Option.some.injEq] at h
    subst h
    simp [handledInRun]
  | cons c rest ih =>
    simp only [run] at h
    cases h1 : deliver cfg hda c m with
    | none => simp [h1] at h
    | some m1 =>
      simp only [h1, Option.some_bind] at h
      have hstep := deliver_coldBoot cfg hda c m m1 h1
      rw [ih m1 h, hstep]
      simp only [handledInRun, h1, List.mem_append, Option.mem_toList, Option.mem_def]
      by_cases hs : handledBy cfg c m = some IOAudioDevicePowerState.kIOAudioDeviceSleep
      · simp [hs]
      · simp [hs]

end CodecCommander

/-! ## The claims -/

open CodecCommander

/-- C1: when `handleStateChange(target)` returns, `mEAPDPoweredDown` is true
for target Sleep and false for target Idle or Active, for every engine state,
configuration and hardware behaviour (so also after a codec reset made by the
reset-and-retry of the Active branch); and the call does return whenever the
capable-node set has been constructed. -/
theorem C1_handleStateChange_eapdPoweredDown (cfg : Configuration) (hda : IntelHDA)
    (target : IOAudioDevicePowerState) (m : Machine) :
    (∀ m', handleStateChange cfg hda target m = some m' →
      m'.self.mEAPDPoweredDown = decide (target = IOAudioDevicePowerState.kIOAudioDeviceSleep)) ∧
    (m.self.mEAPDCapableNodes.isSome = true →
      ∃ m', handleStateChange cfg hda target m = some m') := by
  constructor
  · intro m' h
    have h1 := (handleStateChange_spec cfg hda target m m' h).1
    rw [h1]
    cases target <;> rfl
  · intro h
    exact Option.isSome_iff_exists.1 (handleStateChange_isSome_of_nodes cfg hda target m h)

/-- C1, at a concrete input: a wake after a sleep on a codec that fails every
EAPD command resets the codec in the retry and still ends with the flag
false. -/
theorem C1_handleStateChange_eapdPoweredDown_witness :
    (Example.asleep [20]).self.mEAPDCapableNodes.isSome = true ∧
    (∀ m' ∈ handleStateChange Example.cfgNodes Example.hdaFailing
        IOAudioDevicePowerState.kIOAudioDeviceActive (Example.asleep [20]),
      Event.resetCodec ∈ m'.trace) ∧
    ∃ m', handleStateChange Example.cfgNodes Example.hdaFailing
        IOAudioDevicePowerState.kIOAudioDeviceActive (Example.asleep [20]) = some m' ∧
      m'.self.mEAPDPoweredDown = false :=
  ⟨by decide, by decide,
    ((C1_handleStateChange_eapdPoweredDown Example.cfgNodes Example.hdaFailing
        IOAudioDevicePowerState.kIOAudioDeviceActive (Example.asleep [20])).2 (by decide)).elim
      fun m' hm' => ⟨m', hm',
        (C1_handleStateChange_eapdPoweredDown Example.cfgNodes Example.hdaFailing
          IOAudioDevicePowerState.kIOAudioDeviceActive (Example.asleep [20])).1 m' hm'⟩⟩

/-- C2: from the attach state (cold boot, EAPD powered down, previous
observation Sleep) the first wake transition sends no custom command verb at
all, hence none of an `onWake` group: for `handleStateChange` with target
Active (or Idle), and when it is reached through `setPowerState`,
`setPowerStateExternal` or a polling tick with a non-Sleep sample, for every
configuration and hardware behaviour; and each of these calls returns once the
capable-node set has been constructed. -/
theorem C2_first_active_sends_no_wake_verb (cfg : Configuration) (hda : IntelHDA) (m : Machine)
    (hat : attachState m) :
    (∀ target m', target ≠ IOAudioDevicePowerState.kIOAudioDeviceSleep →
      handleStateChange cfg hda target m = some m' →
      ∃ evs, m'.trace = m.trace ++ evs ∧ ∀ c, Event.sendVerb c ∉ evs) ∧
    (∀ ord m', ord = kPowerStateNormal ∨ ord = kPowerStateDoze →
      setPowerState cfg hda ord m = some m' →
      ∃ evs, m'.trace = m.trace ++ evs ∧ ∀ c, Event.sendVerb c ∉ evs) ∧
    (∀ ord m', ord = kPowerStateNormal ∨ ord = kPowerStateDoze →
      setPowerStateExternal cfg hda ord m = some m' →
      ∃ evs, m'.trace = m.trace ++ evs ∧ ∀ c, Event.sendVerb c ∉ evs) ∧
    (∀ located sample m', sample ≠ IOAudioDevicePowerState.kIOAudioDeviceSleep →
      onTimerAction cfg hda located sample m = some m' →
      ∃ evs, m'.trace = m.trace ++ evs ∧ ∀ c, Event.sendVerb c ∉ evs) ∧
    (m.self.mEAPDCapableNodes.isSome = true →
      (∀ target, (handleStateChange cfg hda target m).isSome = true) ∧
      (∀ ord, (setPowerState cfg hda ord m).isSome = true) ∧
      (∀ ord, (setPowerStateExternal cfg hda ord m).isSome = true) ∧
      (∀ located sample, (onTimerAction cfg hda located sample m).isSome = true)) := by
  obtain ⟨hcb, hpd, hprev⟩ := hat
  refine ⟨?_, ?_, ?_, ?_, ?_⟩
  · intro target m' ht h
    obtain ⟨_, evs, htr, _, _, _, hv⟩ := handleStateChange_spec cfg hda target m m' h
    exact ⟨evs, htr, not_mem_sendVerb_of_isVerb evs (hv ht hcb)⟩
  · intro ord m' hord h
    obtain ⟨_, evs, htr, _, hv⟩ := setPowerState_wake_spec cfg hda ord hord m m' h
    refine ⟨_, by rw [htr, List.append_assoc], ?_⟩
    intro c hc
    rcases List.mem_append.1 hc with h1 | h1
    · exact not_mem_sendVerb_of_isVerb evs (hv hcb) c h1
    · split at h1 <;> simp at h1
  · intro ord m' hord h
    obtain ⟨_, _, evs, htr, _, hv, _⟩ := setPowerStateExternal_wake_spec cfg hda ord hord m m' h
    exact ⟨evs, htr, not_mem_sendVerb_of_isVerb evs (hv hcb)⟩
  · intro located sample m' hs h
    rw [onTimerAction_eq] at h
    split at h
    · simp only [Option.some.injEq] at h
      subst h
      exact ⟨_, rfl, by simp⟩
    · obtain ⟨_, evs, htr, _, _, _, hv⟩ := handleStateChange_spec cfg hda _ _ m' h
      refine ⟨Event.setTimeoutMS cfg.mCheckInterval :: evs, by simp [htr], ?_⟩
      intro c hc
      rcases List.mem_cons.1 hc with h1 | h1
      · simp at h1
      · exact not_mem_sendVerb_of_isVerb evs (hv (by simp [hs]) hcb) c h1
  · intro hn
    exact ⟨fun target => handleStateChange_isSome_of_nodes cfg hda target m hn,
      fun ord => setPowerState_isSome cfg hda ord m hn,
      fun ord => setPowerStateExternal_isSome cfg hda ord m hn,
      fun located sample => onTimerAction_isSome cfg hda located sample m hn⟩

/-- C2, at a concrete input: the first wake of an attached engine whose profile
has a matching `onWake` group returns and sends no verb. -/
theorem C2_first_active_sends_no_wake_verb_witness :
    attachState (Example.attached [20]) ∧
    (setPowerState Example.cfgNodes Example.hdaWorking kPowerStateNormal
      (Example.attached [20])).isSome = true ∧
    ∀ m', setPowerState Example.cfgNodes Example.hdaWorking kPowerStateNormal
        (Example.attached [20]) = some m' →
      ∃ evs, m'.trace = (Example.attached [20]).trace ++ evs ∧ ∀ c, Event.sendVerb c ∉ evs :=
  ⟨by decide, by decide, fun m' h =>
    (C2_first_active_sends_no_wake_verb Example.cfgNodes Example.hdaWorking
      (Example.attached [20]) (by decide)).2.1 kPowerStateNormal m' (Or.inl rfl) h⟩

/-- C3 fails as stated: from the attach state, with a profile holding an
`onWake` group that matches the live layout id 3, the second of two Active
transitions in a row sends no verb of that group. -/
theorem C3_second_active_counterexample :
    attachState (Example.attached [20]) ∧
    Example.wakeGroup ∈ Example.cfgNodes.mCustomCommands ∧
    Example.wakeGroup.OnWake = true ∧
    layoutTest Example.wakeGroup.layoutID 3 = true ∧
    ∃ m1 m2,
      handleStateChange Example.cfgNodes Example.hdaWorking
        IOAudioDevicePowerState.kIOAudioDeviceActive (Example.attached [20]) = some m1 ∧
      handleStateChange Example.cfgNodes Example.hdaWorking
        IOAudioDevicePowerState.kIOAudioDeviceActive m1 = some m2 ∧
      toUInt32 (Example.hdaWorking.respond m1.trace Event.getLayoutID) = 3 ∧
      m2.trace = m1.trace ++
        [Event.applyIntelTCSEL, Event.ioSleep 300, Event.lock,
          Event.sendCommand 20 HdaVerb.HDA_VERB_EAPDBTL_SET 2, Event.unlock,
          Event.storeEAPDPoweredDown false] := by
  refine ⟨by decide, by decide, by decide, by decide, _, _, rfl, rfl, ?_, ?_⟩
  · decide
  · decide

/-- C3, amended: from the attach state the `onWake` groups run in a second
Active transition only once a Sleep transition has been handled in between.
Two Active transitions in a row: the second sends no verb.  Active, Sleep,
Active: the last transition sends, after the live layout-id query and in list
order, exactly the verbs of the selected groups, among them every verb of every
group with `OnWake` set whose layout filter matches; and that sequence of three
transitions returns once the capable-node set has been constructed. -/
theorem C3_wake_after_sleep_runs_wake_groups (cfg : Configuration) (hda : IntelHDA) (m : Machine)
    (hat : attachState m) :
    (∀ m1 m2,
      handleStateChange cfg hda IOAudioDevicePowerState.kIOAudioDeviceActive m = some m1 →
      handleStateChange cfg hda IOAudioDevicePowerState.kIOAudioDeviceActive m1 = some m2 →
      ∃ evs, m2.trace = m1.trace ++ evs ∧ ∀ c, Event.sendVerb c ∉ evs) ∧
    (∀ m1 m2 m3,
      handleStateChange cfg hda IOAudioDevicePowerState.kIOAudioDeviceActive m = some m1 →
      handleStateChange cfg hda IOAudioDevicePowerState.kIOAudioDeviceSleep m1 = some m2 →
      handleStateChange cfg hda IOAudioDevicePowerState.kIOAudioDeviceActive m2 = some m3 →
      ∃ pre, (∀ c, Event.sendVerb c ∉ pre) ∧
        m3.trace = m2.trace ++ pre ++ (Event.getLayoutID :: Event.lock ::
          ((selectedVerbs CodecCommanderState.kStateWake
              (toUInt32 (hda.respond (m2.trace ++ pre) Event.getLayoutID))
              cfg.mCustomCommands).map Event.sendVerb ++
            [Event.unlock, Event.storeEAPDPoweredDown false])) ∧
        ∀ cc ∈ cfg.mCustomCommands, cc.OnWake = true →
          layoutTest cc.layoutID (toUInt32 (hda.respond (m2.trace ++ pre) Event.getLayoutID)) = true →
          ∀ c ∈ cc.Commands,
            c ∈ selectedVerbs CodecCommanderState.kStateWake
              (toUInt32 (hda.respond (m2.trace ++ pre) Event.getLayoutID)) cfg.mCustomCommands) ∧
    (m.self.mEAPDCapableNodes.isSome = true →
      ∃ m1 m2 m3,
        handleStateChange cfg hda IOAudioDevicePowerState.kIOAudioDeviceActive m = some m1 ∧
        handleStateChange cfg hda IOAudioDevicePowerState.kIOAudioDeviceSleep m1 = some m2 ∧
        handleStateChange cfg hda IOAudioDevicePowerState.kIOAudioDeviceActive m2 = some m3) := by
  obtain ⟨hcb, _, _⟩ := hat
  refine ⟨?_, ?_, ?_⟩
  · intro m1 m2 h1 h2
    have hcb1 : m1.self.mColdBoot = true := by
      rw [(handleStateChange_spec cfg hda _ m m1 h1).1]
      simp [hcb]
    obtain ⟨_, evs, htr, _, _, _, hv⟩ := handleStateChange_spec cfg hda _ m1 m2 h2
    exact ⟨evs, htr, not_mem_sendVerb_of_isVerb evs (hv (by simp) hcb1)⟩
  · intro m1 m2 m3 _ h2 h3
    have hcb2 : m2.self.mColdBoot = false := by
      rw [(handleStateChange_spec cfg hda _ m1 m2 h2).1]
      simp
    obtain ⟨pre, hpre, htr⟩ := handleStateChange_wake_warm cfg hda _ (by simp) m2 m3 hcb2 h3
    refine ⟨pre, hpre, htr, ?_⟩
    intro cc hcc hw hl c hc
    exact mem_selectedVerbs _ _ _ cc hcc (by simp [triggerTest, hw]) hl c hc
  · intro hn
    obtain ⟨m1, h1⟩ := Option.isSome_iff_exists.1
      (handleStateChange_isSome_of_nodes cfg hda
        IOAudioDevicePowerState.kIOAudioDeviceActive m hn)
    have hn1 : m1.self.mEAPDCapableNodes.isSome = true := by
      rw [handleStateChange_nodes cfg hda _ m m1 h1]; exact hn
    obtain ⟨m2, h2⟩ := Option.isSome_iff_exists.1
      (handleStateChange_isSome_of_nodes cfg hda
        IOAudioDevicePowerState.kIOAudioDeviceSleep m1 hn1)
    have hn2 : m2.self.mEAPDCapableNodes.isSome = true := by
      rw [handleStateChange_nodes cfg hda _ m1 m2 h2]; exact hn1
    obtain ⟨m3, h3⟩ := Option.isSome_iff_exists.1
      (handleStateChange_isSome_of_nodes cfg hda
        IOAudioDevicePowerState.kIOAudioDeviceActive m2 hn2)
    exact ⟨m1, m2, m3, h1, h2, h3⟩

/-- C3 amended, at a concrete input: attach, Active, Sleep, Active on a working
codec with layout id 3 returns, and the profile has an `onWake` group for that
layout. -/
theorem C3_wake_after_sleep_runs_wake_groups_witness :
    attachState (Example.attached [20]) ∧
    Example.wakeGroup ∈ Example.cfgNodes.mCustomCommands ∧
    ∃ m1 m2 m3,
      handleStateChange Example.cfgNodes Example.hdaWorking
        IOAudioDevicePowerState.kIOAudioDeviceActive (Example.attached [20]) = some m1 ∧
      handleStateChange Example.cfgNodes Example.hdaWorking
        IOAudioDevicePowerState.kIOAudioDeviceSleep m1 = some m2 ∧
      handleStateChange Example.cfgNodes Example.hdaWorking
        IOAudioDevicePowerState.kIOAudioDeviceActive m2 = some m3 :=
  ⟨by decide, by decide,
    (C3_wake_after_sleep_runs_wake_groups Example.cfgNodes Example.hdaWorking
      (Example.attached [20]) (by decide)).2.2 (by decide)⟩

/-- C4 fails as stated, in two ways.  With one capable node that fails every
EAPD command and `performResetOnEAPDFail` set, the first Active transition after
attach sends the node its EAPD command twice but issues no codec reset, as
`performCodecReset` does nothing during cold boot.  With an empty node set no
attempt fails, so a Sleep transition issues no reset either. -/
theorem C4_reset_and_retry_counterexample :
    (Example.cfgNodes.mUpdateNodes = true ∧ Example.cfgNodes.mSleepNodes = true ∧
      Example.cfgNodes.mPerformResetOnEAPDFail = true) ∧
    (eapdPassAllFail Example.hdaFailing 2 [20]
        ((Example.attached [20]).trace ++
          [Event.applyIntelTCSEL, Event.ioSleep Example.cfgNodes.mSendDelay, Event.lock]) = true ∧
      ∃ m', handleStateChange Example.cfgNodes Example.hdaFailing
          IOAudioDevicePowerState.kIOAudioDeviceActive (Example.attached [20]) = some m' ∧
        m'.trace.filter Event.isEAPDOrReset =
          [Event.sendCommand 20 HdaVerb.HDA_VERB_EAPDBTL_SET 2,
            Event.sendCommand 20 HdaVerb.HDA_VERB_EAPDBTL_SET 2]) ∧
    (eapdPassAllFail Example.hdaFailing 0 []
        ((Example.awake []).trace ++
          [Event.storeColdBoot false, Event.ioSleep Example.cfgNodes.mSendDelay, Event.lock]) = true ∧
      ∃ m', handleStateChange Example.cfgNodes Example.hdaFailing
          IOAudioDevicePowerState.kIOAudioDeviceSleep (Example.awake []) = some m' ∧
        m'.trace.filter Event.isEAPDOrReset = []) := by
  refine ⟨by decide, ⟨by decide, _, rfl, by decide⟩, ⟨by decide, _, rfl, by decide⟩⟩

/-- C4, amended: let the capable-node set hold N ≥ 1 nodes, let
`performResetOnEAPDFail` be set and let every EAPD command of the first attempt
be answered with the failure sentinel.  Then a Sleep transition with
`sleepNodes` returns and its EAPD commands and codec resets are, in order: the
N clear commands, one reset, the N clear commands again.  An Active (or Idle)
transition with `updateNodes` returns and its EAPD commands and resets are: the
N set commands, one reset when `coldBoot` is false and none while `coldBoot` is
true, the N set commands again. -/
theorem C4_reset_and_retry_once (cfg : Configuration) (hda : IntelHDA) (m : Machine)
    (nodes : List Nat) (hn : m.self.mEAPDCapableNodes = some nodes) (hne : nodes ≠ [])
    (hr : cfg.mPerformResetOnEAPDFail = true) :
    (cfg.mSleepNodes = true →
      eapdPassAllFail hda 0 nodes
        (m.trace ++ [Event.storeColdBoot false, Event.ioSleep cfg.mSendDelay, Event.lock]) = true →
      ∃ m', handleStateChange cfg hda IOAudioDevicePowerState.kIOAudioDeviceSleep m = some m' ∧
        ∃ evs, m'.trace = m.trace ++ evs ∧
          evs.filter Event.isEAPDOrReset =
            eapdEvents 0 nodes ++ Event.resetCodec :: eapdEvents 0 nodes) ∧
    (∀ target, target ≠ IOAudioDevicePowerState.kIOAudioDeviceSleep →
      cfg.mUpdateNodes = true →
      eapdPassAllFail hda 2 nodes
        (m.trace ++ [Event.applyIntelTCSEL, Event.ioSleep cfg.mSendDelay, Event.lock]) = true →
      ∃ m', handleStateChange cfg hda target m = some m' ∧
        ∃ evs, m'.trace = m.trace ++ evs ∧
          evs.filter Event.isEAPDOrReset =
            eapdEvents 2 nodes ++ (if m.self.mColdBoot then [] else [Event.resetCodec]) ++
              eapdEvents 2 nodes) := by
  rcases m with ⟨⟨cb, pd, pv, nd, ad⟩, t⟩
  simp only at hn
  subst hn
  constructor
  · intro hs hf
    have hret : eapdRetries cfg hda 0 nodes
        ⟨⟨false, pd, pv, some nodes, ad⟩, t ++ [Event.storeColdBoot false]⟩ = true :=
      eapdRetries_of_allFail cfg hda 0 nodes _ hne hr (by simpa using hf)
    rw [handleStateChange_sleep, eapdStep_eq]
    simp only [hs, if_true, Machine.setColdBoot, hret, Option.map_some', customCommands_eq,
      Machine.setEAPDPoweredDown]
    refine ⟨_, rfl, ?evs, ?h1, ?h2⟩
    case h1 =>
      simp only [List.append_assoc]
      exact rfl
    case h2 =>
      simp [List.filter_append, List.filter_cons, Event.isEAPDOrReset,
        filter_isEAPDOrReset_eapdPass, filter_isEAPDOrReset_resetEvents,
        filter_isEAPDOrReset_sendVerb]
  · intro target ht hu hf
    have hret : eapdRetries cfg hda 2 nodes
        ⟨⟨cb, pd, pv, some nodes, ad⟩, t ++ [Event.applyIntelTCSEL]⟩ = true :=
      eapdRetries_of_allFail cfg hda 2 nodes _ hne hr (by simpa using hf)
    rw [handleStateChange_wake cfg hda target ht, eapdStep_eq]
    cases cb
    · simp only [hu, if_true, Machine.emit, hret, Option.map_some', customCommands_eq,
        Machine.setEAPDPoweredDown, Bool.not_false]
      refine ⟨_, rfl, ?evsWarm, ?h1Warm, ?h2Warm⟩
      case h1Warm =>
        simp only [List.append_assoc]
        exact rfl
      case h2Warm =>
        simp [List.filter_append, List.filter_cons, Event.isEAPDOrReset,
          filter_isEAPDOrReset_eapdPass, filter_isEAPDOrReset_resetEvents,
          filter_isEAPDOrReset_sendVerb]
    · simp only [hu, if_true, Machine.emit, hret, Option.map_some', customCommands_eq,
        Machine.setEAPDPoweredDown, Bool.not_true, Bool.false_eq_true, if_false]
      refine ⟨_, rfl, ?evsCold, ?h1Cold, ?h2Cold⟩
      case h1Cold =>
        simp only [List.append_assoc]
        exact rfl
      case h2Cold =>
        simp [List.filter_append, List.filter_cons, Event.isEAPDOrReset,
          filter_isEAPDOrReset_eapdPass, filter_isEAPDOrReset_resetEvents,
          filter_isEAPDOrReset_sendVerb]

/-- C4 amended, at a concrete input: two capable nodes that fail every EAPD
command, a wake after a sleep. -/
theorem C4_reset_and_retry_once_witness :
    (Example.asleep [20, 21]).self.mEAPDCapableNodes = some [20, 21] ∧
    Example.cfgNodes.mPerformResetOnEAPDFail = true ∧
    Example.cfgNodes.mUpdateNodes = true ∧
    eapdPassAllFail Example.hdaFailing 2 [20, 21]
      ((Example.asleep [20, 21]).trace ++
        [Event.applyIntelTCSEL, Event.ioSleep Example.cfgNodes.mSendDelay, Event.lock]) = true ∧
    ∃ m', handleStateChange Example.cfgNodes Example.hdaFailing
        IOAudioDevicePowerState.kIOAudioDeviceActive (Example.asleep [20, 21]) = some m' ∧
      ∃ evs, m'.trace = (Example.asleep [20, 21]).trace ++ evs ∧
        evs.filter Event.isEAPDOrReset =
          eapdEvents 2 [20, 21] ++
            (if (Example.asleep [20, 21]).self.mColdBoot then [] else [Event.resetCodec]) ++
            eapdEvents 2 [20, 21] :=
  ⟨rfl, rfl, rfl, by decide,
    (C4_reset_and_retry_once Example.cfgNodes Example.hdaFailing (Example.asleep [20, 21])
      [20, 21] rfl (by decide) rfl).2 IOAudioDevicePowerState.kIOAudioDeviceActive (by decide) rfl
      (by decide)⟩

/-- C5: `customCommands(trigger)` selects a group only if the flag of that
same trigger is set, for all flag combinations: its trigger test equals that
flag, and every verb it sends belongs to a group with that flag set and a
matching layout filter.  Hence the groups whose only flag is `OnSleep` have no
effect on an Active or Idle transition, and the groups whose only flag is
`OnWake` have no effect on a Sleep transition: the transition runs exactly as
with a profile that does not hold them. -/
theorem C5_trigger_flags_select_groups (cfg : Configuration) (hda : IntelHDA) (m : Machine) :
    (∀ cc trigger, triggerTest cc trigger = flagOf cc trigger) ∧
    (∀ trigger, ∃ evs, (customCommands cfg hda trigger m).trace = m.trace ++ evs ∧
      ∀ c, Event.sendVerb c ∈ evs →
        ∃ cc ∈ cfg.mCustomCommands, flagOf cc trigger = true ∧ c ∈ cc.Commands) ∧
    (∀ target, target ≠ IOAudioDevicePowerState.kIOAudioDeviceSleep →
      handleStateChange (cfg.dropGroups CustomCommand.onlyOnSleep) hda target m =
        handleStateChange cfg hda target m) ∧
    (handleStateChange (cfg.dropGroups CustomCommand.onlyOnWake) hda
        IOAudioDevicePowerState.kIOAudioDeviceSleep m =
      handleStateChange cfg hda IOAudioDevicePowerState.kIOAudioDeviceSleep m) := by
  refine ⟨triggerTest_eq_flagOf, ?_, ?_, ?_⟩
  · intro trigger
    rw [customCommands_eq]
    refine ⟨_, rfl, ?_⟩
    intro c hc
    simp only [List.mem_cons, List.mem_append, List.mem_map, List.mem_singleton,
      false_or, or_false, Event.sendVerb.injEq, exists_eq_right, reduceCtorEq] at hc
    rcases hc with hc | hc
    · obtain ⟨cc, h1, h2, _, h4⟩ := (mem_selectedVerbs_iff _ _ _ c).1 hc
      exact ⟨cc, h1, h2, h4⟩
    · simp at hc
  · intro target ht
    rw [handleStateChange_wake _ hda target ht, handleStateChange_wake cfg hda target ht,
      eapdStep_dropGroups]
    have hcc : ∀ m2, customCommands (cfg.dropGroups CustomCommand.onlyOnSleep) hda
        CodecCommanderState.kStateWake m2 =
        customCommands cfg hda CodecCommanderState.kStateWake m2 := by
      intro m2
      apply customCommands_dropGroups
      intro cc hcc
      rcases cc with ⟨i, sl, w, lid, cs⟩
      cases i <;> cases sl <;> cases w <;> simp_all [CustomCommand.onlyOnSleep, triggerTest]
    simp only [hcc]
    rfl
  · rw [handleStateChange_sleep, handleStateChange_sleep, eapdStep_dropGroups]
    have hcc : ∀ m2, customCommands (cfg.dropGroups CustomCommand.onlyOnWake) hda
        CodecCommanderState.kStateSleep m2 =
        customCommands cfg hda CodecCommanderState.kStateSleep m2 := by
      intro m2
      apply customCommands_dropGroups
      intro cc hcc
      rcases cc with ⟨i, sl, w, lid, cs⟩
      cases i <;> cases sl <;> cases w <;> simp_all [CustomCommand.onlyOnWake, triggerTest]
    simp only [hcc]
    rfl

/-- C5, at a concrete input: the profile holds a group that fires on sleep
only, and a wake after a sleep runs as if the group were not there. -/
theorem C5_trigger_flags_select_groups_witness :
    Example.sleepGroup ∈ Example.cfgNodes.mCustomCommands ∧
    Example.sleepGroup.onlyOnSleep = true ∧
    handleStateChange (Example.cfgNodes.dropGroups CustomCommand.onlyOnSleep) Example.hdaWorking
        IOAudioDevicePowerState.kIOAudioDeviceActive (Example.asleep [20]) =
      handleStateChange Example.cfgNodes Example.hdaWorking
        IOAudioDevicePowerState.kIOAudioDeviceActive (Example.asleep [20]) :=
  ⟨by decide, by decide,
    (C5_trigger_flags_select_groups Example.cfgNodes Example.hdaWorking
      (Example.asleep [20])).2.2.1 IOAudioDevicePowerState.kIOAudioDeviceActive (by decide)⟩

/-- C6: the layout test of `customCommands` and of the probe-time initializer
accepts a filter `f` for a live layout id `l` iff `f` is the wildcard
`0xFFFFFFFF` (what the 32-bit value -1 is stored as) or `f = l`, for all values
of `f` and `l`: a group of the engine runs iff its trigger flag is set and that
holds, and a group of the probe-time initializer runs iff that holds. -/
theorem C6_layout_filter (f l : Nat) :
    (layoutTest f l = true ↔ (f = UINT32_MINUS_ONE ∨ f = l)) ∧
    Int.toNat ((-1 : Int) % 4294967296) = UINT32_MINUS_ONE ∧
    (∀ (hda : IntelHDA) (trigger : CodecCommanderState) (cc : CustomCommand) (m : Machine),
      customCommandsOuter hda trigger l [cc] m =
        if flagOf cc trigger = true ∧ (cc.layoutID = UINT32_MINUS_ONE ∨ cc.layoutID = l) then
          customCommandsInner hda cc.Commands m
        else m) ∧
    (∀ (hda : IntelHDA) (cc : CustomCommand) (m : Machine),
      CodecCommanderProbeInit.probeCommandsOuter hda l [cc] m =
        if cc.layoutID = UINT32_MINUS_ONE ∨ cc.layoutID = l then
          CodecCommanderProbeInit.probeCommandsInner hda cc.Commands m
        else m) := by
  have key : ∀ f l : Nat, layoutTest f l = true ↔ (f = UINT32_MINUS_ONE ∨ f = l) := by
    intro f l
    simp only [layoutTest, Bool.or_eq_true, beq_iff_eq]
    constructor
    · rintro (h | h)
      · exact Or.inl h.symm
      · exact Or.inr h.symm
    · rintro (h | h)
      · exact Or.inl h.symm
      · exact Or.inr h.symm
  refine ⟨key f l, by decide, ?_, ?_⟩
  · intro hda trigger cc m
    by_cases h1 : flagOf cc trigger = true
    · by_cases h2 : layoutTest cc.layoutID l = true
      · have h3 := (key _ _).1 h2
        simp [customCommandsOuter, triggerTest_eq_flagOf, h1, h2, h3]
      · have h3 : ¬ (cc.layoutID = UINT32_MINUS_ONE ∨ cc.layoutID = l) := fun h => h2 ((key _ _).2 h)
        simp [customCommandsOuter, triggerTest_eq_flagOf, h1, h2, h3]
    · simp [customCommandsOuter, triggerTest_eq_flagOf, h1]
  · intro hda cc m
    by_cases h2 : layoutTest cc.layoutID l = true
    · have h3 := (key _ _).1 h2
      simp [CodecCommanderProbeInit.probeCommandsOuter, h2, h3]
    · have h3 : ¬ (cc.layoutID = UINT32_MINUS_ONE ∨ cc.layoutID = l) := fun h => h2 ((key _ _).2 h)
      simp [CodecCommanderProbeInit.probeCommandsOuter, h2, h3]

/-- C7 fails as stated: with "Perform Reset" off and "Perform Reset on External
Wake" on, `setPowerState(Normal)` on the attached engine leaves
`mEAPDPoweredDown` true and does not run the transition handler: nothing at all
happens, while the handler would have changed the state. -/
theorem C7_setPowerState_wake_counterexample :
    Example.cfgExternal.mPerformReset = false ∧
    (Example.attached [20]).self.mEAPDPoweredDown = true ∧
    setPowerState Example.cfgExternal Example.hdaWorking kPowerStateNormal
      (Example.attached [20]) = some (Example.attached [20]) ∧
    handleStateChange Example.cfgExternal Example.hdaWorking
      IOAudioDevicePowerState.kIOAudioDeviceActive (Example.attached [20]) ≠
        some (Example.attached [20]) ∧
    setPowerState Example.cfgExternal Example.hdaWorking kPowerStateNormal
      (Example.attached [20]) ≠
        claimedSetPowerStateWake Example.cfgExternal Example.hdaWorking (Example.attached [20]) := by
  refine ⟨rfl, rfl, by decide, by decide, by decide⟩

/-- C7, amended: on `setPowerState` with ordinal Normal or Doze a codec reset is
attempted first iff `performReset` is set, and then the transition handler is
invoked with Active iff `mEAPDPoweredDown` is true at that point and, in
addition, `performReset` is set or `performResetOnExternalWake` is not set;
the timer arm follows.  In the trace: the events of the reset come first when
`performReset` is set, what follows does not start with a reset, and it holds
the timing-compensation call of the handler iff the guard holds.  The call
returns once the capable-node set has been constructed. -/
theorem C7_setPowerState_wake (cfg : Configuration) (hda : IntelHDA) (ord : Nat) (m : Machine)
    (hord : ord = kPowerStateNormal ∨ ord = kPowerStateDoze) :
    setPowerState cfg hda ord m =
      (if ((cfg.mPerformReset || !cfg.mPerformResetOnExternalWake) &&
            (if cfg.mPerformReset then performCodecReset m else m).self.mEAPDPoweredDown) = true then
          handleStateChange cfg hda IOAudioDevicePowerState.kIOAudioDeviceActive
            (if cfg.mPerformReset then performCodecReset m else m)
        else some (if cfg.mPerformReset then performCodecReset m else m)).map
        (armWakeTimer cfg) ∧
    (∀ m', setPowerState cfg hda ord m = some m' →
      ∃ evs, m'.trace = m.trace ++
          (if cfg.mPerformReset then resetEvents m.self.mColdBoot else []) ++ evs ∧
        evs.head? ≠ some Event.lock ∧
        (Event.applyIntelTCSEL ∈ evs ↔
          ((cfg.mPerformReset || !cfg.mPerformResetOnExternalWake) &&
            (if cfg.mPerformReset then performCodecReset m else m).self.mEAPDPoweredDown) = true)) ∧
    (m.self.mEAPDCapableNodes.isSome = true → (setPowerState cfg hda ord m).isSome = true) := by
  refine ⟨setPowerState_wake_eq cfg hda ord hord m, ?_, setPowerState_isSome cfg hda ord m⟩
  intro m' h
  rw [setPowerState_wake_eq cfg hda ord hord] at h
  have hm1 : ∀ m1 : Machine, m1 = (if cfg.mPerformReset = true then performCodecReset m else m) →
      m1.trace = m.trace ++ (if cfg.mPerformReset then resetEvents m.self.mColdBoot else []) := by
    intro m1 hm1
    cases hp : cfg.mPerformReset
    · simp only [hp, if_false, Bool.false_eq_true] at hm1
      subst hm1
      simp
    · simp only [hp, if_true] at hm1
      subst hm1
      rw [performCodecReset_eq]
      simp
  revert h
  generalize (if cfg.mPerformReset = true then performCodecReset m else m) = m1 at hm1 ⊢
  have ht1 := hm1 m1 rfl
  intro h
  have htimer : ∀ x : Machine, (armWakeTimer cfg x).trace = x.trace ++
      (if cfg.mCheckInfinite then
        [Event.setTimeoutMS (if x.self.mColdBoot then 20000 else 100)] else []) := by
    intro x
    rw [armWakeTimer_eq]
  by_cases hg : ((cfg.mPerformReset || !cfg.mPerformResetOnExternalWake) &&
      m1.self.mEAPDPoweredDown) = true
  · simp only [hg, if_true] at h
    cases h2 : handleStateChange cfg hda IOAudioDevicePowerState.kIOAudioDeviceActive m1 with
    | none => simp [h2] at h
    | some m2 =>
      simp only [h2, Option.map_some', Option.some.injEq] at h
      obtain ⟨_, evs, ht, _, hhead, _, _⟩ := handleStateChange_spec cfg hda _ m1 m2 h2
      have hh := hhead (by simp)
      subst h
      refine ⟨evs ++ (if cfg.mCheckInfinite then
        [Event.setTimeoutMS (if m2.self.mColdBoot then 20000 else 100)] else []), ?_, ?_, ?_⟩
      · rw [htimer, ht, ht1]
        simp only [List.append_assoc]
      · cases evs with
        | nil => simp at hh
        | cons a l =>
          simp only [List.head?_cons, Option.some.injEq] at hh
          simp [hh]
      · simp only [hg, iff_true]
        apply List.mem_append_left
        cases evs with
        | nil => simp at hh
        | cons a l =>
          simp only [List.head?_cons, Option.some.injEq] at hh
          simp [hh]
  · simp only [hg, if_false, Bool.false_eq_true, Option.map_some', Option.some.injEq] at h
    subst h
    refine ⟨(if cfg.mCheckInfinite then
        [Event.setTimeoutMS (if m1.self.mColdBoot then 20000 else 100)] else []), ?_, ?_, ?_⟩
    · rw [htimer, ht1]
    · split <;> simp
    · simp only [hg, Bool.false_eq_true, iff_false]
      split <;> simp

/-- C7 amended, at a concrete input: a direct wake callback after a sleep, with
the default reset flags, runs the handler. -/
theorem C7_setPowerState_wake_witness :
    (Example.asleep [20]).self.mEAPDCapableNodes.isSome = true ∧
    (setPowerState Example.cfgNodes Example.hdaWorking kPowerStateNormal
      (Example.asleep [20])).isSome = true :=
  ⟨rfl, (C7_setPowerState_wake Example.cfgNodes Example.hdaWorking kPowerStateNormal
    (Example.asleep [20]) (Or.inl rfl)).2.2 rfl⟩

/-- C8: on `setPowerStateExternal` with ordinal Normal or Doze (also when it is
reached through the power hook): if `mEAPDPoweredDown` is false on entry nothing
happens, the machine and its trace are unchanged; if it is true on entry a codec
reset is attempted iff `performResetOnExternalWake` is set and then
`handleStateChange(Active)` runs.  In the trace: the timing-compensation call of
the handler appears iff the flag was true on entry, and a reset comes first iff
the flag was true, `performResetOnExternalWake` is set and the engine is out of
cold boot.  Whenever the call returns `mEAPDPoweredDown` is false, and it
returns once the capable-node set has been constructed. -/
theorem C8_setPowerStateExternal_wake (cfg : Configuration) (hda : IntelHDA) (ord : Nat)
    (m : Machine) (hord : ord = kPowerStateNormal ∨ ord = kPowerStateDoze) :
    (m.self.mEAPDPoweredDown = false → setPowerStateExternal cfg hda ord m = some m) ∧
    (m.self.mEAPDPoweredDown = true →
      setPowerStateExternal cfg hda ord m =
        handleStateChange cfg hda IOAudioDevicePowerState.kIOAudioDeviceActive
          (if cfg.mPerformResetOnExternalWake then performCodecReset m else m)) ∧
    (∀ m', setPowerStateExternal cfg hda ord m = some m' →
      m'.self.mEAPDPoweredDown = false ∧
      ∃ evs, m'.trace = m.trace ++ evs ∧
        (Event.applyIntelTCSEL ∈ evs ↔ m.self.mEAPDPoweredDown = true) ∧
        (evs.head? = some Event.lock ↔
          (m.self.mEAPDPoweredDown = true ∧ cfg.mPerformResetOnExternalWake = true ∧
            m.self.mColdBoot = false))) ∧
    CodecCommanderPowerHook.setPowerState cfg hda true ord m =
      setPowerStateExternal cfg hda ord m ∧
    (m.self.mEAPDCapableNodes.isSome = true →
      (setPowerStateExternal cfg hda ord m).isSome = true) := by
  have heq := setPowerStateExternal_wake_eq cfg hda ord hord m
  refine ⟨?_, ?_, ?_, by simp [CodecCommanderPowerHook.setPowerState],
    setPowerStateExternal_isSome cfg hda ord m⟩
  · intro hp
    rw [heq]
    simp [hp]
  · intro hp
    rw [heq]
    simp [hp]
  · intro m' h
    obtain ⟨_, hpd, evs, htr, _, _, htc⟩ := setPowerStateExternal_wake_spec cfg hda ord hord m m' h
    refine ⟨hpd, evs, htr, htc, ?_⟩
    rw [heq] at h
    cases hp : m.self.mEAPDPoweredDown
    · simp only [hp, Bool.false_eq_true, if_false, Option.some.injEq] at h
      subst h
      have : evs = [] := by simpa using htr
      subst this
      simp
    · simp only [hp, if_true] at h
      cases hq : cfg.mPerformResetOnExternalWake
      · simp only [hq, Bool.false_eq_true, if_false] at h
        obtain ⟨_, evs2, htr2, _, hhead, _, _⟩ := handleStateChange_spec cfg hda _ m m' h
        have : evs = evs2 := by
          rw [htr] at htr2
          exact List.append_cancel_left htr2
        subst this
        rw [hhead (by simp)]
        simp
      · simp only [hq, if_true] at h
        obtain ⟨_, evs2, htr2, _, hhead, _, _⟩ := handleStateChange_spec cfg hda _ _ m' h
        rw [performCodecReset_eq] at htr2
        have : evs = resetEvents m.self.mColdBoot ++ evs2 := by
          rw [htr] at htr2
          simp only [List.append_assoc] at htr2
          exact List.append_cancel_left htr2
        subst this
        have hh := hhead (by simp)
        cases hc : m.self.mColdBoot
        · simp [resetEvents]
        · simp [resetEvents, hh]

/-- C8, at a concrete input: an external wake callback after a sleep returns
and clears the flag; one on an engine that is awake changes nothing. -/
theorem C8_setPowerStateExternal_wake_witness :
    (Example.awake [20]).self.mEAPDPoweredDown = false ∧
    setPowerStateExternal Example.cfgExternal Example.hdaWorking kPowerStateNormal
      (Example.awake [20]) = some (Example.awake [20]) :=
  ⟨rfl, (C8_setPowerStateExternal_wake Example.cfgExternal Example.hdaWorking kPowerStateNormal
    (Example.awake [20]) (Or.inl rfl)).1 rfl⟩

/-- C9: `setPowerState(Sleep)` and `setPowerStateExternal(Sleep)` are the same
function of the engine state, the configuration and the hardware: same
resulting machine, same trace.  Each is `handleStateChange(Sleep)` when
`mEAPDPoweredDown` is false, and does nothing at all when it is true: the
machine is returned unchanged, no event is added.  In the trace the first store
of the handler appears iff the flag was false.  Both return once the
capable-node set has been constructed. -/
theorem C9_sleep_callbacks_agree (cfg : Configuration) (hda : IntelHDA) (m : Machine) :
    setPowerState cfg hda kPowerStateSleep m = setPowerStateExternal cfg hda kPowerStateSleep m ∧
    (m.self.mEAPDPoweredDown = false →
      setPowerState cfg hda kPowerStateSleep m =
        handleStateChange cfg hda IOAudioDevicePowerState.kIOAudioDeviceSleep m) ∧
    (m.self.mEAPDPoweredDown = true → setPowerState cfg hda kPowerStateSleep m = some m) ∧
    (∀ m', setPowerState cfg hda kPowerStateSleep m = some m' →
      ∃ evs, m'.trace = m.trace ++ evs ∧
        (evs.head? = some (Event.storeColdBoot false) ↔ m.self.mEAPDPoweredDown = false)) ∧
    (m.self.mEAPDCapableNodes.isSome = true →
      (setPowerState cfg hda kPowerStateSleep m).isSome = true ∧
      (setPowerStateExternal cfg hda kPowerStateSleep m).isSome = true) := by
  refine ⟨?_, ?_, ?_, ?_, ?_⟩
  · rw [setPowerState_sleep_eq, setPowerStateExternal_sleep_eq]
  · intro hp
    rw [setPowerState_sleep_eq]
    simp [hp]
  · intro hp
    rw [setPowerState_sleep_eq]
    simp [hp]
  · intro m' h
    obtain ⟨evs, htr, _, hh⟩ := setPowerState_sleep_spec cfg hda m m' h
    exact ⟨evs, htr, hh⟩
  · intro hn
    exact ⟨setPowerState_isSome cfg hda _ m hn, setPowerStateExternal_isSome cfg hda _ m hn⟩

/-- C9, at a concrete input: a sleep callback on an engine that is already
powered down changes nothing. -/
theorem C9_sleep_callbacks_agree_witness :
    (Example.asleep [20]).self.mEAPDPoweredDown = true ∧
    setPowerState Example.cfgNodes Example.hdaWorking kPowerStateSleep (Example.asleep [20]) =
      some (Example.asleep [20]) :=
  ⟨rfl, (C9_sleep_callbacks_agree Example.cfgNodes Example.hdaWorking
    (Example.asleep [20])).2.2.1 rfl⟩

/-- C10: with polling enabled, `setPowerState` with ordinal Normal or Doze arms
the poll timer exactly once, as its last step, with 20000 ms if `mColdBoot` is
true and with 100 ms otherwise (the wake branch does not change `mColdBoot`);
with polling disabled `setPowerState` never arms the timer, whatever the
ordinal; `setPowerState(Sleep)` never arms it.  The call returns once the
capable-node set has been constructed. -/
theorem C10_wake_timer_arm (cfg : Configuration) (hda : IntelHDA) (m : Machine) :
    (∀ ord m', ord = kPowerStateNormal ∨ ord = kPowerStateDoze →
      cfg.mCheckInfinite = true →
      setPowerState cfg hda ord m = some m' →
      m'.self.mColdBoot = m.self.mColdBoot ∧
      ∃ evs, m'.trace = m.trace ++ evs ++
          [Event.setTimeoutMS (if m.self.mColdBoot then 20000 else 100)] ∧
        ∀ ms, Event.setTimeoutMS ms ∉ evs) ∧
    (∀ ord m', cfg.mCheckInfinite = false →
      setPowerState cfg hda ord m = some m' →
      ∃ evs, m'.trace = m.trace ++ evs ∧ ∀ ms, Event.setTimeoutMS ms ∉ evs) ∧
    (∀ m', setPowerState cfg hda kPowerStateSleep m = some m' →
      ∃ evs, m'.trace = m.trace ++ evs ∧ ∀ ms, Event.setTimeoutMS ms ∉ evs) ∧
    (m.self.mEAPDCapableNodes.isSome = true →
      ∀ ord, (setPowerState cfg hda ord m).isSome = true) := by
  have hsleep : ∀ m', setPowerState cfg hda kPowerStateSleep m = some m' →
      ∃ evs, m'.trace = m.trace ++ evs ∧ ∀ ms, Event.setTimeoutMS ms ∉ evs := by
    intro m' h
    obtain ⟨evs, htr, hta, _⟩ := setPowerState_sleep_spec cfg hda m m' h
    exact ⟨evs, htr, not_mem_setTimeoutMS_of_isTimerArm evs hta⟩
  refine ⟨?_, ?_, hsleep, fun hn ord => setPowerState_isSome cfg hda ord m hn⟩
  · intro ord m' hord hc h
    obtain ⟨hcb, evs, htr, hta, _⟩ := setPowerState_wake_spec cfg hda ord hord m m' h
    refine ⟨hcb, evs, ?_, not_mem_setTimeoutMS_of_isTimerArm evs hta⟩
    rw [htr]
    simp [hc]
  · intro ord m' hc h
    by_cases h0 : ord = kPowerStateSleep
    · subst h0
      exact hsleep m' h
    · by_cases h1 : ord = kPowerStateNormal ∨ ord = kPowerStateDoze
      · obtain ⟨_, evs, htr, hta, _⟩ := setPowerState_wake_spec cfg hda ord h1 m m' h
        refine ⟨evs, ?_, not_mem_setTimeoutMS_of_isTimerArm evs hta⟩
        rw [htr]
        simp [hc]
      · rw [setPowerState_other cfg hda ord m h0 h1] at h
        simp only [Option.some.injEq] at h
        subst h
        exact ⟨[], by simp, by simp⟩

/-- C10, at a concrete input: the first wake callback of an attached engine
with polling enabled returns and ends with the 20000 ms arm. -/
theorem C10_wake_timer_arm_witness :
    Example.cfgPolling.mCheckInfinite = true ∧
    (Example.attached [20]).self.mColdBoot = true ∧
    (setPowerState Example.cfgPolling Example.hdaWorking kPowerStateNormal
      (Example.attached [20])).isSome = true ∧
    ∀ m', setPowerState Example.cfgPolling Example.hdaWorking kPowerStateNormal
        (Example.attached [20]) = some m' →
      m'.self.mColdBoot = (Example.attached [20]).self.mColdBoot ∧
      ∃ evs, m'.trace = (Example.attached [20]).trace ++ evs ++
          [Event.setTimeoutMS (if (Example.attached [20]).self.mColdBoot then 20000 else 100)] ∧
        ∀ ms, Event.setTimeoutMS ms ∉ evs :=
  ⟨rfl, rfl, by decide, fun m' h =>
    (C10_wake_timer_arm Example.cfgPolling Example.hdaWorking (Example.attached [20])).1
      kPowerStateNormal m' (Or.inl rfl) rfl h⟩

/-- C16: when the layout id read by `probe` is unavailable (-1), `probe` takes
the lock, initializes the port, queries the layout id and releases the lock:
it sends no custom command verb and no pin-config command (no `sendCommand` at
all), whatever the configuration holds, and the lock depth is back to where it
was. -/
theorem C16_probe_aborts_without_layout (config : Configuration) (hda : IntelHDA) (m : Machine)
    (hl : toUInt32 (hda.respond (m.trace ++ [Event.lock, Event.hdaInit]) Event.getLayoutID) =
      UINT32_MINUS_ONE) :
    ∃ evs, CodecCommanderProbeInit.probe config hda false true m =
        { self := m.self, trace := m.trace ++ evs } ∧
      evs = [Event.lock, Event.hdaInit, Event.getLayoutID, Event.unlock] ∧
      (∀ c, Event.sendVerb c ∉ evs) ∧
      (∀ node verb payload, Event.sendCommand node verb payload ∉ evs) ∧
      lockDepthAfter 0 evs = 0 := by
  refine ⟨_, ?_, rfl, by simp, by simp, by simp [lockDepthAfter]⟩
  simp [CodecCommanderProbeInit.probe, IntelHDA.getLayoutID, Machine.emit, hl]

/-- C16, at a concrete input: a profile with a wildcard group, probed on a
codec without layout id. -/
theorem C16_probe_aborts_without_layout_witness :
    Example.sleepGroup ∈ Example.cfgNodes.mCustomCommands ∧
    Example.sleepGroup.layoutID = UINT32_MINUS_ONE ∧
    ∃ evs, CodecCommanderProbeInit.probe Example.cfgNodes Example.hdaNoLayout false true
          CodecCommander.init =
        { self := CodecCommander.init.self, trace := CodecCommander.init.trace ++ evs } ∧
      evs = [Event.lock, Event.hdaInit, Event.getLayoutID, Event.unlock] ∧
      (∀ c, Event.sendVerb c ∉ evs) ∧
      (∀ node verb payload, Event.sendCommand node verb payload ∉ evs) ∧
      lockDepthAfter 0 evs = 0 :=
  ⟨by decide, rfl,
    C16_probe_aborts_without_layout Example.cfgNodes Example.hdaNoLayout CodecCommander.init
      (by decide)⟩

/-- C18: the verbs sent by `customCommands(trigger)` are, in list order, the
full verb sequences of exactly the groups whose flag for the trigger is set and
whose layout filter matches the live layout id, between the layout-id query
with the lock and the unlock; nothing else is sent and nothing is sent twice.
The sequence does not depend on what the hardware answers to the verbs: two
codecs that report the same layout id give the same result. -/
theorem C18_customCommands_sequence (cfg : Configuration) (hda : IntelHDA)
    (trigger : CodecCommanderState) (m : Machine) :
    customCommands cfg hda trigger m =
      { self := m.self,
        trace := m.trace ++ (Event.getLayoutID :: Event.lock ::
          (((cfg.mCustomCommands.filter (fun cc =>
                flagOf cc trigger &&
                  layoutTest cc.layoutID (toUInt32 (hda.respond m.trace Event.getLayoutID)))).flatMap
              (fun cc => cc.Commands)).map Event.sendVerb ++ [Event.unlock])) } ∧
    (∀ hda2 : IntelHDA,
      toUInt32 (hda2.respond m.trace Event.getLayoutID) =
        toUInt32 (hda.respond m.trace Event.getLayoutID) →
      customCommands cfg hda2 trigger m = customCommands cfg hda trigger m) := by
  constructor
  · rw [customCommands_eq]
    simp only [selectedVerbs, triggerTest_eq_flagOf]
  · intro hda2 h
    rw [customCommands_eq, customCommands_eq, h]

/-- C18, at a concrete input: a codec that fails every verb and one that
accepts every verb, both with layout id 3, are sent the same sequence. -/
theorem C18_customCommands_sequence_witness :
    customCommands Example.cfgNodes Example.hdaFailing CodecCommanderState.kStateWake
        (Example.asleep [20]) =
      customCommands Example.cfgNodes Example.hdaWorking CodecCommanderState.kStateWake
        (Example.asleep [20]) :=
  (C18_customCommands_sequence Example.cfgNodes Example.hdaWorking CodecCommanderState.kStateWake
    (Example.asleep [20])).2 Example.hdaFailing (by decide)

/-- C19: `performCodecReset` does nothing while `mColdBoot` is true: the
machine and its trace are returned unchanged.  When `mColdBoot` is false it
issues exactly one `resetCodec`, under the lock, and sets `mEAPDPoweredDown`;
`mColdBoot`, `mHDAPrevPowerState` and the other members are unchanged. -/
theorem C19_performCodecReset_frame (m : Machine) :
    (m.self.mColdBoot = true → performCodecReset m = m) ∧
    (m.self.mColdBoot = false →
      performCodecReset m =
        { self := { m.self with mEAPDPoweredDown := true },
          trace := m.trace ++
            [Event.lock, Event.resetCodec, Event.storeEAPDPoweredDown true, Event.unlock] }) ∧
    (performCodecReset m).self.mColdBoot = m.self.mColdBoot ∧
    (performCodecReset m).self.mHDAPrevPowerState = m.self.mHDAPrevPowerState := by
  refine ⟨?_, ?_, ?_, ?_⟩
  · intro h
    simp [performCodecReset, h]
  · intro h
    simp [performCodecReset, h, Machine.emit, Machine.setEAPDPoweredDown]
  · rw [performCodecReset_eq]
  · rw [performCodecReset_eq]

/-- C19, at a concrete input: a reset after a sleep/wake cycle, and a reset
attempted on the attached engine. -/
theorem C19_performCodecReset_frame_witness :
    (Example.attached [20]).self.mColdBoot = true ∧
    performCodecReset (Example.attached [20]) = Example.attached [20] ∧
    (Example.awake [20]).self.mColdBoot = false ∧
    performCodecReset (Example.awake [20]) =
      { self := { (Example.awake [20]).self with mEAPDPoweredDown := true },
        trace := (Example.awake [20]).trace ++
          [Event.lock, Event.resetCodec, Event.storeEAPDPoweredDown true, Event.unlock] } :=
  ⟨rfl, (C19_performCodecReset_frame (Example.attached [20])).1 rfl, rfl,
    (C19_performCodecReset_frame (Example.awake [20])).2.1 rfl⟩

/-- C12: a polling tick first re-arms the timer with `checkInterval` ms, and
arms it only once.  If no peer audio device is found, or the sample equals
`mHDAPrevPowerState`, nothing else happens: no further event, and `mColdBoot`,
`mEAPDPoweredDown`, `mHDAPrevPowerState` and the node set are unchanged.
Otherwise `mHDAPrevPowerState` is set to the sample and `handleStateChange` runs
exactly once, with Sleep when the sample is Sleep and with Active otherwise.
The tick returns once the capable-node set has been constructed. -/
theorem C12_onTimerAction_tick (cfg : Configuration) (hda : IntelHDA) (located : Bool)
    (sample : IOAudioDevicePowerState) (m : Machine) :
    ((m.self.mAudioDevice || located) = false ∨ sample = m.self.mHDAPrevPowerState →
      onTimerAction cfg hda located sample m =
        some { self := { m.self with mAudioDevice := (m.self.mAudioDevice || located) },
               trace := m.trace ++ [Event.setTimeoutMS cfg.mCheckInterval] }) ∧
    ((m.self.mAudioDevice || located) = true → sample ≠ m.self.mHDAPrevPowerState →
      onTimerAction cfg hda located sample m =
        handleStateChange cfg hda
          (if sample = IOAudioDevicePowerState.kIOAudioDeviceSleep then
            IOAudioDevicePowerState.kIOAudioDeviceSleep
          else IOAudioDevicePowerState.kIOAudioDeviceActive)
          { self := { m.self with mAudioDevice := true, mHDAPrevPowerState := sample },
            trace := m.trace ++ [Event.setTimeoutMS cfg.mCheckInterval] }) ∧
    (∀ m', onTimerAction cfg hda located sample m = some m' →
      m'.self.mHDAPrevPowerState =
        (if (m.self.mAudioDevice || located) = true then sample
          else m.self.mHDAPrevPowerState) ∧
      ∃ evs, m'.trace = m.trace ++ Event.setTimeoutMS cfg.mCheckInterval :: evs ∧
        (∀ ms, Event.setTimeoutMS ms ∉ evs) ∧
        evs.filter Event.isHandlerEntry =
          (if (m.self.mAudioDevice || located) = true ∧ sample ≠ m.self.mHDAPrevPowerState then
            [if sample = IOAudioDevicePowerState.kIOAudioDeviceSleep then
              Event.storeColdBoot false else Event.applyIntelTCSEL]
          else [])) ∧
    (m.self.mEAPDCapableNodes.isSome = true →
      (onTimerAction cfg hda located sample m).isSome = true) := by
  have heq := onTimerAction_eq cfg hda located sample m
  refine ⟨?_, ?_, ?_, onTimerAction_isSome cfg hda located sample m⟩
  · intro hc
    rw [heq, if_pos hc]
  · intro hd hs
    have hc : ¬ ((m.self.mAudioDevice || located) = false ∨ sample = m.self.mHDAPrevPowerState) := by
      rintro (h | h)
      · rw [hd] at h; exact absurd h (by simp)
      · exact hs h
    rw [heq, if_neg hc]
  · intro m' h
    rw [heq] at h
    by_cases hc : (m.self.mAudioDevice || located) = false ∨ sample = m.self.mHDAPrevPowerState
    · rw [if_pos hc] at h
      simp only [Option.some.injEq] at h
      subst h
      refine ⟨?_, [], rfl, by simp, ?_⟩
      · rcases hc with h1 | h1
        · simp [h1]
        · simp [h1]
      · have : ¬ ((m.self.mAudioDevice || located) = true ∧ sample ≠ m.self.mHDAPrevPowerState) := by
          rintro ⟨h2, h3⟩
          rcases hc with h1 | h1
          · rw [h2] at h1; exact absurd h1 (by simp)
          · exact h3 h1
        rw [if_neg this]
        rfl
    · rw [if_neg hc] at h
      have hd : (m.self.mAudioDevice || located) = true := by
        cases hx : (m.self.mAudioDevice || located)
        · exact absurd (Or.inl hx) hc
        · rfl
      have hs : sample ≠ m.self.mHDAPrevPowerState := fun hx => hc (Or.inr hx)
      obtain ⟨hself, evs, htr, hta, _, _, _⟩ := handleStateChange_spec cfg hda _ _ m' h
      obtain ⟨evs2, htr2, hentry⟩ := handleStateChange_entry cfg hda _ _ m' h
      have hevs : evs2 = evs := by
        rw [htr] at htr2
        exact (List.append_cancel_left htr2).symm
      subst hevs
      refine ⟨?_, evs2, ?_, not_mem_setTimeoutMS_of_isTimerArm evs2 hta, ?_⟩
      · rw [hself]
        simp [hd]
      · rw [htr]
        simp
      · rw [if_pos ⟨hd, hs⟩, hentry]
        by_cases hsl : sample = IOAudioDevicePowerState.kIOAudioDeviceSleep
        · simp [hsl]
        · simp [hsl]

/-- C12, at a concrete input: a tick that samples Active on the attached engine
runs the handler; the profile and node set let it return. -/
theorem C12_onTimerAction_tick_witness :
    (Example.attached [20]).self.mEAPDCapableNodes.isSome = true ∧
    (onTimerAction Example.cfgPolling Example.hdaWorking true
      IOAudioDevicePowerState.kIOAudioDeviceActive (Example.attached [20])).isSome = true ∧
    onTimerAction Example.cfgPolling Example.hdaWorking true
        IOAudioDevicePowerState.kIOAudioDeviceSleep (Example.attached [20]) =
      some { self := { (Example.attached [20]).self with
                mAudioDevice := ((Example.attached [20]).self.mAudioDevice || true) },
             trace := (Example.attached [20]).trace ++
               [Event.setTimeoutMS Example.cfgPolling.mCheckInterval] } :=
  ⟨rfl,
    (C12_onTimerAction_tick Example.cfgPolling Example.hdaWorking true
      IOAudioDevicePowerState.kIOAudioDeviceActive (Example.attached [20])).2.2.2 rfl,
    (C12_onTimerAction_tick Example.cfgPolling Example.hdaWorking true
      IOAudioDevicePowerState.kIOAudioDeviceSleep (Example.attached [20])).1 (Or.inr rfl)⟩

/-- C13 fails as stated: on an engine whose previous observation is Active, a
polling tick that samples Active only re-arms the timer, while a tick that
samples Idle runs the Active branch of the handler and sends hardware
commands. -/
theorem C13_idle_active_counterexample :
    (Example.awake [20]).self.mHDAPrevPowerState = IOAudioDevicePowerState.kIOAudioDeviceActive ∧
    (onTimerAction Example.cfgNodes Example.hdaWorking true
        IOAudioDevicePowerState.kIOAudioDeviceActive (Example.awake [20])).map
      (fun m => m.trace) = some [Event.setTimeoutMS 3000] ∧
    (onTimerAction Example.cfgNodes Example.hdaWorking true
        IOAudioDevicePowerState.kIOAudioDeviceIdle (Example.awake [20])).map
      (fun m => m.trace) =
      some [Event.setTimeoutMS 3000, Event.applyIntelTCSEL, Event.ioSleep 300, Event.lock,
        Event.sendCommand 20 HdaVerb.HDA_VERB_EAPDBTL_SET 2, Event.unlock, Event.getLayoutID,
        Event.lock, Event.sendVerb 32, Event.sendVerb 33, Event.unlock,
        Event.storeEAPDPoweredDown false] ∧
    observed (onTimerAction Example.cfgNodes Example.hdaWorking true
        IOAudioDevicePowerState.kIOAudioDeviceIdle (Example.awake [20])) ≠
      observed (onTimerAction Example.cfgNodes Example.hdaWorking true
        IOAudioDevicePowerState.kIOAudioDeviceActive (Example.awake [20])) := by
  refine ⟨rfl, by decide, by decide, by decide⟩

/-- C13, amended: `handleStateChange(Idle)` is `handleStateChange(Active)`, for
every engine state and configuration.  A polling tick that samples Idle gives
the same trace and the same resulting `mColdBoot` and `mEAPDPoweredDown` as a
tick that samples Active when `mHDAPrevPowerState` is Sleep.  When
`mHDAPrevPowerState` is Idle or Active the raw sample is compared with it: the
sample equal to it only re-arms the timer, the other of the two runs the Active
branch of the handler. -/
theorem C13_idle_as_active (cfg : Configuration) (hda : IntelHDA) (m : Machine) :
    handleStateChange cfg hda IOAudioDevicePowerState.kIOAudioDeviceIdle m =
      handleStateChange cfg hda IOAudioDevicePowerState.kIOAudioDeviceActive m ∧
    (∀ located, m.self.mHDAPrevPowerState = IOAudioDevicePowerState.kIOAudioDeviceSleep →
      observed (onTimerAction cfg hda located IOAudioDevicePowerState.kIOAudioDeviceIdle m) =
        observed (onTimerAction cfg hda located IOAudioDevicePowerState.kIOAudioDeviceActive m)) ∧
    (∀ located sample, sample ≠ IOAudioDevicePowerState.kIOAudioDeviceSleep →
      m.self.mHDAPrevPowerState ≠ IOAudioDevicePowerState.kIOAudioDeviceSleep →
      (m.self.mAudioDevice || located) = true →
      onTimerAction cfg hda located sample m =
        if sample = m.self.mHDAPrevPowerState then
          some { self := { m.self with mAudioDevice := true },
                 trace := m.trace ++ [Event.setTimeoutMS cfg.mCheckInterval] }
        else
          handleStateChange cfg hda IOAudioDevicePowerState.kIOAudioDeviceActive
            { self := { m.self with mAudioDevice := true, mHDAPrevPowerState := sample },
              trace := m.trace ++ [Event.setTimeoutMS cfg.mCheckInterval] }) := by
  refine ⟨rfl, ?_, ?_⟩
  · intro located hp
    rw [onTimerAction_eq, onTimerAction_eq]
    by_cases hd : (m.self.mAudioDevice || located) = false
    · simp [hd, hp]
    · have h1 : ¬ ((m.self.mAudioDevice || located) = false ∨
          IOAudioDevicePowerState.kIOAudioDeviceIdle = m.self.mHDAPrevPowerState) := by
        rintro (h | h)
        · exact hd h
        · rw [hp] at h; exact absurd h (by decide)
      have h2 : ¬ ((m.self.mAudioDevice || located) = false ∨
          IOAudioDevicePowerState.kIOAudioDeviceActive = m.self.mHDAPrevPowerState) := by
        rintro (h | h)
        · exact hd h
        · rw [hp] at h; exact absurd h (by decide)
      rw [if_neg h1, if_neg h2]
      simp only [reduceCtorEq, if_false]
      have e1 := handleStateChange_frame cfg hda IOAudioDevicePowerState.kIOAudioDeviceActive
        m.self (m.trace ++ [Event.setTimeoutMS cfg.mCheckInterval])
        IOAudioDevicePowerState.kIOAudioDeviceIdle true
      have e2 := handleStateChange_frame cfg hda IOAudioDevicePowerState.kIOAudioDeviceActive
        m.self (m.trace ++ [Event.setTimeoutMS cfg.mCheckInterval])
        IOAudioDevicePowerState.kIOAudioDeviceActive true
      simp only at e1 e2
      rw [e1, e2]
      cases handleStateChange cfg hda IOAudioDevicePowerState.kIOAudioDeviceActive
        ⟨m.self, m.trace ++ [Event.setTimeoutMS cfg.mCheckInterval]⟩ <;> rfl
  · intro located sample hs hp hd
    rw [onTimerAction_eq]
    by_cases he : sample = m.self.mHDAPrevPowerState
    · simp [he, hd]
    · have h1 : ¬ ((m.self.mAudioDevice || located) = false ∨ sample = m.self.mHDAPrevPowerState) := by
        rintro (h | h)
        · rw [hd] at h; exact absurd h (by simp)
        · exact he h
      rw [if_neg h1, if_neg he, if_neg hs]

/-- C13 amended, at a concrete input: on the attached engine (previous
observation Sleep) ticks that sample Idle and Active are observed alike. -/
theorem C13_idle_as_active_witness :
    (Example.attached [20]).self.mHDAPrevPowerState =
      IOAudioDevicePowerState.kIOAudioDeviceSleep ∧
    observed (onTimerAction Example.cfgNodes Example.hdaWorking true
        IOAudioDevicePowerState.kIOAudioDeviceIdle (Example.attached [20])) =
      observed (onTimerAction Example.cfgNodes Example.hdaWorking true
        IOAudioDevicePowerState.kIOAudioDeviceActive (Example.attached [20])) :=
  ⟨rfl, (C13_idle_as_active Example.cfgNodes Example.hdaWorking (Example.attached [20])).2.1
    true rfl⟩

/-- C11 fails as stated.  With polling enabled and `checkInterval` = 3000, the
callbacks wake, sleep, wake on the attached engine arm the timer with 20000 ms
and then with 100 ms, not with `checkInterval`.  And when the external callback
has woken the engine and a sleep has been handled before the first direct wake
callback, the first arm of all is made with 100 ms. -/
theorem C11_timer_arms_counterexample :
    attachState (Example.attached [20]) ∧
    Example.cfgPolling.mCheckInfinite = true ∧
    Example.cfgPolling.mCheckInterval = 3000 ∧
    (run Example.cfgPolling Example.hdaWorking
        [Callback.setPowerState kPowerStateNormal, Callback.setPowerState kPowerStateSleep,
          Callback.setPowerState kPowerStateNormal] (Example.attached [20])).map
      (fun m => m.trace.filter Event.isTimerArm) =
        some [Event.setTimeoutMS 20000, Event.setTimeoutMS 100] ∧
    (run Example.cfgPolling Example.hdaWorking
        [Callback.setPowerStateExternal kPowerStateNormal,
          Callback.setPowerState kPowerStateSleep,
          Callback.setPowerState kPowerStateNormal] (Example.attached [20])).map
      (fun m => m.trace.filter Event.isTimerArm) = some [Event.setTimeoutMS 100] := by
  refine ⟨by decide, rfl, rfl, by decide, by decide⟩

/-- C11, amended: with polling enabled, a direct wake callback (ordinal Normal
or Doze) arms the timer once, with 20000 ms while `mColdBoot` is true and with
100 ms once the engine has left cold boot, whatever `checkInterval` is; a timer
tick arms it once, with `checkInterval`; the external callback and the direct
sleep callback do not arm it.  So over any sequence of callbacks and ticks every
arm is 20000 ms, 100 ms or `checkInterval`, and from the attach state a sequence
that starts with the direct wake callback has 20000 ms as its first arm.  The
sequence returns once the capable-node set has been constructed. -/
theorem C11_timer_arms (cfg : Configuration) (hda : IntelHDA) (m : Machine)
    (hpoll : cfg.mCheckInfinite = true) :
    (∀ ord m', ord = kPowerStateNormal ∨ ord = kPowerStateDoze →
      setPowerState cfg hda ord m = some m' →
      ∃ evs, m'.trace = m.trace ++ evs ∧
        evs.filter Event.isTimerArm =
          [Event.setTimeoutMS (if m.self.mColdBoot then 20000 else 100)]) ∧
    (∀ located sample m', onTimerAction cfg hda located sample m = some m' →
      ∃ evs, m'.trace = m.trace ++ evs ∧
        evs.filter Event.isTimerArm = [Event.setTimeoutMS cfg.mCheckInterval]) ∧
    (∀ ord m', setPowerStateExternal cfg hda ord m = some m' →
      ∃ evs, m'.trace = m.trace ++ evs ∧ evs.filter Event.isTimerArm = []) ∧
    (∀ m', setPowerState cfg hda kPowerStateSleep m = some m' →
      ∃ evs, m'.trace = m.trace ++ evs ∧ evs.filter Event.isTimerArm = []) ∧
    (∀ cs m', run cfg hda cs m = some m' →
      ∃ evs, m'.trace = m.trace ++ evs ∧
        ∀ ms, Event.setTimeoutMS ms ∈ evs → ms = 20000 ∨ ms = 100 ∨ ms = cfg.mCheckInterval) ∧
    (attachState m → ∀ ord rest m', ord = kPowerStateNormal ∨ ord = kPowerStateDoze →
      run cfg hda (Callback.setPowerState ord :: rest) m = some m' →
      ∃ evs, m'.trace = m.trace ++ evs ∧
        (evs.filter Event.isTimerArm).head? = some (Event.setTimeoutMS 20000)) ∧
    (m.self.mEAPDCapableNodes.isSome = true → ∀ cs, ∃ m', run cfg hda cs m = some m') := by
  have hwake : ∀ (m0 : Machine) ord m', ord = kPowerStateNormal ∨ ord = kPowerStateDoze →
      setPowerState cfg hda ord m0 = some m' →
      ∃ evs, m'.trace = m0.trace ++ evs ∧
        evs.filter Event.isTimerArm =
          [Event.setTimeoutMS (if m0.self.mColdBoot then 20000 else 100)] := by
    intro m0 ord m' hord h
    obtain ⟨_, evs, htr, hta, _⟩ := setPowerState_wake_spec cfg hda ord hord m0 m' h
    refine ⟨evs ++ [Event.setTimeoutMS (if m0.self.mColdBoot then 20000 else 100)], ?_, ?_⟩
    · rw [htr]
      simp [hpoll]
    · rw [List.filter_append,
        filter_isTimerArm_nil evs (not_mem_setTimeoutMS_of_isTimerArm evs hta)]
      simp [Event.isTimerArm]
  refine ⟨hwake m, ?_, ?_, ?_, ?_, ?_, fun hn cs => run_isSome cfg hda cs m hn⟩
  · intro located sample m' h
    obtain ⟨evs, hs, hn⟩ := stepInv_onTimerAction cfg hda located sample m m' h
    refine ⟨_, hs.1, ?_⟩
    rw [List.filter_cons_of_pos (by rfl), filter_isTimerArm_nil evs hn]
  · intro ord m' h
    obtain ⟨evs, hs, hn⟩ := stepInv_setPowerStateExternal cfg hda ord m m' h
    exact ⟨evs, hs.1, filter_isTimerArm_nil evs hn⟩
  · intro m' h
    obtain ⟨evs, htr, hta, _⟩ := setPowerState_sleep_spec cfg hda m m' h
    exact ⟨evs, htr, filter_isTimerArm_nil evs (not_mem_setTimeoutMS_of_isTimerArm evs hta)⟩
  · intro cs m' h
    obtain ⟨evs, hs⟩ := stepInv_run cfg hda cs m m' h
    exact ⟨evs, hs.1, hs.2.2.2⟩
  · intro hat ord rest m' hord h
    simp only [run, deliver] at h
    cases h1 : setPowerState cfg hda ord m with
    | none => simp [h1] at h
    | some m1 =>
      simp only [h1, Option.some_bind] at h
      obtain ⟨evs1, htr1, hf1⟩ := hwake m ord m1 hord h1
      obtain ⟨evs2, hs2⟩ := stepInv_run cfg hda rest m1 m' h
      refine ⟨evs1 ++ evs2, by rw [hs2.1, htr1, List.append_assoc], ?_⟩
      rw [List.filter_append, hf1, hat.1]
      rfl

/-- C11 amended, at a concrete input: polling enabled, the attached engine, the
callbacks wake, sleep, wake. -/
theorem C11_timer_arms_witness :
    Example.cfgPolling.mCheckInfinite = true ∧
    attachState (Example.attached [20]) ∧
    (run Example.cfgPolling Example.hdaWorking
      [Callback.setPowerState kPowerStateNormal, Callback.setPowerState kPowerStateSleep,
        Callback.setPowerState kPowerStateNormal] (Example.attached [20])).isSome = true ∧
    ∀ m', run Example.cfgPolling Example.hdaWorking
        [Callback.setPowerState kPowerStateNormal, Callback.setPowerState kPowerStateSleep,
          Callback.setPowerState kPowerStateNormal] (Example.attached [20]) = some m' →
      ∃ evs, m'.trace = (Example.attached [20]).trace ++ evs ∧
        (evs.filter Event.isTimerArm).head? = some (Event.setTimeoutMS 20000) :=
  ⟨rfl, by decide, by decide, fun m' h =>
    (C11_timer_arms Example.cfgPolling Example.hdaWorking (Example.attached [20]) rfl).2.2.2.2.2.1
      (by decide) kPowerStateNormal _ m' (Or.inl rfl) h⟩

/-- C20: over every sequence of `setPowerState`, `setPowerStateExternal` and
polling-tick calls from the attach state, `mColdBoot` is true at the end iff no
callback of the sequence has handed Sleep to `handleStateChange` (`handledInRun`
lists the transitions handed to the handler, callback by callback); the store
`mColdBoot = false` is among the events in exactly that case.  As long as no
Sleep transition has been handled no custom command verb has been sent, no codec
reset has been issued, every timer arm is 20000 ms or the `checkInterval` of a
tick, and a direct wake callback made then arms 20000 ms.  Each callback is the
handler, run on the transition that `handledBy` names, between `handlerEntry`
and `afterHandler`, or these two alone when the handler is passed over; neither
of them changes `mColdBoot`, and the handler clears it when its target is Sleep
and leaves it as it is otherwise: so a callback clears `mColdBoot` when it hands
Sleep to the handler and leaves it unchanged when it does not.  Once `mColdBoot`
is false no sequence of calls makes it true again.  The sequence returns once
the capable-node set has been constructed. -/
theorem C20_coldBoot_cleared_by_sleep_only (cfg : Configuration) (hda : IntelHDA) (m : Machine)
    (hat : attachState m) :
    (∀ cs m', run cfg hda cs m = some m' →
      (m'.self.mColdBoot = true ↔
        IOAudioDevicePowerState.kIOAudioDeviceSleep ∉ handledInRun cfg hda cs m) ∧
      ∃ evs, m'.trace = m.trace ++ evs ∧
        (m'.self.mColdBoot = true ↔ Event.storeColdBoot false ∉ evs) ∧
        (IOAudioDevicePowerState.kIOAudioDeviceSleep ∉ handledInRun cfg hda cs m →
          (∀ c, Event.sendVerb c ∉ evs) ∧ Event.resetCodec ∉ evs ∧
          ∀ ms, Event.setTimeoutMS ms ∈ evs → ms = 20000 ∨ ms = cfg.mCheckInterval)) ∧
    (∀ c x,
      deliver cfg hda c x =
        (match handledBy cfg c x with
          | some target =>
            (handleStateChange cfg hda target (handlerEntry cfg c x)).map (afterHandler cfg c)
          | none => some (afterHandler cfg c (handlerEntry cfg c x))) ∧
      (handlerEntry cfg c x).self.mColdBoot = x.self.mColdBoot ∧
      (∀ y, (afterHandler cfg c y).self.mColdBoot = y.self.mColdBoot) ∧
      (∀ x', deliver cfg hda c x = some x' →
        x'.self.mColdBoot =
          (if handledBy cfg c x = some IOAudioDevicePowerState.kIOAudioDeviceSleep then false
            else x.self.mColdBoot))) ∧
    (∀ target m1 m2, handleStateChange cfg hda target m1 = some m2 →
      m2.self.mColdBoot =
        (if target = IOAudioDevicePowerState.kIOAudioDeviceSleep then false
          else m1.self.mColdBoot) ∧
      ∃ evs, m2.trace = m1.trace ++ evs ∧
        (Event.storeColdBoot false ∈ evs ↔
          target = IOAudioDevicePowerState.kIOAudioDeviceSleep)) ∧
    (∀ cs m1 m2, m1.self.mColdBoot = false → run cfg hda cs m1 = some m2 →
      m2.self.mColdBoot = false) ∧
    (∀ cs m1 ord m2, run cfg hda cs m = some m1 → m1.self.mColdBoot = true →
      ord = kPowerStateNormal ∨ ord = kPowerStateDoze → cfg.mCheckInfinite = true →
      setPowerState cfg hda ord m1 = some m2 →
      ∃ evs, m2.trace = m1.trace ++ evs ++ [Event.setTimeoutMS 20000]) ∧
    (m.self.mEAPDCapableNodes.isSome = true → ∀ cs, ∃ m', run cfg hda cs m = some m') := by
  refine ⟨?_, ?_, ?_, ?_, ?_, fun hn cs => run_isSome cfg hda cs m hn⟩
  · intro cs m' h
    have hnew := run_coldBoot_handled cfg hda cs m m' h
    have hnew2 : m'.self.mColdBoot = true ↔
        IOAudioDevicePowerState.kIOAudioDeviceSleep ∉ handledInRun cfg hda cs m := by
      rw [hnew]
      simp [hat.1]
    refine ⟨hnew2, ?_⟩
    obtain ⟨evs, htr, hc, hs, _⟩ := stepInv_run cfg hda cs m m' h
    refine ⟨evs, htr, ?_, ?_⟩
    · rw [hc]
      simp [hat.1]
    · intro hno
      exact hs (hnew2.2 hno)
  · intro c x
    exact ⟨deliver_eq_handled cfg hda c x, handlerEntry_coldBoot cfg c x,
      fun y => afterHandler_coldBoot cfg c y, fun x' hx => deliver_coldBoot cfg hda c x x' hx⟩
  · intro target m1 m2 h
    exact ⟨handleStateChange_coldBoot cfg hda target m1 m2 h,
      handleStateChange_marker cfg hda target m1 m2 h⟩
  · intro cs m1 m2 hc h
    obtain ⟨evs, _, hiff, _, _⟩ := stepInv_run cfg hda cs m1 m2 h
    cases h2 : m2.self.mColdBoot
    · rfl
    · have := (hiff.1 h2).1
      rw [hc] at this
      exact absurd this (by simp)
  · intro cs m1 ord m2 _ hc hord hp h
    obtain ⟨_, evs, htr, _, _⟩ := setPowerState_wake_spec cfg hda ord hord m1 m2 h
    refine ⟨evs, ?_⟩
    rw [htr]
    simp [hp, hc]

/-- C20, at a concrete input: the attached engine, woken through both callbacks
and a tick without a sleep in between, has handled Active twice and is still in
cold boot; the sequence returns.  With a sleep callback in between the handler
is handed Sleep. -/
theorem C20_coldBoot_cleared_by_sleep_only_witness :
    attachState (Example.attached [20]) ∧
    handledInRun Example.cfgPolling Example.hdaWorking
        [Callback.setPowerStateExternal kPowerStateNormal,
          Callback.setPowerState kPowerStateNormal,
          Callback.onTimerAction true IOAudioDevicePowerState.kIOAudioDeviceActive]
        (Example.attached [20]) =
      [IOAudioDevicePowerState.kIOAudioDeviceActive,
        IOAudioDevicePowerState.kIOAudioDeviceActive] ∧
    handledInRun Example.cfgPolling Example.hdaWorking
        [Callback.setPowerState kPowerStateNormal, Callback.setPowerState kPowerStateSleep,
          Callback.setPowerState kPowerStateNormal]
        (Example.attached [20]) =
      [IOAudioDevicePowerState.kIOAudioDeviceActive, IOAudioDevicePowerState.kIOAudioDeviceSleep,
        IOAudioDevicePowerState.kIOAudioDeviceActive] ∧
    ∃ m', run Example.cfgPolling Example.hdaWorking
        [Callback.setPowerStateExternal kPowerStateNormal,
          Callback.setPowerState kPowerStateNormal,
          Callback.onTimerAction true IOAudioDevicePowerState.kIOAudioDeviceActive]
        (Example.attached [20]) = some m' ∧ m'.self.mColdBoot = true :=
  ⟨by decide, by decide, by decide,
    ((C20_coldBoot_cleared_by_sleep_only Example.cfgPolling Example.hdaWorking
      (Example.attached [20]) (by decide)).2.2.2.2.2 rfl _).elim
      fun m' h => ⟨m', h,
        ((C20_coldBoot_cleared_by_sleep_only Example.cfgPolling Example.hdaWorking
          (Example.attached [20]) (by decide)).1 _ m' h).1.2 (by decide)⟩⟩

/-- C14, the code at the failing input: the profile has "Update Nodes" off and
"Sleep Nodes" on.  `start` succeeds and leaves `mEAPDCapableNodes` NULL; the
first wake callback runs; the sleep callback that follows runs `setEAPD` on the
NULL node set, which the model reports as `none`. -/
theorem C14_sleep_on_unconstructed_node_set :
    Example.cfgSleepOnly.mUpdateNodes = false ∧
    Example.cfgSleepOnly.mSleepNodes = true ∧
    (start Example.cfgSleepOnly Example.hdaWorking true true true true 2 30 init).1 = true ∧
    Example.attachedSleepOnly.self.mEAPDCapableNodes = none ∧
    attachState Example.attachedSleepOnly ∧
    (setPowerState Example.cfgSleepOnly Example.hdaWorking kPowerStateNormal
      Example.attachedSleepOnly).isSome = true ∧
    run Example.cfgSleepOnly Example.hdaWorking
      [Callback.setPowerState kPowerStateNormal, Callback.setPowerState kPowerStateSleep]
      Example.attachedSleepOnly = none := by
  refine ⟨rfl, rfl, by decide, by decide, by decide, by decide, by decide⟩

/-- C17: the loop of the probe-time initializer over "PinConfigDefault" sends,
group by group in list order, the commands of each group.  A group whose raw
pair list has odd length contributes no command, and so does an entry that is
no dictionary, has no pair array or does not match the layout id; the other
groups are processed all the same.  A layout-matching group with an even-length
list contributes the commands of its pairs: for a pair with a valid node id
exactly four set-config-default commands to that node, for bytes 0, 1, 2, 3 in
that order, carrying the config value shifted right by 0, 8, 16 and 24 bits,
and nothing for a pair whose node id is not valid.  `probe` sends them after the
custom command verbs and before it releases the lock. -/
theorem C17_pin_config_groups (hda : IntelHDA) (layoutID : Nat) :
    (∀ groups m, CodecCommanderProbeInit.probePinConfigs hda layoutID groups m =
      { self := m.self, trace := m.trace ++ groups.flatMap (pinGroupEvents layoutID) }) ∧
    (∀ lid pins, pins.length % 2 = 1 →
      pinGroupEvents layoutID (OSObject.dictionary lid (some (OSObject.array pins))) = []) ∧
    (∀ lid pins, pins.length % 2 = 0 → layoutTest (pinGroupFilter lid) layoutID = true →
      pinGroupEvents layoutID (OSObject.dictionary lid (some (OSObject.array pins))) =
        pinPairEvents pins) ∧
    (∀ a b rest, a.numberValue ≠ UINT32_MINUS_ONE →
      pinPairEvents (a :: b :: rest) =
        [Event.sendCommand a.numberValue HdaVerb.HDA_VERB_SET_CONFIG_DEFAULT_BYTES_0
            (b.numberValue >>> 0),
          Event.sendCommand a.numberValue HdaVerb.HDA_VERB_SET_CONFIG_DEFAULT_BYTES_1
            (b.numberValue >>> 8),
          Event.sendCommand a.numberValue HdaVerb.HDA_VERB_SET_CONFIG_DEFAULT_BYTES_2
            (b.numberValue >>> 16),
          Event.sendCommand a.numberValue HdaVerb.HDA_VERB_SET_CONFIG_DEFAULT_BYTES_3
            (b.numberValue >>> 24)] ++ pinPairEvents rest) ∧
    (∀ a b rest, a.numberValue = UINT32_MINUS_ONE →
      pinPairEvents (a :: b :: rest) = pinPairEvents rest) ∧
    (∀ config m groups, config.mPinConfigDefault = some groups →
      toUInt32 (hda.respond (m.trace ++ [Event.lock, Event.hdaInit]) Event.getLayoutID) =
        layoutID → layoutID ≠ UINT32_MINUS_ONE →
      CodecCommanderProbeInit.probe config hda false true m =
        { self := m.self,
          trace := m.trace ++ (Event.lock :: Event.hdaInit :: Event.getLayoutID ::
            ((probeVerbs layoutID config.mCustomCommands).map Event.sendVerb ++
              groups.flatMap (pinGroupEvents layoutID) ++ [Event.unlock])) }) := by
  refine ⟨fun groups m => probePinConfigs_eq hda layoutID groups m, ?_, ?_, ?_, ?_, ?_⟩
  · intro lid pins hodd
    have : ¬ (pins.length % 2 = 0) := by omega
    simp [pinGroupEvents, this]
  · intro lid pins heven hl
    simp [pinGroupEvents, heven, hl]
  · intro a b rest hv
    simp [pinPairEvents, hv, pinConfigCommands]
  · intro a b rest hv
    simp [pinPairEvents, hv]
  · intro config m groups hg hl hne
    rw [probe_eq config hda m (by rw [hl]; exact hne), hl, hg]
    rfl

/-- C17, at a concrete input: a profile with an odd-length group for every
layout and an even-length group for layout 3 whose second pair has no valid
node id, probed on a codec with layout id 3: the verbs of the two matching
command groups, then the four commands of the one valid pair. -/
theorem C17_pin_config_groups_witness :
    Example.cfgProbe.mPinConfigDefault = some [Example.pinGroupOdd, Example.pinGroupEven] ∧
    CodecCommanderProbeInit.probe Example.cfgProbe Example.hdaWorking false true init =
      { self := init.self,
        trace := init.trace ++ (Event.lock :: Event.hdaInit :: Event.getLayoutID ::
          ((probeVerbs 3 Example.cfgProbe.mCustomCommands).map Event.sendVerb ++
            [Example.pinGroupOdd, Example.pinGroupEven].flatMap (pinGroupEvents 3) ++
            [Event.unlock])) } ∧
    (probeVerbs 3 Example.cfgProbe.mCustomCommands).map Event.sendVerb ++
        [Example.pinGroupOdd, Example.pinGroupEven].flatMap (pinGroupEvents 3) =
      [Event.sendVerb 16, Event.sendVerb 17, Event.sendVerb 32, Event.sendVerb 33,
        Event.sendCommand 20 HdaVerb.HDA_VERB_SET_CONFIG_DEFAULT_BYTES_0 2427412752,
        Event.sendCommand 20 HdaVerb.HDA_VERB_SET_CONFIG_DEFAULT_BYTES_1 9482081,
        Event.sendCommand 20 HdaVerb.HDA_VERB_SET_CONFIG_DEFAULT_BYTES_2 37039,
        Event.sendCommand 20 HdaVerb.HDA_VERB_SET_CONFIG_DEFAULT_BYTES_3 144] :=
  ⟨rfl,
    (C17_pin_config_groups Example.hdaWorking 3).2.2.2.2.2 Example.cfgProbe init
      [Example.pinGroupOdd, Example.pinGroupEven] rfl (by decide) (by decide),
    by decide⟩

/-- C15 fails as stated: a wake transition after a sleep, entered without the
lock as `setPowerState` enters it, starts with the timing-compensation call on
the port and ends with the store to `mEAPDPoweredDown`, both outside the lock;
so does the wake callback as a whole. -/
theorem C15_lock_discipline_counterexample :
    (Example.asleep [20]).trace = [] ∧
    (handleStateChange Example.cfgNodes Example.hdaWorking
        IOAudioDevicePowerState.kIOAudioDeviceActive (Example.asleep [20])).map
      (fun m => (m.trace.head?, m.trace.getLast?,
        heldThroughout Event.isPortCall 0 m.trace, heldThroughout Event.isFlagStore 0 m.trace)) =
      some (some Event.applyIntelTCSEL, some (Event.storeEAPDPoweredDown false), false, false) ∧
    (run Example.cfgNodes Example.hdaWorking [Callback.setPowerState kPowerStateNormal]
        (Example.asleep [20])).map
      (fun m => heldThroughout Event.isPortCallOrFlagStore 0 m.trace) = some false := by
  refine ⟨rfl, by decide, by decide⟩

/-- C15, amended: the commands to the codec (EAPD set/clear and every other
addressed verb, custom command verbs, codec resets) are sent while the lock is
held, in `handleStateChange` and over every sequence of `setPowerState`,
`setPowerStateExternal` and polling-tick calls, whatever the lock depth on
entry, and the lock is back at that depth afterwards.  In `start` and in `probe`
every call on the port (initialization, discovery, layout-id query, custom
verbs, pin-config commands) is made while the lock is held, again from every
entry depth.  The reset and the store of `performCodecReset` are made under the
lock.  In each of these the lock is released exactly as often as it is
acquired: no `unlock` comes without an acquisition by the same call still
outstanding, and none is outstanding at the end (`lockBalance`).  But a run of
`handleStateChange` entered without the lock makes a port call (the timing
compensation, or the layout-id query of `customCommands`) and a store to
`mColdBoot` / `mEAPDPoweredDown` outside the lock.  A sequence of callbacks
returns once the capable-node set has been constructed; `start` and `probe`
always return. -/
theorem C15_lock_discipline (cfg : Configuration) (hda : IntelHDA) :
    (∀ cs m m', run cfg hda cs m = some m' →
      ∃ evs, m'.trace = m.trace ++ evs ∧ (∀ d, balancedHeld Event.isCommand d evs) ∧
        lockBalance 0 evs = some 0) ∧
    (∀ target m m', handleStateChange cfg hda target m = some m' →
      ∃ evs, m'.trace = m.trace ++ evs ∧ (∀ d, balancedHeld Event.isCommand d evs) ∧
        lockBalance 0 evs = some 0 ∧
        heldThroughout Event.isFlagStore 0 evs = false ∧
        heldThroughout Event.isPortCall 0 evs = false) ∧
    (∀ providerOk initOk arrayOk timerOk startingNode totalNodes m,
      ∃ evs, (start cfg hda providerOk initOk arrayOk timerOk startingNode totalNodes
          m).2.trace = m.trace ++ evs ∧
        (∀ d, balancedHeld Event.isPortCallOrFlagStore d evs) ∧
        lockBalance 0 evs = some 0) ∧
    (∀ ccpioff initOk m,
      ∃ evs, (CodecCommanderProbeInit.probe cfg hda ccpioff initOk m).trace = m.trace ++ evs ∧
        (∀ d, balancedHeld Event.isPortCallOrFlagStore d evs) ∧
        lockBalance 0 evs = some 0) ∧
    (∀ m, ∃ evs, (performCodecReset m).trace = m.trace ++ evs ∧
      (∀ d, balancedHeld Event.isPortCallOrFlagStore d evs) ∧
      lockBalance 0 evs = some 0) ∧
    (∀ cs m, m.self.mEAPDCapableNodes.isSome = true → ∃ m', run cfg hda cs m = some m') := by
  refine ⟨?_, ?_, ?_, ?_, ?_, ?_⟩
  · intro cs m m' h
    obtain ⟨evs, ht, hb⟩ := run_locks cfg hda cs m m' h
    exact ⟨evs, ht, hb, lockBalance_of_balancedHeld _ evs hb⟩
  · intro target m m' h
    obtain ⟨evs, ht, hb, hf, hp⟩ := handleStateChange_locks cfg hda target m m' h
    exact ⟨evs, ht, hb, lockBalance_of_balancedHeld _ evs hb, hf, hp⟩
  · intro providerOk initOk arrayOk timerOk startingNode totalNodes m
    obtain ⟨evs, ht, hb⟩ := start_locks Event.isPortCallOrFlagStore cfg hda providerOk initOk
      arrayOk timerOk startingNode totalNodes m
    exact ⟨evs, ht, hb, lockBalance_of_balancedHeld _ evs hb⟩
  · intro ccpioff initOk m
    obtain ⟨evs, ht, hb⟩ := probe_locks Event.isPortCallOrFlagStore cfg hda ccpioff initOk m
    exact ⟨evs, ht, hb, lockBalance_of_balancedHeld _ evs hb⟩
  · intro m
    rw [performCodecReset_eq]
    exact ⟨_, rfl, fun d => balancedHeld_resetEvents _ d _,
      lockBalance_of_balancedHeld Event.isPortCallOrFlagStore _
        (fun d => balancedHeld_resetEvents _ d _)⟩
  · intro cs m hn
    exact run_isSome cfg hda cs m hn

/-- C15 amended, at a concrete input: wake, sleep, wake on a codec that fails
every EAPD command, so that resets and retries are part of the run; and `start`
on a working codec with nodes 2 to 31.  A list with a second `unlock` has no
balance. -/
theorem C15_lock_discipline_witness :
    (∃ m', run Example.cfgNodes Example.hdaFailing
        [Callback.setPowerState kPowerStateNormal, Callback.setPowerState kPowerStateSleep,
          Callback.setPowerState kPowerStateNormal] (Example.attached [20]) = some m' ∧
      ∃ evs, m'.trace = (Example.attached [20]).trace ++ evs ∧
        (∀ d, balancedHeld Event.isCommand d evs) ∧ lockBalance 0 evs = some 0) ∧
    (∃ evs, (start Example.cfgNodes Example.hdaFailing true true true true 2 30
          CodecCommander.init).2.trace = CodecCommander.init.trace ++ evs ∧
        (∀ d, balancedHeld Event.isPortCallOrFlagStore d evs) ∧
        lockBalance 0 evs = some 0) ∧
    lockBalance 0 [Event.lock, Event.hdaInit, Event.unlock, Event.unlock] = none :=
  ⟨(Option.isSome_iff_exists.1 (by decide :
      (run Example.cfgNodes Example.hdaFailing
        [Callback.setPowerState kPowerStateNormal, Callback.setPowerState kPowerStateSleep,
          Callback.setPowerState kPowerStateNormal] (Example.attached [20])).isSome = true)).elim
    fun m' h => ⟨m', h,
      (C15_lock_discipline Example.cfgNodes Example.hdaFailing).1 _ (Example.attached [20]) m' h⟩,
    (C15_lock_discipline Example.cfgNodes Example.hdaFailing).2.2.1 true true true true 2 30
      CodecCommander.init,
    by decide⟩

/-- C21: with `performReset` set and `mColdBoot` false, `setPowerState` with
ordinal Normal (or Doze) issues one codec reset under the lock, which stores
`mEAPDPoweredDown = true`, and then runs the Active branch of the handler on the
state after the reset, whatever `mEAPDPoweredDown` was on entry: the call gives
the same result for either entry value.  After the reset come the
timing-compensation call, the EAPD step with level 2 iff `updateNodes` is set,
the whole of `customCommands(kStateWake)` (the verbs of the onWake groups whose
layout matches), the store `mEAPDPoweredDown = false`, and the timer arm with
100 ms when polling is on.  The call returns once the capable-node set has been
constructed or `updateNodes` is off. -/
theorem C21_reset_forces_wake_handler (cfg : Configuration) (hda : IntelHDA) (ord : Nat)
    (m : Machine) (hord : ord = kPowerStateNormal ∨ ord = kPowerStateDoze)
    (hpr : cfg.mPerformReset = true) (hcb : m.self.mColdBoot = false) :
    setPowerState cfg hda ord m =
      (handleStateChange cfg hda IOAudioDevicePowerState.kIOAudioDeviceActive
        { self := { m.self with mEAPDPoweredDown := true },
          trace := m.trace ++
            [Event.lock, Event.resetCodec, Event.storeEAPDPoweredDown true, Event.unlock] }).map
        (armWakeTimer cfg) ∧
    (∀ b, setPowerState cfg hda ord
        { self := { m.self with mEAPDPoweredDown := b }, trace := m.trace } =
      setPowerState cfg hda ord m) ∧
    (∀ m', setPowerState cfg hda ord m = some m' →
      ∃ E, ((cfg.mUpdateNodes = false ∧ E = []) ∨
          (cfg.mUpdateNodes = true ∧ ∃ nodes, m.self.mEAPDCapableNodes = some nodes ∧
            E = eapdStepEvents cfg hda 2 nodes
              { self := { m.self with mEAPDPoweredDown := true },
                trace := m.trace ++
                  [Event.lock, Event.resetCodec, Event.storeEAPDPoweredDown true, Event.unlock,
                    Event.applyIntelTCSEL] })) ∧
        m'.trace = m.trace ++
          ([Event.lock, Event.resetCodec, Event.storeEAPDPoweredDown true, Event.unlock] ++
            Event.applyIntelTCSEL :: E ++
            customEvents cfg hda CodecCommanderState.kStateWake
              (m.trace ++
                [Event.lock, Event.resetCodec, Event.storeEAPDPoweredDown true, Event.unlock] ++
                Event.applyIntelTCSEL :: E) ++
            [Event.storeEAPDPoweredDown false] ++
            (if cfg.mCheckInfinite then [Event.setTimeoutMS 100] else [])) ∧
        m'.self = { m.self with mEAPDPoweredDown := false }) ∧
    (m.self.mEAPDCapableNodes.isSome = true ∨ cfg.mUpdateNodes = false →
      ∃ m', setPowerState cfg hda ord m = some m') := by
  have key : ∀ x : Machine, x.self.mColdBoot = false →
      setPowerState cfg hda ord x =
        (handleStateChange cfg hda IOAudioDevicePowerState.kIOAudioDeviceActive
          { self := { x.self with mEAPDPoweredDown := true },
            trace := x.trace ++
              [Event.lock, Event.resetCodec, Event.storeEAPDPoweredDown true, Event.unlock] }).map
          (armWakeTimer cfg) := by
    intro x hx
    rw [setPowerState_wake_eq cfg hda ord hord]
    simp [hpr, performCodecReset_eq, hx, resetEvents]
  refine ⟨key m hcb, ?_, ?_, ?_⟩
  · intro b
    rw [key m hcb]
    exact key ⟨{ m.self with mEAPDPoweredDown := b }, m.trace⟩ hcb
  · intro m' h
    rw [key m hcb] at h
    obtain ⟨m2, h2, rfl⟩ := Option.map_eq_some'.1 h
    obtain ⟨E, hE, hm2⟩ := handleStateChange_wake_events cfg hda
      IOAudioDevicePowerState.kIOAudioDeviceActive (by decide) _ m2 h2
    refine ⟨E, ?_, ?_, ?_⟩
    · simpa [Machine.emit] using hE
    · rw [armWakeTimer_eq, hm2]
      simp [hcb]
    · rw [armWakeTimer_eq, hm2]
  · intro hn
    rw [key m hcb]
    apply Option.isSome_iff_exists.1
    rw [Option.isSome_map']
    apply handleStateChange_isSome
    rcases hn with h | h
    · exact Or.inl h
    · exact Or.inr (by simpa using h)

/-- C21, at a concrete input: "Perform Reset" on, the engine awake after a
sleep/wake cycle, so that `mEAPDPoweredDown` is false on entry; the reset and
the whole Active handler run all the same. -/
theorem C21_reset_forces_wake_handler_witness :
    (Example.awake [20]).self.mEAPDPoweredDown = false ∧
    (setPowerState Example.cfgReset Example.hdaWorking kPowerStateNormal
        (Example.awake [20])).map (fun m => m.trace) =
      some [Event.lock, Event.resetCodec, Event.storeEAPDPoweredDown true, Event.unlock,
        Event.applyIntelTCSEL, Event.ioSleep 300, Event.lock,
        Event.sendCommand 20 HdaVerb.HDA_VERB_EAPDBTL_SET 2, Event.unlock, Event.getLayoutID,
        Event.lock, Event.sendVerb 32, Event.sendVerb 33, Event.unlock,
        Event.storeEAPDPoweredDown false, Event.setTimeoutMS 100] ∧
    setPowerState Example.cfgReset Example.hdaWorking kPowerStateNormal
        { self := { (Example.awake [20]).self with mEAPDPoweredDown := true },
          trace := (Example.awake [20]).trace } =
      setPowerState Example.cfgReset Example.hdaWorking kPowerStateNormal (Example.awake [20]) :=
  ⟨rfl, by decide,
    (C21_reset_forces_wake_handler Example.cfgReset Example.hdaWorking kPowerStateNormal
      (Example.awake [20]) (Or.inl rfl) rfl rfl).2.1 true⟩

/-- C22: when `probe` runs (no `-ccpioff`, the port initializes) and the layout
id is available, the custom command verbs it sends are, in list order, all the
verbs of every group whose layout filter matches, and of no other group; the
trigger flags are not read: a profile whose groups differ from the given ones
in `OnInit`, `OnSleep` and `OnWake` only (all three false included) gives the
same run, and every verb of a layout-matching group is sent whatever its flags.
The engine's `customCommands(kStateInit)` sends the verbs of the groups whose
layout filter matches and whose `OnInit` is set, only those, and a successful
`start` sends no other custom command verb. -/
theorem C22_probe_ignores_trigger_flags (config : Configuration) (hda : IntelHDA) (m : Machine)
    (hl : toUInt32 (hda.respond (m.trace ++ [Event.lock, Event.hdaInit]) Event.getLayoutID) ≠
      UINT32_MINUS_ONE) :
    (∃ evs, CodecCommanderProbeInit.probe config hda false true m =
        { self := m.self, trace := m.trace ++ evs } ∧
      evs.filter Event.isVerb =
        ((config.mCustomCommands.filter (fun cc =>
            layoutTest cc.layoutID
              (toUInt32 (hda.respond (m.trace ++ [Event.lock, Event.hdaInit])
                Event.getLayoutID)))).flatMap
          (fun cc => cc.Commands)).map Event.sendVerb) ∧
    (∀ config2 : Configuration, config2.mPinConfigDefault = config.mPinConfigDefault →
      config2.mCustomCommands.map CustomCommand.eraseFlags =
        config.mCustomCommands.map CustomCommand.eraseFlags →
      CodecCommanderProbeInit.probe config2 hda false true m =
        CodecCommanderProbeInit.probe config hda false true m) ∧
    (∀ cc ∈ config.mCustomCommands,
      layoutTest cc.layoutID
        (toUInt32 (hda.respond (m.trace ++ [Event.lock, Event.hdaInit])
          Event.getLayoutID)) = true →
      ∀ c ∈ cc.Commands,
        Event.sendVerb c ∈ (CodecCommanderProbeInit.probe config hda false true m).trace) ∧
    customCommands config hda CodecCommanderState.kStateInit m =
      { self := m.self,
        trace := m.trace ++ (Event.getLayoutID :: Event.lock ::
          (((config.mCustomCommands.filter (fun cc =>
                cc.OnInit &&
                  layoutTest cc.layoutID (toUInt32 (hda.respond m.trace Event.getLayoutID)))).flatMap
              (fun cc => cc.Commands)).map Event.sendVerb ++ [Event.unlock])) } ∧
    (∀ providerOk initOk arrayOk timerOk startingNode totalNodes,
      (start config hda providerOk initOk arrayOk timerOk startingNode totalNodes m).1 = true →
      ∃ pre, (∀ c, Event.sendVerb c ∉ pre) ∧
        (start config hda providerOk initOk arrayOk timerOk startingNode totalNodes m).2.trace =
          m.trace ++ pre ++ (Event.getLayoutID :: Event.lock ::
            (((config.mCustomCommands.filter (fun cc =>
                  cc.OnInit &&
                    layoutTest cc.layoutID
                      (toUInt32 (hda.respond (m.trace ++ pre) Event.getLayoutID)))).flatMap
                (fun cc => cc.Commands)).map Event.sendVerb ++
              [Event.unlock, Event.unlock]))) := by
  refine ⟨?_, ?_, ?_, ?_, ?_⟩
  · refine ⟨_, probe_eq config hda m hl, ?_⟩
    simp only [List.filter_cons, Event.isVerb, List.filter_append, filter_isVerb_sendVerb,
      filter_isVerb_probePinEvents, List.filter_nil, Bool.false_eq_true, if_false,
      List.append_nil, probeVerbs]
  · intro config2 hp hc
    exact probe_eraseFlags config config2 hda false true m hp hc
  · intro cc hcc hlt c hc
    rw [probe_eq config hda m hl]
    simp only [List.mem_append, List.mem_cons, List.mem_map, probeVerbs, List.mem_flatMap,
      List.mem_filter]
    exact Or.inr (Or.inr (Or.inr (Or.inr (Or.inl (Or.inl ⟨c, ⟨cc, ⟨hcc, hlt⟩, hc⟩, rfl⟩)))))
  · rw [customCommands_eq]
    simp only [selectedVerbs, triggerTest_eq_flagOf, flagOf]
  · intro providerOk initOk arrayOk timerOk startingNode totalNodes hok
    obtain ⟨pre, hpre, htr⟩ := start_ok_trace config hda providerOk initOk arrayOk timerOk
      startingNode totalNodes m hok
    refine ⟨pre, hpre, ?_⟩
    rw [htr]
    simp only [customEvents, selectedVerbs, triggerTest_eq_flagOf, flagOf, List.append_assoc,
      List.cons_append, List.nil_append]

/-- C22, at a concrete input: a profile with a flagless group for layout 3, an
init group, a sleep group and a wake group for another layout, on a codec with
layout id 3.  `probe` sends the verbs of the first three groups, `start` those
of the init group only, and erasing all flags of the profile does not change
what `probe` does. -/
theorem C22_probe_ignores_trigger_flags_witness :
    (CodecCommanderProbeInit.probe Example.cfgFlags Example.hdaWorking false true
        CodecCommander.init).trace.filter Event.isVerb =
      [Event.sendVerb 64, Event.sendVerb 65, Event.sendVerb 80, Event.sendVerb 16,
        Event.sendVerb 17] ∧
    (start Example.cfgFlags Example.hdaWorking true true true true 2 30 CodecCommander.init).1 =
      true ∧
    (start Example.cfgFlags Example.hdaWorking true true true true 2 30
        CodecCommander.init).2.trace.filter Event.isVerb = [Event.sendVerb 80] ∧
    CodecCommanderProbeInit.probe
        { Example.cfgFlags with
          mCustomCommands := Example.cfgFlags.mCustomCommands.map CustomCommand.eraseFlags }
        Example.hdaWorking false true CodecCommander.init =
      CodecCommanderProbeInit.probe Example.cfgFlags Example.hdaWorking false true
        CodecCommander.init :=
  ⟨by decide, by decide, by decide,
    (C22_probe_ignores_trigger_flags Example.cfgFlags Example.hdaWorking CodecCommander.init
      (by decide)).2.1 _ rfl (by decide)⟩
